import Mathlib

/-!
WardenWin: key set-up, check scheduling and response validation.

A shallow embedding of the functions of `src/game/Warden/WardenWin.cpp`:
`Init`, `GetModuleForClient`, `InitializeModule`, `HandleHashResult`,
`RequestData` and `HandleData`.  Bytes, ids and counters are natural numbers,
reduced modulo the width of the C++ type where the width matters.  Calls that
can throw or read outside an array return `Except Fault _`.
-/

namespace WardenWin

/-! ## Data model -/

/-- The type tags `RequestData` and `HandleData` switch on.  The numeric values
of the constants are declared in a header that is not among the sources, so the
tags are kept symbolic.  `TIMING_CHECK` and `PROC_CHECK` have no `case` label in
either switch and take the `default` branch. -/
inductive WardenCheckType
  | MEM_CHECK
  | PAGE_CHECK_A
  | PAGE_CHECK_B
  | MPQ_CHECK
  | LUA_STR_CHECK
  | DRIVER_CHECK
  | TIMING_CHECK
  | PROC_CHECK
  | MODULE_CHECK
  deriving DecidableEq, Repr

/-- The fields of a `WardenCheck` that `WardenWin.cpp` reads: `Type`, `Data`
(as the byte array `Data.AsByteArray(0, false)` of `Data.GetNumBytes()` bytes),
`Address`, `Length`, `Str` and `CheckId`. -/
structure WardenCheck where
  Type_ : WardenCheckType
  Data : List Nat
  Address : Nat
  Length : Nat
  Str : List Nat
  CheckId : Nat
  deriving DecidableEq, Repr

/-- A `WardenCheckResult`: `Result` is the byte array
`Result.AsByteArray(0, false)`. -/
structure WardenCheckResult where
  Result : List Nat
  deriving DecidableEq, Repr

/-- Modelled from the spec: the check catalog `sWardenCheckMgr`, whose class is
not among the sources.  It is the read-only, build-indexed registry of check
definitions and expected-result records; a lookup of an absent entry returns
`none` (a null pointer in the program). -/
structure WardenCheckMgr where
  GetWardenDataById : Nat → Nat → Option WardenCheck
  GetWardenResultById : Nat → Nat → Option WardenCheckResult
  GetWardenCheckIds : Bool → Nat → List Nat

/-- The ways a call leaves the normal control flow: `operator>>` reading past
the end of the buffer throws, a raw memory read (`memcmp`, the checksum) can run
past the end of an array, and a missing catalog entry is dereferenced. -/
inductive Fault
  | byteBufferException
  | outOfBounds
  | nullPointer
  deriving DecidableEq, Repr

/-- Modelled from the spec: the byte cursor `ByteBuffer`, whose class is not
among the sources: the stored bytes, the read position and the write
position. -/
structure ByteBuffer where
  storage : List Nat
  rpos : Nat
  wpos : Nat
  deriving DecidableEq, Repr

/-- Little-endian value of a byte sequence. -/
def fromLE : List Nat → Nat
  | [] => 0
  | b :: bs => b % 256 + 256 * fromLE bs

/-- Little-endian bytes of the low `n` bytes of `v`. -/
def toLE : Nat → Nat → List Nat
  | 0, _ => []
  | n + 1, v => v % 256 :: toLE n (v / 256)

namespace ByteBuffer

/-- The bytes from the read position on: `contents() + rpos()`. -/
def atCursor (b : ByteBuffer) : List Nat := b.storage.drop b.rpos

/-- Modelled from the spec: `buff >> x` for an `n`-byte unsigned `x`.  It
throws when fewer than `n` bytes remain, else returns the little-endian value
and advances the read position by `n`. -/
def read (b : ByteBuffer) (n : Nat) : Except Fault (Nat × ByteBuffer) :=
  if b.rpos + n ≤ b.storage.length then
    .ok (fromLE (b.atCursor.take n), { b with rpos := b.rpos + n })
  else
    .error .byteBufferException

/-- Modelled from the spec: `buff.rpos(p)` sets the read position,
unchecked. -/
def setRpos (b : ByteBuffer) (p : Nat) : ByteBuffer := { b with rpos := p }

/-- Modelled from the spec: `buff << uint8/uint32(v)` and `buff.append`
write at the end of the buffer. -/
def append (b : ByteBuffer) (bytes : List Nat) : ByteBuffer :=
  { b with storage := b.storage ++ bytes, wpos := b.wpos + bytes.length }

end ByteBuffer

/-- A raw read of `n` bytes from an array (`memcpy`, the checksum): reading
from an array that holds fewer than `n` bytes is an out-of-bounds read. -/
def rawRead (a : List Nat) (n : Nat) : Except Fault (List Nat) :=
  if n ≤ a.length then .ok (a.take n) else .error .outOfBounds

/-- The test `memcmp(a, b, n) != 0` on two arrays, each read raw. -/
def memcmpNe (a b : List Nat) (n : Nat) : Except Fault Bool :=
  match rawRead a n with
  | .error e => .error e
  | .ok x =>
    match rawRead b n with
    | .error e => .error e
    | .ok y => .ok (x != y)

/-- The three endings of a `RESULT` log line. -/
inductive Verdict
  | notZero
  | fail
  | passed
  deriving DecidableEq, Repr

/-- The lines `HandleData` writes with `sLog.outWarden`.  A `result` line
carries the type, the verdict and the id `*itr` of the iteration that wrote
it. -/
inductive LogEvent
  | failedChecksum
  | failedTiming
  | ticks (ticksNow serverTicks newClientTicks : Nat)
  | waittime (ms : Nat)
  | result (type : WardenCheckType) (verdict : Verdict) (checkId : Nat)
  | luaString (str : List Nat)
  | failedCheck (checkFailed : Nat)
  deriving DecidableEq, Repr

/-- A call of `Penalty`: without an argument, or with the definition looked up
for `checkFailed`. -/
inductive PenaltyCall
  | noCheck
  | forCheck (checkFailed : Nat) (check : Option WardenCheck)
  deriving DecidableEq, Repr

/-- Modelled from the spec: the state of the stream cipher of one direction,
whose class is not among the sources (the source names the algorithm, RC4, in
its comments): the permutation and the two stream positions. -/
structure SARC4 where
  S : List Nat
  i : Nat
  j : Nat
  deriving DecidableEq, Repr

/-- The fields of a `ClientWardenModule` that `GetModuleForClient` fills. -/
structure ClientWardenModule where
  Id : List Nat
  Key : List Nat
  CompressedSize : Nat
  CompressedData : List Nat
  deriving DecidableEq, Repr

/-- The session fields `WardenWin.cpp` uses.  The todo pools are vectors written
front first: `back()` is the last element.  The fields after `_currentChecks`
are those of the key set-up (`Init`, `HandleHashResult`). -/
structure Session where
  build : Nat
  _inputKey : List Nat
  _serverTicks : Nat
  _memChecksTodo : List Nat
  _otherChecksTodo : List Nat
  _currentChecks : List Nat
  _outputKey : List Nat := []
  _seed : List Nat := []
  _inputCrypto : SARC4 := ⟨[], 0, 0⟩
  _outputCrypto : SARC4 := ⟨[], 0, 0⟩
  _previousTimestamp : Nat := 0
  _module : Option ClientWardenModule := none
  deriving DecidableEq, Repr

/-! ## HandleData -/

/-- The local state of the check loop of `HandleData`. -/
structure LoopState where
  buff : ByteBuffer
  checkFailed : Nat
  log : List LogEvent
  deriving DecidableEq, Repr

/-- What a call of `HandleData` that returns leaves behind: the buffer, the last
value of `checkFailed` (0 when the loop was not reached), the log lines, the
`Penalty` calls, and whether the end of the function body was reached. -/
structure HandleDataResult where
  buff : ByteBuffer
  checkFailed : Nat
  log : List LogEvent
  penalty : List PenaltyCall
  completed : Bool
  deriving DecidableEq, Repr

/-- One iteration of the loop over `_currentChecks` (lines 372-497). -/
def checkStep (mgr : WardenCheckMgr) (build : Nat) (st : LoopState) (id : Nat) :
    Except Fault LoopState :=
  let rd := mgr.GetWardenDataById build id
  let rs := mgr.GetWardenResultById build id
  match rd with
  | none => .error .nullPointer
  | some rd =>
    match rd.Type_ with
    | .MEM_CHECK =>
      match st.buff.read 1 with
      | .error e => .error e
      | .ok (Mem_Result, buff) =>
        if Mem_Result ≠ 0 then
          .ok { buff := buff, checkFailed := id,
                log := st.log ++ [.result .MEM_CHECK .notZero id] }
        else
          match rs with
          | none => .error .nullPointer
          | some rs =>
            match memcmpNe buff.atCursor rs.Result rd.Length with
            | .error e => .error e
            | .ok true =>
              .ok { buff := buff.setRpos (buff.rpos + rd.Length), checkFailed := id,
                    log := st.log ++ [.result .MEM_CHECK .fail id] }
            | .ok false =>
              .ok { buff := buff.setRpos (buff.rpos + rd.Length),
                    checkFailed := st.checkFailed,
                    log := st.log ++ [.result .MEM_CHECK .passed id] }
    | .PAGE_CHECK_A | .PAGE_CHECK_B | .DRIVER_CHECK | .MODULE_CHECK =>
      match memcmpNe st.buff.atCursor [0xE9] 1 with
      | .error e => .error e
      | .ok true =>
        .ok { buff := st.buff.setRpos (st.buff.rpos + 1), checkFailed := id,
              log := st.log ++ [.result rd.Type_ .fail id] }
      | .ok false =>
        .ok { buff := st.buff.setRpos (st.buff.rpos + 1), checkFailed := st.checkFailed,
              log := st.log ++ [.result rd.Type_ .passed id] }
    | .LUA_STR_CHECK =>
      match st.buff.read 1 with
      | .error e => .error e
      | .ok (Lua_Result, buff) =>
        if Lua_Result ≠ 0 then
          .ok { buff := buff, checkFailed := id,
                log := st.log ++ [.result .LUA_STR_CHECK .fail id] }
        else
          match buff.read 1 with
          | .error e => .error e
          | .ok (luaStrLen, buff) =>
            if luaStrLen ≠ 0 then
              match rawRead buff.atCursor luaStrLen with
              | .error e => .error e
              | .ok str =>
                .ok { buff := buff.setRpos (buff.rpos + luaStrLen),
                      checkFailed := st.checkFailed,
                      log := st.log ++ [.luaString str, .result .LUA_STR_CHECK .passed id] }
            else
              .ok { buff := buff.setRpos (buff.rpos + luaStrLen),
                    checkFailed := st.checkFailed,
                    log := st.log ++ [.result .LUA_STR_CHECK .passed id] }
    | .MPQ_CHECK =>
      match st.buff.read 1 with
      | .error e => .error e
      | .ok (Mpq_Result, buff) =>
        if Mpq_Result ≠ 0 then
          .ok { buff := buff, checkFailed := id,
                log := st.log ++ [.result .MPQ_CHECK .notZero id] }
        else
          match rs with
          | none => .error .nullPointer
          | some rs =>
            match memcmpNe buff.atCursor rs.Result 20 with
            | .error e => .error e
            | .ok true =>
              .ok { buff := buff.setRpos (buff.rpos + 20), checkFailed := id,
                    log := st.log ++ [.result .MPQ_CHECK .fail id] }
            | .ok false =>
              .ok { buff := buff.setRpos (buff.rpos + 20), checkFailed := st.checkFailed,
                    log := st.log ++ [.result .MPQ_CHECK .passed id] }
    | .TIMING_CHECK | .PROC_CHECK => .ok st

/-- The loop over `_currentChecks`, in list order. -/
def checkLoop (mgr : WardenCheckMgr) (build : Nat) :
    LoopState → List Nat → Except Fault LoopState
  | st, [] => .ok st
  | st, id :: rest =>
    match checkStep mgr build st id with
    | .error e => .error e
    | .ok st' => checkLoop mgr build st' rest

/-- Lines 499-506: the penalty step after the loop. -/
def finishCycle (mgr : WardenCheckMgr) (build : Nat) (st : LoopState) : HandleDataResult :=
  if st.checkFailed > 0 then
    { buff := st.buff, checkFailed := st.checkFailed,
      log := st.log ++ [.failedCheck st.checkFailed],
      penalty := [.forCheck st.checkFailed (mgr.GetWardenDataById build st.checkFailed)],
      completed := true }
  else
    { buff := st.buff, checkFailed := st.checkFailed, log := st.log, penalty := [],
      completed := true }

/-- Lines 345-506: the timing answer, the check loop and the penalty step, run
on the buffer whose read position is just after the 6-byte header. -/
def afterChecksum (mgr : WardenCheckMgr) (ticksNow : Nat) (w : Session) (buff : ByteBuffer) :
    Except Fault HandleDataResult :=
  match buff.read 1 with
  | .error e => .error e
  | .ok (result, buff) =>
    if result = 0 then
      .ok { buff := buff, checkFailed := 0, log := [.failedTiming], penalty := [.noCheck],
            completed := false }
    else
      match buff.read 4 with
      | .error e => .error e
      | .ok (newClientTicks, buff) =>
        let ourTicks := (newClientTicks + (ticksNow + 2 ^ 32 - w._serverTicks) % 2 ^ 32) % 2 ^ 32
        let log := [LogEvent.ticks ticksNow w._serverTicks newClientTicks,
                    LogEvent.waittime ((ourTicks + 2 ^ 32 - newClientTicks) % 2 ^ 32)]
        match checkLoop mgr w.build { buff := buff, checkFailed := 0, log := log }
            w._currentChecks with
        | .error e => .error e
        | .ok st => .ok (finishCycle mgr w.build st)

/-- The function `WardenWin::HandleData` (lines 329-507).  `BuildChecksum` is the
checksum of a byte sequence, `ticksNow` the clock read at line 359.  The checksum
is recomputed over `Length` bytes at `contents() + rpos()`. -/
def HandleData (mgr : WardenCheckMgr) (BuildChecksum : List Nat → Nat) (ticksNow : Nat)
    (w : Session) (buff : ByteBuffer) : Except Fault HandleDataResult :=
  match buff.read 2 with
  | .error e => .error e
  | .ok (Length, buff) =>
    match buff.read 4 with
    | .error e => .error e
    | .ok (Checksum, buff) =>
      match rawRead buff.atCursor Length with
      | .error e => .error e
      | .ok data =>
        if Checksum ≠ BuildChecksum data then
          .ok { buff := buff.setRpos buff.wpos, checkFailed := 0, log := [.failedChecksum],
                penalty := [.noCheck], completed := false }
        else
          afterChecksum mgr ticksNow w buff

/-! ## RequestData -/

/-- Modelled from the spec: what `RequestData` takes from headers and services
that are not among the sources: the catalog, the byte value of each type tag,
the request-marker opcode, the two configured quotas (32-bit unsigned), and the
keyed hash `HMACSHA1` (key, data). -/
structure RequestEnv where
  mgr : WardenCheckMgr
  tagByte : WardenCheckType → Nat
  WARDEN_SMSG_CHEAT_CHECKS_REQUEST : Nat
  NUM_MEM_CHECKS : Nat
  NUM_OTHER_CHECKS : Nat
  HMACSHA1 : List Nat → List Nat → List Nat

/-- The first draw loop (lines 188-202).  The pool is passed back first (the head
is `back()`), `i` is the 16-bit loop counter and `cur` is `_currentChecks`.
Returns the pool that is left (back first) and `_currentChecks`. -/
def drawMemChecks (quota : Nat) : Nat → List Nat → List Nat → List Nat × List Nat
  | _, [], cur => ([], cur)
  | i, id :: rest, cur =>
    if i < quota then drawMemChecks quota ((i + 1) % 2 ^ 16) rest (cur ++ [id])
    else (id :: rest, cur)

/-- The string pre-pass of one secondary draw (lines 224-238). -/
def appendCheckString (mgr : WardenCheckMgr) (build : Nat) (buff : ByteBuffer) (id : Nat) :
    ByteBuffer :=
  match mgr.GetWardenDataById build id with
  | none => buff
  | some wd =>
    match wd.Type_ with
    | .MPQ_CHECK | .LUA_STR_CHECK | .DRIVER_CHECK =>
      (buff.append [wd.Str.length % 256]).append wd.Str
    | _ => buff

/-- The second draw loop (lines 207-239), pool back first as in
`drawMemChecks`; it also writes the pre-pass strings to the payload. -/
def drawOtherChecks (mgr : WardenCheckMgr) (build quota : Nat) :
    Nat → List Nat → List Nat → ByteBuffer → List Nat × List Nat × ByteBuffer
  | _, [], cur, buff => ([], cur, buff)
  | i, id :: rest, cur, buff =>
    if i < quota then
      drawOtherChecks mgr build quota ((i + 1) % 2 ^ 16) rest (cur ++ [id])
        (appendCheckString mgr build buff id)
    else (id :: rest, cur, buff)

/-- The state of the tag loop: the payload, the 8-bit `index` and the number of
`rand32` calls made so far. -/
structure TagState where
  buff : ByteBuffer
  index : Nat
  rands : Nat

/-- One iteration of the tag loop (lines 249-306); `rand32 k` is the value of the
`k`-th call of `rand32`. -/
def tagStep (env : RequestEnv) (build xorByte : Nat) (rand32 : Nat → Nat) (st : TagState)
    (id : Nat) : Except Fault TagState :=
  match env.mgr.GetWardenDataById build id with
  | none => .error .nullPointer
  | some wd =>
    let buff := st.buff.append [(env.tagByte wd.Type_ ^^^ xorByte) % 256]
    match wd.Type_ with
    | .MEM_CHECK =>
      .ok { st with buff := ((buff.append [0]).append (toLE 4 wd.Address)).append
                              [wd.Length % 256] }
    | .PAGE_CHECK_A | .PAGE_CHECK_B =>
      .ok { st with buff := ((buff.append wd.Data).append (toLE 4 wd.Address)).append
                              [wd.Length % 256] }
    | .MPQ_CHECK | .LUA_STR_CHECK =>
      .ok { st with buff := buff.append [st.index], index := (st.index + 1) % 256 }
    | .DRIVER_CHECK =>
      .ok { st with buff := (buff.append wd.Data).append [st.index],
                    index := (st.index + 1) % 256 }
    | .MODULE_CHECK =>
      let seed := toLE 4 (rand32 st.rands)
      .ok { st with buff := (buff.append seed).append (env.HMACSHA1 seed wd.Str),
                    rands := st.rands + 1 }
    | .TIMING_CHECK | .PROC_CHECK => .ok { st with buff := buff }

/-- The tag loop over `_currentChecks`, in list order. -/
def tagLoop (env : RequestEnv) (build xorByte : Nat) (rand32 : Nat → Nat) :
    TagState → List Nat → Except Fault TagState
  | st, [] => .ok st
  | st, id :: rest =>
    match tagStep env build xorByte rand32 st id with
    | .error e => .error e
    | .ok st' => tagLoop env build xorByte rand32 st' rest

/-- Lines 163-239 of `RequestData`: the refill of the empty pools, the clock, the
two draw loops and the head of the payload.  Returns the session and the
payload written so far. -/
def RequestDataDraw (env : RequestEnv) (gameTime : Nat) (w : Session) : Session × ByteBuffer :=
  let memTodo := if w._memChecksTodo.isEmpty then env.mgr.GetWardenCheckIds true w.build
    else w._memChecksTodo
  let otherTodo := if w._otherChecksTodo.isEmpty then env.mgr.GetWardenCheckIds false w.build
    else w._otherChecksTodo
  let mem := drawMemChecks env.NUM_MEM_CHECKS 0 memTodo.reverse []
  let buff : ByteBuffer :=
    ByteBuffer.append ⟨[], 0, 0⟩ [env.WARDEN_SMSG_CHEAT_CHECKS_REQUEST % 256]
  let other := drawOtherChecks env.mgr w.build env.NUM_OTHER_CHECKS 0 otherTodo.reverse mem.2 buff
  ({ w with _serverTicks := gameTime % 2 ^ 32,
            _memChecksTodo := mem.1.reverse,
            _otherChecksTodo := other.1.reverse,
            _currentChecks := other.2.1 }, other.2.2)

/-- The function `WardenWin::RequestData` (lines 163-327) up to the payload
that is handed to `EncryptData`: the new session and the plaintext payload. -/
def RequestData (env : RequestEnv) (gameTime : Nat) (rand32 : Nat → Nat) (w : Session) :
    Except Fault (Session × ByteBuffer) :=
  let drawn := RequestDataDraw env gameTime w
  let xorByte := w._inputKey.headD 0 % 256
  let buff := (drawn.2.append [0]).append
    [(env.tagByte .TIMING_CHECK ^^^ xorByte) % 256]
  match tagLoop env w.build xorByte rand32 { buff := buff, index := 1, rands := 0 }
      drawn.1._currentChecks with
  | .error e => .error e
  | .ok st => .ok (drawn.1, st.buff.append [xorByte])

/-! ## Key set-up, module and module-init message -/

/-- Modelled from the spec: the global `Module` of `WardenModuleWin.h`, which is
not among the sources: the module blob, its embedded key, the session seed, the
two key seeds and the hash the client answers with. -/
structure ModuleData where
  Module : List Nat
  ModuleKey : List Nat
  Seed : List Nat
  ServerKeySeed : List Nat
  ClientKeySeed : List Nat
  ClientKeySeedHash : List Nat
  deriving DecidableEq, Repr

/-- Modelled from the spec: what the key set-up takes from code that is not among
the sources: the module constants, the byte stream of the keyed generator
(`keyStream secret n` is the `n`-th byte the generator keyed with `secret`
yields), the digest `MD5`, the checksum `BuildChecksum` and the opcode of the
module-init message. -/
structure WardenEnv where
  Module : ModuleData
  keyStream : List Nat → Nat → Nat
  MD5 : List Nat → List Nat
  BuildChecksum : List Nat → Nat
  WARDEN_SMSG_MODULE_INITIALIZE : Nat

/-- Modelled from the spec: the keyed generator `SHA1Randx`, whose class is not
among the sources: the secret it is keyed with and the number of bytes drawn so
far. -/
structure SHA1Randx where
  secret : List Nat
  taken : Nat
  deriving DecidableEq, Repr

/-- Modelled from the spec: `WK.Generate(buf, n)` draws the next `n` bytes of the
generator's stream. -/
def SHA1Randx.Generate (keyStream : List Nat → Nat → Nat) (g : SHA1Randx) (n : Nat) :
    List Nat × SHA1Randx :=
  ((List.range n).map fun k => keyStream g.secret (g.taken + k), { g with taken := g.taken + n })

namespace SARC4

/-- Exchange of the entries `a` and `b` of the permutation. -/
def swap (S : List Nat) (a b : Nat) : List Nat := (S.set a (S.getD b 0)).set b (S.getD a 0)

/-- One step of the key schedule: the permutation and `j` after the entry `k`. -/
def scheduleStep (key : List Nat) (st : List Nat × Nat) (k : Nat) : List Nat × Nat :=
  let j := (st.2 + st.1.getD k 0 + key.getD (k % key.length) 0) % 256
  (swap st.1 k j, j)

/-- Modelled from the spec: `Init(key)` of the stream cipher: the RC4 key
schedule over the 256 entries, both stream positions at 0. -/
def Init (key : List Nat) : SARC4 :=
  { S := ((List.range 256).foldl (scheduleStep key) (List.range 256, 0)).1, i := 0, j := 0 }

/-- Modelled from the spec: `UpdateData(len, data)` of the stream cipher: every
byte is combined by exclusive or with the next byte of the RC4 key stream.
Returns the new state and the transformed bytes. -/
def UpdateData : SARC4 → List Nat → SARC4 × List Nat
  | st, [] => (st, [])
  | st, b :: rest =>
    let i := (st.i + 1) % 256
    let j := (st.j + st.S.getD i 0) % 256
    let S := swap st.S i j
    let k := S.getD ((S.getD i 0 + S.getD j 0) % 256) 0
    let r := UpdateData { S := S, i := i, j := j } rest
    (r.1, (b ^^^ k) :: r.2)

end SARC4

/-- The function `WardenWin::GetModuleForClient` (lines 73-92); `memcpy` of 16
bytes takes the first 16 bytes of the embedded key. -/
def GetModuleForClient (env : WardenEnv) : ClientWardenModule :=
  { CompressedSize := env.Module.Module.length
    CompressedData := env.Module.Module
    Key := env.Module.ModuleKey.take 16
    Id := env.MD5 env.Module.Module }

/-- The function `WardenWin::Init` (lines 48-69) for the session of the client
build `build` and the secret bytes `K` (`k->AsByteArray()`).  The call of
`RequestModule` at line 70, a method of the base class, is not part of it. -/
def Init (env : WardenEnv) (build : Nat) (K : List Nat) (w : Session) : Session :=
  let WK : SHA1Randx := { secret := K, taken := 0 }
  let g1 := WK.Generate env.keyStream 16
  let g2 := g1.2.Generate env.keyStream 16
  { w with build := build
           _inputKey := g1.1
           _outputKey := g2.1
           _seed := env.Module.Seed.take 16
           _inputCrypto := SARC4.Init g1.1
           _outputCrypto := SARC4.Init g2.1
           _module := some (GetModuleForClient env) }

/-- The function `WardenWin::HandleHashResult` (lines 140-161): the session, the
buffer and the `Penalty` calls it leaves.  `gameTime` is the clock read at line
160.  The comparison reads the bytes of the reply from offset 1 of
`contents()`. -/
def HandleHashResult (md : ModuleData) (gameTime : Nat) (w : Session) (buff : ByteBuffer) :
    Except Fault (Session × ByteBuffer × List PenaltyCall) :=
  let buff := buff.setRpos buff.wpos
  match memcmpNe (buff.storage.drop 1) md.ClientKeySeedHash md.ClientKeySeedHash.length with
  | .error e => .error e
  | .ok true => .ok (w, buff, [.noCheck])
  | .ok false =>
    .ok ({ w with _inputKey := md.ClientKeySeed.take 16
                  _outputKey := md.ServerKeySeed.take 16
                  _inputCrypto := SARC4.Init (md.ClientKeySeed.take 16)
                  _outputCrypto := SARC4.Init (md.ServerKeySeed.take 16)
                  _previousTimestamp := gameTime % 2 ^ 32 }, buff, [])

/-- Modelled from the spec: `EncryptData` of the base class: the outbound cipher
transforms the bytes in place.  Returns the session and the encrypted bytes. -/
def EncryptData (w : Session) (data : List Nat) : Session × List Nat :=
  let r := w._outputCrypto.UpdateData data
  ({ w with _outputCrypto := r.1 }, r.2)

/-- The function `WardenWin::RequestData` with its lines 310-315: the payload
is encrypted and sent.  Returns the session and the bytes of the packet. -/
def RequestDataSend (env : RequestEnv) (gameTime : Nat) (rand32 : Nat → Nat) (w : Session) :
    Except Fault (Session × List Nat) :=
  match RequestData env gameTime rand32 w with
  | .error e => .error e
  | .ok p => .ok (EncryptData p.1 p.2.storage)

/-- The memory of a local object: the byte at each offset. -/
abbrev Memory := Nat → Nat

/-- Assignment to a field: the bytes `bytes` are stored from offset `off` on. -/
def poke (mem : Memory) (off : Nat) (bytes : List Nat) : Memory :=
  fun a => if off ≤ a ∧ a < off + bytes.length then bytes.getD (a - off) 0 else mem a

/-- The `n` bytes stored from offset `off` on. -/
def peek (mem : Memory) (off n : Nat) : List Nat := (List.range n).map fun k => mem (off + k)

namespace WardenInitModuleRequest

/-! Modelled from the spec: the offsets of the fields of the packed struct
`WardenInitModuleRequest`, whose declaration is not among the sources.  Each of
the three sub-blocks is a 1-byte command, a 2-byte size and a 4-byte checksum,
followed by 20, 8 and 8 bytes. -/

/-- Offset of `Command1`. -/
def Command1 : Nat := 0
/-- Offset of `Size1`. -/
def Size1 : Nat := 1
/-- Offset of `CheckSumm1`. -/
def CheckSumm1 : Nat := 3
/-- Offset of `Unk1`. -/
def Unk1 : Nat := 7
/-- Offset of `Unk2`. -/
def Unk2 : Nat := 8
/-- Offset of `Type`. -/
def Type_ : Nat := 9
/-- Offset of `String_library1`. -/
def String_library1 : Nat := 10
/-- Offset of `Function1[k]`. -/
def Function1 (k : Nat) : Nat := 11 + 4 * k
/-- Offset of `Command2`. -/
def Command2 : Nat := 27
/-- Offset of `Size2`. -/
def Size2 : Nat := 28
/-- Offset of `CheckSumm2`. -/
def CheckSumm2 : Nat := 30
/-- Offset of `Unk3`. -/
def Unk3 : Nat := 34
/-- Offset of `Unk4`. -/
def Unk4 : Nat := 35
/-- Offset of `String_library2`. -/
def String_library2 : Nat := 36
/-- Offset of `Function2`. -/
def Function2 : Nat := 37
/-- Offset of `Function2_set`. -/
def Function2_set : Nat := 41
/-- Offset of `Command3`. -/
def Command3 : Nat := 42
/-- Offset of `Size3`. -/
def Size3 : Nat := 43
/-- Offset of `CheckSumm3`. -/
def CheckSumm3 : Nat := 45
/-- Offset of `Unk5`. -/
def Unk5 : Nat := 49
/-- Offset of `Unk6`. -/
def Unk6 : Nat := 50
/-- Offset of `String_library3`. -/
def String_library3 : Nat := 51
/-- Offset of `Function3`. -/
def Function3 : Nat := 52
/-- Offset of `Function3_set`. -/
def Function3_set : Nat := 56
/-- The size of the struct. -/
def sizeof : Nat := 57

end WardenInitModuleRequest

open WardenInitModuleRequest in
/-- Lines 99-128 of `WardenWin::InitializeModule`: the assignments to the local
`Request`, in the order of the source; `uninit` is the content of its memory
before the first assignment.  Returns the memory of `Request` at line 128. -/
def InitializeModuleRequest (env : WardenEnv) (uninit : Memory) : Memory :=
  let m := poke uninit Command1 [env.WARDEN_SMSG_MODULE_INITIALIZE % 256]
  let m := poke m Size1 (toLE 2 20)
  let m := poke m CheckSumm1 (toLE 4 (env.BuildChecksum (peek m Unk1 20)))
  let m := poke m Unk1 [1]
  let m := poke m Unk2 [0]
  let m := poke m Type_ [1]
  let m := poke m String_library1 [0]
  let m := poke m (Function1 0) (toLE 4 0x002485F0)
  let m := poke m (Function1 1) (toLE 4 0x002487F0)
  let m := poke m (Function1 2) (toLE 4 0x00248460)
  let m := poke m (Function1 3) (toLE 4 0x00248730)
  let m := poke m Command2 [env.WARDEN_SMSG_MODULE_INITIALIZE % 256]
  let m := poke m Size2 (toLE 2 8)
  let m := poke m CheckSumm2 (toLE 4 (env.BuildChecksum (peek m Unk2 8)))
  let m := poke m Unk3 [4]
  let m := poke m Unk4 [0]
  let m := poke m String_library2 [0]
  let m := poke m Function2 (toLE 4 0x00419D40)
  let m := poke m Function2_set [1]
  let m := poke m Command3 [env.WARDEN_SMSG_MODULE_INITIALIZE % 256]
  let m := poke m Size3 (toLE 2 8)
  let m := poke m CheckSumm3 (toLE 4 (env.BuildChecksum (peek m Unk5 8)))
  let m := poke m Unk5 [1]
  let m := poke m Unk6 [1]
  let m := poke m String_library3 [0]
  let m := poke m Function3 (toLE 4 0x0046AE20)
  poke m Function3_set [1]

/-- The function `WardenWin::InitializeModule` (lines 94-138): the message
before encryption (the `sizeof` bytes of `Request`), and the session and the
packet bytes after `EncryptData`. -/
def InitializeModule (env : WardenEnv) (uninit : Memory) (w : Session) :
    List Nat × Session × List Nat :=
  let request := peek (InitializeModuleRequest env uninit) 0 WardenInitModuleRequest.sizeof
  (request, EncryptData w request)

/-- A call on a session after `Init` (of `HandleHashResult`, `RequestData` or
`HandleData`), with what it reads from outside the session. -/
inductive Call
  | hashResult (gameTime : Nat) (buff : ByteBuffer)
  | requestData (gameTime : Nat) (rand32 : Nat → Nat)
  | handleData (ticksNow : Nat) (buff : ByteBuffer)

/-- The session after a call; a fault ends the run. -/
def Call.run (env : WardenEnv) (req : RequestEnv) : Call → Session → Except Fault Session
  | .hashResult gameTime buff, w =>
    match HandleHashResult env.Module gameTime w buff with
    | .error e => .error e
    | .ok r => .ok r.1
  | .requestData gameTime rand32, w =>
    match RequestDataSend req gameTime rand32 w with
    | .error e => .error e
    | .ok r => .ok r.1
  | .handleData ticksNow buff, w =>
    match HandleData req.mgr env.BuildChecksum ticksNow w buff with
    | .error e => .error e
    | .ok _ => .ok w

/-- The session after a sequence of calls, in order. -/
def runCalls (env : WardenEnv) (req : RequestEnv) : List Call → Session → Except Fault Session
  | [], w => .ok w
  | c :: rest, w =>
    match c.run env req w with
    | .error e => .error e
    | .ok w' => runCalls env req rest w'

/-! ## Definitions used to state the properties -/

/-- The `Length` field of the response header at the read position. -/
def hdrLength (buff : ByteBuffer) : Nat := fromLE (buff.atCursor.take 2)

/-- The `Checksum` field of the response header at the read position. -/
def hdrChecksum (buff : ByteBuffer) : Nat := fromLE ((buff.atCursor.drop 2).take 4)

/-- The `Length` bytes that follow the 6-byte header. -/
def covered (buff : ByteBuffer) : List Nat := (buff.atCursor.drop 6).take (hdrLength buff)

/-- The timing-probe success flag: the byte that follows the 6-byte header. -/
def timingFlag (buff : ByteBuffer) : Nat := fromLE ((buff.atCursor.drop 6).take 1)

/-- The header is present and the `Length` bytes it announces lie inside the
payload. -/
def HeaderInside (buff : ByteBuffer) : Prop :=
  buff.rpos + 6 + hdrLength buff ≤ buff.storage.length

instance (buff : ByteBuffer) : Decidable (HeaderInside buff) := by
  unfold HeaderInside; infer_instance

/-- A response with a valid checksum and a non-zero timing flag: the header and
the timing answer (11 bytes) are present, the covered bytes lie inside the
payload, the checksum field equals the checksum of the covered bytes, and the
flag is not zero. -/
def ValidResponse (BuildChecksum : List Nat → Nat) (buff : ByteBuffer) : Prop :=
  buff.rpos + 11 ≤ buff.storage.length ∧ HeaderInside buff ∧
    hdrChecksum buff = BuildChecksum (covered buff) ∧ timingFlag buff ≠ 0

instance (BuildChecksum : List Nat → Nat) (buff : ByteBuffer) :
    Decidable (ValidResponse BuildChecksum buff) := by
  unfold ValidResponse HeaderInside; infer_instance

/-- The bytes that follow the timing answer: the results of the in-flight
entries. -/
def bodyAt (buff : ByteBuffer) : List Nat := buff.storage.drop (buff.rpos + 11)

/-- The two lines logged by the timing step. -/
def timingLog (ticksNow : Nat) (w : Session) (buff : ByteBuffer) : List LogEvent :=
  let newClientTicks := fromLE ((buff.atCursor.drop 7).take 4)
  let ourTicks := (newClientTicks + (ticksNow + 2 ^ 32 - w._serverTicks) % 2 ^ 32) % 2 ^ 32
  [LogEvent.ticks ticksNow w._serverTicks newClientTicks,
   LogEvent.waittime ((ourTicks + 2 ^ 32 - newClientTicks) % 2 ^ 32)]

/-- The ids of the entries for which a `RESULT` line was written, in the order
of the log. -/
def resultIds (log : List LogEvent) : List Nat :=
  log.filterMap fun e =>
    match e with
    | .result _ _ id => some id
    | _ => none

/-- The ids of the entries that failed (a `RESULT` line that does not end in
`passed`), in the order of the log. -/
def failedIds (log : List LogEvent) : List Nat :=
  log.filterMap fun e =>
    match e with
    | .result _ .passed _ => none
    | .result _ _ id => some id
    | _ => none

/-- The type has a `case` label in the switch of `HandleData`. -/
def hasCase : WardenCheckType → Bool
  | .TIMING_CHECK | .PROC_CHECK => false
  | _ => true

/-- The id has a definition whose type has a `case` label. -/
def decodes (mgr : WardenCheckMgr) (build id : Nat) : Bool :=
  match mgr.GetWardenDataById build id with
  | some rd => hasCase rd.Type_
  | none => false

/-- The number of bytes the response grammar gives an entry, from its definition
and the bytes at the read position: the status byte decides whether a body
follows; the stored expectation plays no part. -/
def entryBytes (rd : WardenCheck) (bytes : List Nat) : Nat :=
  match rd.Type_ with
  | .MEM_CHECK => if fromLE (bytes.take 1) = 0 then 1 + rd.Length else 1
  | .PAGE_CHECK_A | .PAGE_CHECK_B | .DRIVER_CHECK | .MODULE_CHECK => 1
  | .LUA_STR_CHECK =>
    if fromLE (bytes.take 1) = 0 then 2 + fromLE ((bytes.drop 1).take 1) else 1
  | .MPQ_CHECK => if fromLE (bytes.take 1) = 0 then 1 + 20 else 1
  | .TIMING_CHECK | .PROC_CHECK => 0

/-- The number of bytes the grammar gives the entries `ids`, read in order from
position `pos` of `storage`; `defs` looks up the definition of an id. -/
def loopBytes (defs : Nat → Option WardenCheck) (storage : List Nat) :
    Nat → List Nat → Nat
  | _, [] => 0
  | pos, id :: rest =>
    match defs id with
    | none => 0
    | some rd =>
      entryBytes rd (storage.drop pos) +
        loopBytes defs storage (pos + entryBytes rd (storage.drop pos)) rest

/-- The catalog holds what the decoding of `id` looks up: a definition whose
type has a `case` label and, for a memory-region or catalog-hash check, an
expectation of at least the compared length. -/
def CatalogOk (mgr : WardenCheckMgr) (build id : Nat) : Prop :=
  ∃ rd, mgr.GetWardenDataById build id = some rd ∧ hasCase rd.Type_ = true ∧
    (rd.Type_ = .MEM_CHECK →
      ∃ rs, mgr.GetWardenResultById build id = some rs ∧ rd.Length ≤ rs.Result.length) ∧
    (rd.Type_ = .MPQ_CHECK →
      ∃ rs, mgr.GetWardenResultById build id = some rs ∧ 20 ≤ rs.Result.length)

/-- The pool the primary draws are taken from: the catalog's ids when the pool
is empty at the start of the cycle, else the pool. -/
def memPool (env : RequestEnv) (w : Session) : List Nat :=
  if w._memChecksTodo.isEmpty then env.mgr.GetWardenCheckIds true w.build else w._memChecksTodo

/-- The pool the secondary draws are taken from, as `memPool`. -/
def otherPool (env : RequestEnv) (w : Session) : List Nat :=
  if w._otherChecksTodo.isEmpty then env.mgr.GetWardenCheckIds false w.build
  else w._otherChecksTodo

/-- The number of iterations of a draw loop that draw an id, from the value `i`
of the 16-bit counter and the pool (back first). -/
def drawCount (quota : Nat) : Nat → List Nat → Nat
  | _, [] => 0
  | i, _ :: rest => if i < quota then 1 + drawCount quota ((i + 1) % 2 ^ 16) rest else 0

/-- The ids drawn from the primary pool in a cycle, in draw order. -/
def memDrawn (env : RequestEnv) (w : Session) : List Nat :=
  (memPool env w).reverse.take (drawCount env.NUM_MEM_CHECKS 0 (memPool env w).reverse)

/-- The ids drawn from the secondary pool in a cycle, in draw order. -/
def otherDrawn (env : RequestEnv) (w : Session) : List Nat :=
  (otherPool env w).reverse.take (drawCount env.NUM_OTHER_CHECKS 0 (otherPool env w).reverse)

/-- The types whose checks carry a string that the pre-pass emits and that are
given an index. -/
def carriesString : WardenCheckType → Bool
  | .MPQ_CHECK | .LUA_STR_CHECK | .DRIVER_CHECK => true
  | _ => false

/-- The definitions the catalog holds for the ids, in order. -/
def definitions (mgr : WardenCheckMgr) (build : Nat) (ids : List Nat) : List WardenCheck :=
  ids.filterMap (mgr.GetWardenDataById build)

/-- The definitions of the string-carrying checks among the ids, in order. -/
def stringChecks (mgr : WardenCheckMgr) (build : Nat) (ids : List Nat) : List WardenCheck :=
  (definitions mgr build ids).filter fun wd => carriesString wd.Type_

/-- A string with its 1-byte length prefix. -/
def lengthPrefixed (str : List Nat) : List Nat := (str.length % 256) :: str

/-- The length-prefixed strings of the checks, one after the other. -/
def prepass : List WardenCheck → List Nat
  | [] => []
  | wd :: rest => lengthPrefixed wd.Str ++ prepass rest

/-- The mask byte: the first byte of the inbound key. -/
def xorByteOf (w : Session) : Nat := w._inputKey.headD 0 % 256

/-- The timing probe: a zero byte and the masked tag of `TIMING_CHECK`. -/
def timingProbe (env : RequestEnv) (xorByte : Nat) : List Nat :=
  [0, (env.tagByte .TIMING_CHECK ^^^ xorByte) % 256]

/-- The body that follows the tag of a check, by type; `index` is the index byte
of a string-carrying check and `seed` the four seed bytes of a module check. -/
def sectionBody (env : RequestEnv) (wd : WardenCheck) (index : Nat) (seed : List Nat) :
    List Nat :=
  match wd.Type_ with
  | .MEM_CHECK => [0] ++ toLE 4 wd.Address ++ [wd.Length % 256]
  | .PAGE_CHECK_A | .PAGE_CHECK_B => wd.Data ++ toLE 4 wd.Address ++ [wd.Length % 256]
  | .MPQ_CHECK | .LUA_STR_CHECK => [index]
  | .DRIVER_CHECK => wd.Data ++ [index]
  | .MODULE_CHECK => seed ++ env.HMACSHA1 seed wd.Str
  | .TIMING_CHECK | .PROC_CHECK => []

/-- The tagged sections of the checks, in order: a masked tag and the body of the
type.  The string-carrying check that has `k` string-carrying checks before it
is given the index byte `idx k`, the module check that has `m` module checks
before it the seed `seed m`. -/
def sectionsFrom (env : RequestEnv) (xorByte : Nat) (idx : Nat → Nat) (seed : Nat → List Nat) :
    Nat → Nat → List WardenCheck → List Nat
  | _, _, [] => []
  | k, m, wd :: rest =>
    ((env.tagByte wd.Type_ ^^^ xorByte) % 256) :: sectionBody env wd (idx k) (seed m) ++
      sectionsFrom env xorByte idx seed (if carriesString wd.Type_ then k + 1 else k)
        (if wd.Type_ = .MODULE_CHECK then m + 1 else m) rest

/-- The property of a module-init message `msg` that the checksum field of each of
its three sub-blocks is the checksum of the 20, 8 and 8 bytes that follow the
field in `msg`. -/
def ChecksumsCoverBlocks (BuildChecksum : List Nat → Nat) (msg : List Nat) : Prop :=
  (msg.drop WardenInitModuleRequest.CheckSumm1).take 4 =
    toLE 4 (BuildChecksum ((msg.drop WardenInitModuleRequest.Unk1).take 20)) ∧
  (msg.drop WardenInitModuleRequest.CheckSumm2).take 4 =
    toLE 4 (BuildChecksum ((msg.drop WardenInitModuleRequest.Unk3).take 8)) ∧
  (msg.drop WardenInitModuleRequest.CheckSumm3).take 4 =
    toLE 4 (BuildChecksum ((msg.drop WardenInitModuleRequest.Unk5).take 8))

/-- Modelled from the spec: `DecryptData` of the base class: the inbound cipher
transforms the bytes in place.  Returns the session and the decrypted bytes. -/
def DecryptData (w : Session) (data : List Nat) : Session × List Nat :=
  let r := w._inputCrypto.UpdateData data
  ({ w with _inputCrypto := r.1 }, r.2)

/-- What an iteration of the check loop reads and what it keeps for the penalty
step: the bytes from the read position on and `checkFailed`. -/
def LoopState.view (st : LoopState) : List Nat × Nat := (st.buff.atCursor, st.checkFailed)

/-- The type and the id of the entries for which a `RESULT` line was written, in
the order of the log: the type is the one the entry was decoded with. -/
def resultLines (log : List LogEvent) : List (WardenCheckType × Nat) :=
  log.filterMap fun e =>
    match e with
    | .result type _ id => some (type, id)
    | _ => none

/-- The in-flight ids with the type of their definition, in list order, for the
definitions whose type has a `case` label in the switch of `HandleData`. -/
def decodedLines (mgr : WardenCheckMgr) (build : Nat) (ids : List Nat) :
    List (WardenCheckType × Nat) :=
  ids.filterMap fun id =>
    match mgr.GetWardenDataById build id with
    | some rd => if hasCase rd.Type_ then some (rd.Type_, id) else none
    | none => none

/-- The id is one the catalog returns for the build, in its primary or its
secondary id list. -/
def CatalogId (mgr : WardenCheckMgr) (build id : Nat) : Prop :=
  ∃ isMem, id ∈ mgr.GetWardenCheckIds isMem build

/-- The catalog is consistent for the build: it holds a definition for every id
it returns, and an expectation record when the definition is a memory-region or
a catalog-hash check. -/
def Consistent (mgr : WardenCheckMgr) (build : Nat) : Prop :=
  ∀ id, CatalogId mgr build id →
    ∃ rd, mgr.GetWardenDataById build id = some rd ∧
      (rd.Type_ = .MEM_CHECK ∨ rd.Type_ = .MPQ_CHECK →
        mgr.GetWardenResultById build id ≠ none)

/-- The ids in the two pools of the session are ids the catalog returns for the
build of the session. -/
def PoolsFromCatalog (mgr : WardenCheckMgr) (w : Session) : Prop :=
  ∀ id ∈ w._memChecksTodo ++ w._otherChecksTodo, CatalogId mgr w.build id

/-- The record of consecutive cycles of `RequestData`: the session after the last
cycle, the in-flight list of each cycle, the ids each cycle drew from the
primary and from the secondary pool (in draw order), and for each pool the
number of cycles that found it empty and refilled it. -/
structure CycleRecord where
  session : Session
  inFlight : List (List Nat)
  memDraws : List (List Nat)
  otherDraws : List (List Nat)
  memRefills : Nat
  otherRefills : Nat

/-- Consecutive cycles of `RequestData`, each with its clock value and its
random values; a fault ends the run. -/
def runCycles (env : RequestEnv) :
    List (Nat × (Nat → Nat)) → Session → Except Fault CycleRecord
  | [], w => .ok ⟨w, [], [], [], 0, 0⟩
  | cycle :: rest, w =>
    match RequestData env cycle.1 cycle.2 w with
    | .error e => .error e
    | .ok p =>
      match runCycles env rest p.1 with
      | .error e => .error e
      | .ok c =>
        .ok { session := c.session
              inFlight := p.1._currentChecks :: c.inFlight
              memDraws := memDrawn env w :: c.memDraws
              otherDraws := otherDrawn env w :: c.otherDraws
              memRefills := (if w._memChecksTodo.isEmpty then 1 else 0) + c.memRefills
              otherRefills := (if w._otherChecksTodo.isEmpty then 1 else 0) + c.otherRefills }

/-- The masked tag of a type: the byte `RequestData` writes for
`type ^ xorByte`. -/
def maskedTag (env : RequestEnv) (xorByte : Nat) (type : WardenCheckType) : Nat :=
  (env.tagByte type ^^^ xorByte) % 256

/-- The tag bytes of a payload, in the order they are written: the tag of the
timing probe, then the tag that opens the section of each in-flight check. -/
def payloadTags (env : RequestEnv) (xorByte : Nat) (defs : List WardenCheck) : List Nat :=
  maskedTag env xorByte .TIMING_CHECK :: defs.map fun wd => maskedTag env xorByte wd.Type_

/-- The tagged sections of the checks one by one, as `sectionsFrom` concatenates
them: for each check its masked tag followed by the body of its type. -/
def sectionList (env : RequestEnv) (xorByte : Nat) (idx : Nat → Nat) (seed : Nat → List Nat) :
    Nat → Nat → List WardenCheck → List (List Nat)
  | _, _, [] => []
  | k, m, wd :: rest =>
    (maskedTag env xorByte wd.Type_ :: sectionBody env wd (idx k) (seed m)) ::
      sectionList env xorByte idx seed (if carriesString wd.Type_ then k + 1 else k)
        (if wd.Type_ = .MODULE_CHECK then m + 1 else m) rest

/-- The verdict the response grammar gives an entry, from its definition, the
bytes of the stored expectation and the bytes at the read position: a status
byte and a compared body for a memory-region or catalog-hash check, the
sentinel byte for the four one-byte types, the status byte for a Lua string
check; `none` for a type without a `case` label, for which nothing is
decoded. -/
def entryVerdict (rd : WardenCheck) (expected bytes : List Nat) : Option Verdict :=
  match rd.Type_ with
  | .MEM_CHECK =>
    if fromLE (bytes.take 1) ≠ 0 then some .notZero
    else if (bytes.drop 1).take rd.Length != expected.take rd.Length then some .fail
    else some .passed
  | .PAGE_CHECK_A | .PAGE_CHECK_B | .DRIVER_CHECK | .MODULE_CHECK =>
    if bytes.take 1 != [0xE9] then some .fail else some .passed
  | .LUA_STR_CHECK => if fromLE (bytes.take 1) ≠ 0 then some .fail else some .passed
  | .MPQ_CHECK =>
    if fromLE (bytes.take 1) ≠ 0 then some .notZero
    else if (bytes.drop 1).take 20 != expected.take 20 then some .fail
    else some .passed
  | .TIMING_CHECK | .PROC_CHECK => none

/-- The bytes of the expectation record the catalog holds for the id (none when
it holds no record). -/
def expectedBytes (mgr : WardenCheckMgr) (build id : Nat) : List Nat :=
  match mgr.GetWardenResultById build id with
  | some rs => rs.Result
  | none => []

/-- The results the response grammar gives the entries `ids`, read one after the
other from position `pos` of `storage`: for each id whose type has a `case`
label, the type of its definition, the verdict of `entryVerdict` on the bytes at
the position of the entry, and the id; the next entry starts `entryBytes`
further. -/
def decodedResults (mgr : WardenCheckMgr) (build : Nat) (storage : List Nat) :
    Nat → List Nat → List (WardenCheckType × Verdict × Nat)
  | _, [] => []
  | pos, id :: rest =>
    match mgr.GetWardenDataById build id with
    | none => []
    | some rd =>
      (match entryVerdict rd (expectedBytes mgr build id) (storage.drop pos) with
        | some v => [(rd.Type_, v, id)]
        | none => []) ++
        decodedResults mgr build storage (pos + entryBytes rd (storage.drop pos)) rest

/-- The `RESULT` lines of the log, in order: type, verdict and id. -/
def resultRecords (log : List LogEvent) : List (WardenCheckType × Verdict × Nat) :=
  log.filterMap fun e =>
    match e with
    | .result type verdict id => some (type, verdict, id)
    | _ => none

/-! ## Example data -/

/-- A stand-in checksum for the examples: the byte sum modulo 2^32. -/
def exChecksum (data : List Nat) : Nat := data.sum % 2 ^ 32

/-- A response payload: 2-byte length, 4-byte checksum of `data`, then `data`. -/
def exResponse (data : List Nat) : ByteBuffer :=
  let storage := toLE 2 data.length ++ toLE 4 (exChecksum data) ++ data
  { storage := storage, rpos := 0, wpos := storage.length }

/-- A session of build 5875 with the given in-flight list. -/
def exSession (current : List Nat) : Session :=
  { build := 5875, _inputKey := [0x4D], _serverTicks := 1000, _memChecksTodo := [],
    _otherChecksTodo := [], _currentChecks := current }

/-- A catalog in which every id is a page-presence check. -/
def exPageMgr : WardenCheckMgr :=
  { GetWardenDataById := fun _ id =>
      some { Type_ := .PAGE_CHECK_A, Data := [0xAA, 0xBB], Address := 0x2000, Length := 8,
             Str := [], CheckId := id }
    GetWardenResultById := fun _ _ => none
    GetWardenCheckIds := fun isMem _ => if isMem then [] else [1, 2, 3, 4, 5, 6] }

/-- The memory-region check of the end-to-end scenario: address `0x1000`,
length 4. -/
def exMemCheck (id : Nat) : WardenCheck :=
  { Type_ := .MEM_CHECK, Data := [], Address := 0x1000, Length := 4, Str := [], CheckId := id }

/-- A catalog in which every id is the memory-region check `exMemCheck` with the
stored expectation `[0x01, 0x02, 0x03, 0x04]`. -/
def exMemMgr : WardenCheckMgr :=
  { GetWardenDataById := fun _ id => some (exMemCheck id)
    GetWardenResultById := fun _ _ => some { Result := [0x01, 0x02, 0x03, 0x04] }
    GetWardenCheckIds := fun isMem _ => if isMem then [7] else [] }

/-- A catalog in which every id is a Lua string check. -/
def exLuaMgr : WardenCheckMgr :=
  { GetWardenDataById := fun _ id =>
      some { Type_ := .LUA_STR_CHECK, Data := [], Address := 0, Length := 0,
             Str := [0x61, 0x62], CheckId := id }
    GetWardenResultById := fun _ _ => none
    GetWardenCheckIds := fun isMem _ => if isMem then [] else [3] }

/-- A 20-byte digest. -/
def exDigest : List Nat :=
  [1, 2, 3, 4, 5, 6, 7, 8, 9, 10, 11, 12, 13, 14, 15, 16, 17, 18, 19, 20]

/-- A catalog in which every id is a catalog-hash check with the stored
expectation `exDigest`. -/
def exMpqMgr : WardenCheckMgr :=
  { GetWardenDataById := fun _ id =>
      some { Type_ := .MPQ_CHECK, Data := [], Address := 0, Length := 0,
             Str := [0x61], CheckId := id }
    GetWardenResultById := fun _ _ => some { Result := exDigest }
    GetWardenCheckIds := fun isMem _ => if isMem then [] else [4] }

/-- The loop state at the start of the check loop, on the bytes `body`. -/
def exLoopState (body : List Nat) : LoopState :=
  { buff := { storage := body, rpos := 0, wpos := body.length }, checkFailed := 0, log := [] }

/-- A configuration whose primary quota is 65536, on the catalog `exMemMgr`. -/
def exEnv : RequestEnv :=
  { mgr := exMemMgr
    tagByte := fun _ => 0
    WARDEN_SMSG_CHEAT_CHECKS_REQUEST := 2
    NUM_MEM_CHECKS := 65536
    NUM_OTHER_CHECKS := 3
    HMACSHA1 := fun _ _ => [] }

/-- Tag bytes for the examples. -/
def exTagByte : WardenCheckType → Nat
  | .MEM_CHECK => 0xF3
  | .PAGE_CHECK_A => 0xB2
  | .PAGE_CHECK_B => 0xBF
  | .MPQ_CHECK => 0x98
  | .LUA_STR_CHECK => 0x8B
  | .DRIVER_CHECK => 0x71
  | .TIMING_CHECK => 0x57
  | .PROC_CHECK => 0x7E
  | .MODULE_CHECK => 0xD9

/-- A configuration with the quotas 3 and 2 on the catalog `mgr`. -/
def exReqEnv (mgr : WardenCheckMgr) : RequestEnv :=
  { mgr := mgr
    tagByte := exTagByte
    WARDEN_SMSG_CHEAT_CHECKS_REQUEST := 2
    NUM_MEM_CHECKS := 3
    NUM_OTHER_CHECKS := 2
    HMACSHA1 := fun key data => key ++ [data.length] }

/-- A catalog that holds no check. -/
def exEmptyMgr : WardenCheckMgr :=
  { GetWardenDataById := fun _ _ => none
    GetWardenResultById := fun _ _ => none
    GetWardenCheckIds := fun _ _ => [] }

/-- A catalog with the memory-region checks 1 and 2 (primary) and the Lua string
checks 3 and 5 and the page-presence check 4 (secondary). -/
def exMixedMgr : WardenCheckMgr :=
  { GetWardenDataById := fun _ id =>
      if id = 1 ∨ id = 2 then some (exMemCheck id)
      else if id = 3 ∨ id = 5 then
        some { Type_ := .LUA_STR_CHECK, Data := [], Address := 0, Length := 0,
               Str := [0x61, 0x62, id], CheckId := id }
      else if id = 4 then
        some { Type_ := .PAGE_CHECK_A, Data := [0xAA, 0xBB], Address := 0x2000, Length := 8,
               Str := [], CheckId := id }
      else none
    GetWardenResultById := fun _ _ => none
    GetWardenCheckIds := fun isMem _ => if isMem then [1, 2] else [3, 4, 5] }

/-- A session with the given pools and in-flight list. -/
def exPools (mem other current : List Nat) : Session :=
  { build := 5875, _inputKey := [0x4D, 0x01], _serverTicks := 0, _memChecksTodo := mem,
    _otherChecksTodo := other, _currentChecks := current }

/-- A configuration with the secondary quota 256 on the catalog `exLuaMgr`. -/
def exWideEnv : RequestEnv :=
  { mgr := exLuaMgr
    tagByte := exTagByte
    WARDEN_SMSG_CHEAT_CHECKS_REQUEST := 2
    NUM_MEM_CHECKS := 3
    NUM_OTHER_CHECKS := 256
    HMACSHA1 := fun key data => key ++ [data.length] }

/-- A catalog whose primary id list holds the id of a Lua string check. -/
def exLuaPrimaryMgr : WardenCheckMgr :=
  { GetWardenDataById := exLuaMgr.GetWardenDataById
    GetWardenResultById := fun _ _ => none
    GetWardenCheckIds := fun isMem _ => if isMem then [3] else [] }

/-- Module constants for the examples: a 4-byte blob, a 16-byte key, the seed, the
two 16-byte key seeds and the 20-byte hash of the reply. -/
def exModule : ModuleData :=
  { Module := [0x4D, 0x5A, 0x90, 0x00]
    ModuleKey := [0xA0, 0xA1, 0xA2, 0xA3, 0xA4, 0xA5, 0xA6, 0xA7,
                  0xA8, 0xA9, 0xAA, 0xAB, 0xAC, 0xAD, 0xAE, 0xAF]
    Seed := [0x50, 0x51, 0x52, 0x53, 0x54, 0x55, 0x56, 0x57,
             0x58, 0x59, 0x5A, 0x5B, 0x5C, 0x5D, 0x5E, 0x5F]
    ServerKeySeed := [0x31, 0x32, 0x33, 0x34, 0x35, 0x36, 0x37, 0x38,
                      0x39, 0x3A, 0x3B, 0x3C, 0x3D, 0x3E, 0x3F, 0x40]
    ClientKeySeed := [0x21, 0x22, 0x23, 0x24, 0x25, 0x26, 0x27, 0x28,
                      0x29, 0x2A, 0x2B, 0x2C, 0x2D, 0x2E, 0x2F, 0x30]
    ClientKeySeedHash := [0xC0, 0xC1, 0xC2, 0xC3, 0xC4, 0xC5, 0xC6, 0xC7, 0xC8, 0xC9,
                          0xCA, 0xCB, 0xCC, 0xCD, 0xCE, 0xCF, 0xD0, 0xD1, 0xD2, 0xD3] }

/-- The key set-up of the examples: the `n`-th byte of the generator keyed with
`K` is the byte sum of `K` plus `7 * n`, the digest is 16 times the byte sum, the
checksum is `exChecksum`. -/
def exWardenEnv : WardenEnv :=
  { Module := exModule
    keyStream := fun K n => (K.sum + 7 * n) % 256
    MD5 := fun data => List.replicate 16 (data.sum % 256)
    BuildChecksum := exChecksum
    WARDEN_SMSG_MODULE_INITIALIZE := 3 }

/-- A hash reply that validates: the opcode byte and the 20 bytes of the hash,
read up to the opcode. -/
def exHashReply : ByteBuffer :=
  { storage := 0x04 :: exModule.ClientKeySeedHash, rpos := 1, wpos := 21 }

/-- The session after `Init` with the secret bytes `[9, 8, 7]`. -/
def exInitSession : Session := Init exWardenEnv 5875 [9, 8, 7] (exSession [])

/-- The module-init message of the examples: the memory of `Request` is zero
before the assignments. -/
def exInitMessage : List Nat := (InitializeModule exWardenEnv (fun _ => 0) exInitSession).1

/-- A string of 256 bytes. -/
def exLongStr : List Nat := List.replicate 256 0x61

/-- A catalog whose secondary id list holds the Lua string check 3, with the
string `str`. -/
def exStrMgr (str : List Nat) : WardenCheckMgr :=
  { GetWardenDataById := fun _ id =>
      some { Type_ := .LUA_STR_CHECK, Data := [], Address := 0, Length := 0,
             Str := str, CheckId := id }
    GetWardenResultById := fun _ _ => none
    GetWardenCheckIds := fun isMem _ => if isMem then [] else [3] }

/-- The module-integrity check of the examples, with the string `[0x6B, 0x65]`. -/
def exModuleCheck (id : Nat) : WardenCheck :=
  { Type_ := .MODULE_CHECK, Data := [], Address := 0, Length := 0, Str := [0x6B, 0x65],
    CheckId := id }

/-- A catalog whose primary id list holds the module-integrity check 8. -/
def exModuleMgr : WardenCheckMgr :=
  { GetWardenDataById := fun _ id => some (exModuleCheck id)
    GetWardenResultById := fun _ _ => none
    GetWardenCheckIds := fun isMem _ => if isMem then [8] else [] }

/-- A catalog whose secondary id list holds the id 9 of an entry typed
`TIMING_CHECK`. -/
def exTimingMgr : WardenCheckMgr :=
  { GetWardenDataById := fun _ id =>
      some { Type_ := .TIMING_CHECK, Data := [], Address := 0, Length := 0, Str := [],
             CheckId := id }
    GetWardenResultById := fun _ _ => none
    GetWardenCheckIds := fun isMem _ => if isMem then [] else [9] }

/-- The catalog `exMixedMgr` with the stored expectation `[0x01, 0x02, 0x03,
0x04]` for every id. -/
def exFullMgr : WardenCheckMgr :=
  { GetWardenDataById := exMixedMgr.GetWardenDataById
    GetWardenResultById := fun _ _ => some { Result := [0x01, 0x02, 0x03, 0x04] }
    GetWardenCheckIds := exMixedMgr.GetWardenCheckIds }

/-- A catalog in which every id is typed `PROC_CHECK`, with the secondary id
list `[6]`. -/
def exProcMgr : WardenCheckMgr :=
  { GetWardenDataById := fun _ id =>
      some { Type_ := .PROC_CHECK, Data := [], Address := 0, Length := 0, Str := [],
             CheckId := id }
    GetWardenResultById := fun _ _ => none
    GetWardenCheckIds := fun isMem _ => if isMem then [] else [6] }

/-! ## Lemmas on the buffer and the check loop -/

theorem read_ok_iff {b b' : ByteBuffer} {n v : Nat} :
    b.read n = .ok (v, b') ↔
      b.rpos + n ≤ b.storage.length ∧ v = fromLE (b.atCursor.take n) ∧
        b' = b.setRpos (b.rpos + n) := by
  unfold ByteBuffer.read ByteBuffer.setRpos
  split
  · simp_all [eq_comm]
  · simp_all

theorem atCursor_setRpos (b : ByteBuffer) (p : Nat) :
    (b.setRpos p).atCursor = b.storage.drop p := rfl

theorem atCursor_setRpos_add (b : ByteBuffer) (n : Nat) :
    (b.setRpos (b.rpos + n)).atCursor = b.atCursor.drop n := by
  simp [ByteBuffer.atCursor, ByteBuffer.setRpos, List.drop_drop, Nat.add_comm]

theorem setRpos_setRpos (b : ByteBuffer) (p q : Nat) :
    (b.setRpos p).setRpos q = b.setRpos q := rfl

theorem rpos_setRpos (b : ByteBuffer) (p : Nat) : (b.setRpos p).rpos = p := rfl

theorem storage_setRpos (b : ByteBuffer) (p : Nat) : (b.setRpos p).storage = b.storage := rfl

theorem resultIds_append (l₁ l₂ : List LogEvent) :
    resultIds (l₁ ++ l₂) = resultIds l₁ ++ resultIds l₂ := by
  simp [resultIds, List.filterMap_append]

theorem failedIds_append (l₁ l₂ : List LogEvent) :
    failedIds (l₁ ++ l₂) = failedIds l₁ ++ failedIds l₂ := by
  simp [failedIds, List.filterMap_append]

theorem checkStep_ok_spec {mgr : WardenCheckMgr} {build id : Nat} {st st' : LoopState}
    (h : checkStep mgr build st id = .ok st') :
    ∃ rd, mgr.GetWardenDataById build id = some rd ∧
      st'.buff = st.buff.setRpos (st.buff.rpos + entryBytes rd st.buff.atCursor) ∧
      resultIds st'.log = resultIds st.log ++ (if hasCase rd.Type_ then [id] else []) ∧
      ((failedIds st'.log = failedIds st.log ∧ st'.checkFailed = st.checkFailed) ∨
       (failedIds st'.log = failedIds st.log ++ [id] ∧ st'.checkFailed = id)) := by
  unfold checkStep at h
  cases hrd : mgr.GetWardenDataById build id with
  | none => simp [hrd] at h
  | some rd =>
    refine ⟨rd, rfl, ?_⟩
    simp only [hrd] at h
    cases hty : rd.Type_ <;> simp only [hty] at h
    all_goals repeat' split at h
    all_goals first
      | (cases h; done)
      | (cases h
         simp_all [read_ok_iff, entryBytes, resultIds, failedIds, hasCase, ByteBuffer.setRpos,
           ByteBuffer.atCursor, Nat.add_assoc])

theorem checkLoop_ok_spec {mgr : WardenCheckMgr} {build : Nat} :
    ∀ (ids : List Nat) (st st' : LoopState), checkLoop mgr build st ids = .ok st' →
      st'.buff = st.buff.setRpos (st.buff.rpos +
        loopBytes (mgr.GetWardenDataById build) st.buff.storage st.buff.rpos ids) ∧
      resultIds st'.log = resultIds st.log ++ ids.filter (decodes mgr build) ∧
      ∃ F, failedIds st'.log = failedIds st.log ++ F ∧ (∀ x ∈ F, x ∈ ids) ∧
        st'.checkFailed = F.getLastD st.checkFailed := by
  intro ids
  induction ids with
  | nil =>
    intro st st' h
    simp only [checkLoop, Except.ok.injEq] at h
    subst h
    exact ⟨by simp [loopBytes, ByteBuffer.setRpos], by simp, [], by simp, by simp, rfl⟩
  | cons id rest ih =>
    intro st st' h
    simp only [checkLoop] at h
    cases hs : checkStep mgr build st id with
    | error e => simp [hs] at h
    | ok st1 =>
      simp only [hs] at h
      obtain ⟨rd, hrd, hb1, hr1, hf1⟩ := checkStep_ok_spec hs
      obtain ⟨hb, hr, F, hF, hmem, hcf⟩ := ih st1 st' h
      refine ⟨?_, ?_, ?_⟩
      · rw [hb, hb1]
        simp [loopBytes, hrd, ByteBuffer.setRpos, ByteBuffer.atCursor, Nat.add_assoc]
      · rw [hr, hr1]
        cases hc : hasCase rd.Type_ <;> simp [List.filter_cons, decodes, hrd, hc]
      · rcases hf1 with ⟨hf1, hc1⟩ | ⟨hf1, hc1⟩
        · exact ⟨F, by rw [hF, hf1], fun x hx => List.mem_cons_of_mem _ (hmem x hx),
            by rw [hcf, hc1]⟩
        · refine ⟨id :: F, by rw [hF, hf1]; simp, ?_, by rw [hcf, hc1]; cases F <;> simp [List.getLastD]⟩
          intro x hx
          rcases List.mem_cons.mp hx with rfl | hx
          · exact List.mem_cons_self _ _
          · exact List.mem_cons_of_mem _ (hmem x hx)


theorem rawRead_ok {a : List Nat} {n : Nat} (h : n ≤ a.length) : rawRead a n = .ok (a.take n) := by
  simp [rawRead, h]

theorem HandleData_header (mgr : WardenCheckMgr) (cs : List Nat → Nat) (now : Nat) (w : Session)
    {buff : ByteBuffer} (hin : HeaderInside buff) :
    HandleData mgr cs now w buff =
      if hdrChecksum buff ≠ cs (covered buff) then
        .ok { buff := buff.setRpos buff.wpos, checkFailed := 0, log := [.failedChecksum],
              penalty := [.noCheck], completed := false }
      else afterChecksum mgr now w (buff.setRpos (buff.rpos + 6)) := by
  unfold HeaderInside at hin
  have h2 : buff.rpos + 2 ≤ buff.storage.length := by omega
  have h4 : buff.rpos + 2 + 4 ≤ buff.storage.length := by omega
  have h5 : hdrLength buff ≤ (buff.storage.drop (buff.rpos + 2 + 4)).length := by
    simp only [List.length_drop]; omega
  unfold HandleData
  simp only [ByteBuffer.read, h2, if_true, h4, ByteBuffer.atCursor, List.drop_drop]
  rw [rawRead_ok (by simpa [hdrLength, ByteBuffer.atCursor] using h5)]
  simp [hdrChecksum, hdrLength, covered, ByteBuffer.atCursor, ByteBuffer.setRpos, List.drop_drop,
    Nat.add_comm]


theorem afterChecksum_valid (mgr : WardenCheckMgr) (now : Nat) (w : Session) {buff : ByteBuffer}
    (h11 : buff.rpos + 11 ≤ buff.storage.length) (hflag : timingFlag buff ≠ 0) :
    afterChecksum mgr now w (buff.setRpos (buff.rpos + 6)) =
      match checkLoop mgr w.build
          { buff := buff.setRpos (buff.rpos + 11), checkFailed := 0, log := timingLog now w buff }
          w._currentChecks with
      | .error e => .error e
      | .ok st => .ok (finishCycle mgr w.build st) := by
  have h7 : buff.rpos + 6 + 1 ≤ buff.storage.length := by omega
  have h11' : buff.rpos + 6 + 1 + 4 ≤ buff.storage.length := by omega
  have hflag' : ¬ fromLE (List.take 1 (List.drop (buff.rpos + 6) buff.storage)) = 0 := by
    simpa [timingFlag, ByteBuffer.atCursor, List.drop_drop, Nat.add_comm] using hflag
  unfold afterChecksum
  simp only [ByteBuffer.read, ByteBuffer.setRpos, h7, if_true, h11', ByteBuffer.atCursor,
    hflag', if_false, timingLog, List.drop_drop, Nat.add_assoc, Nat.reduceAdd]

theorem afterChecksum_zero (mgr : WardenCheckMgr) (now : Nat) (w : Session) {buff : ByteBuffer}
    (h7 : buff.rpos + 7 ≤ buff.storage.length) (hflag : timingFlag buff = 0) :
    afterChecksum mgr now w (buff.setRpos (buff.rpos + 6)) =
      .ok { buff := buff.setRpos (buff.rpos + 7), checkFailed := 0, log := [.failedTiming],
            penalty := [.noCheck], completed := false } := by
  have h7' : buff.rpos + 6 + 1 ≤ buff.storage.length := by omega
  have hflag' : fromLE (List.take 1 (List.drop (buff.rpos + 6) buff.storage)) = 0 := by
    simpa [timingFlag, ByteBuffer.atCursor, List.drop_drop, Nat.add_comm] using hflag
  unfold afterChecksum
  simp [ByteBuffer.read, ByteBuffer.setRpos, h7', ByteBuffer.atCursor, hflag']

theorem HandleData_valid (mgr : WardenCheckMgr) {cs : List Nat → Nat} (now : Nat) (w : Session)
    {buff : ByteBuffer} (hv : ValidResponse cs buff) :
    HandleData mgr cs now w buff =
      match checkLoop mgr w.build
          { buff := buff.setRpos (buff.rpos + 11), checkFailed := 0, log := timingLog now w buff }
          w._currentChecks with
      | .error e => .error e
      | .ok st => .ok (finishCycle mgr w.build st) := by
  obtain ⟨h11, hin, hck, hflag⟩ := hv
  rw [HandleData_header mgr cs now w hin, if_neg (by simpa using hck),
    afterChecksum_valid mgr now w h11 hflag]

theorem HandleData_valid_ok {mgr : WardenCheckMgr} {cs : List Nat → Nat} {now : Nat} {w : Session}
    {buff : ByteBuffer} {r : HandleDataResult} (hv : ValidResponse cs buff)
    (h : HandleData mgr cs now w buff = .ok r) :
    ∃ st, checkLoop mgr w.build
        { buff := buff.setRpos (buff.rpos + 11), checkFailed := 0, log := timingLog now w buff }
        w._currentChecks = .ok st ∧ r = finishCycle mgr w.build st := by
  rw [HandleData_valid mgr now w hv] at h
  split at h
  · cases h
  · rename_i st hst
    cases h
    exact ⟨st, hst, rfl⟩

theorem read_of_le {b : ByteBuffer} {n : Nat} (h : b.rpos + n ≤ b.storage.length) :
    b.read n = .ok (fromLE (b.atCursor.take n), b.setRpos (b.rpos + n)) := by
  simp [ByteBuffer.read, h, ByteBuffer.setRpos]

theorem memcmpNe_ok {a b : List Nat} {n : Nat} (ha : n ≤ a.length) (hb : n ≤ b.length) :
    memcmpNe a b n = .ok (a.take n != b.take n) := by
  simp [memcmpNe, rawRead, ha, hb]

theorem length_atCursor (b : ByteBuffer) : b.atCursor.length = b.storage.length - b.rpos := by
  simp [ByteBuffer.atCursor]

theorem checkStep_ok_of_fits {mgr : WardenCheckMgr} {build id : Nat} {rd : WardenCheck}
    (st : LoopState) (hc : CatalogOk mgr build id) (hrd : mgr.GetWardenDataById build id = some rd)
    (hfit : st.buff.rpos + entryBytes rd st.buff.atCursor ≤ st.buff.storage.length) :
    ∃ st', checkStep mgr build st id = .ok st' := by
  obtain ⟨rd', hrd', hcase, hmem, hmpq⟩ := hc
  rw [hrd] at hrd'
  cases hrd'
  unfold checkStep
  simp only [hrd]
  cases hty : rd.Type_ <;> simp only [hty, entryBytes, hasCase] at hfit hcase ⊢
  case MEM_CHECK =>
    obtain ⟨rs, hrs, hlen⟩ := hmem hty
    have h1 : st.buff.rpos + 1 ≤ st.buff.storage.length := by split at hfit <;> omega
    rw [read_of_le h1]
    by_cases hz : fromLE (List.take 1 st.buff.atCursor) = 0
    · rw [if_pos hz] at hfit
      have ha : rd.Length ≤ (st.buff.setRpos (st.buff.rpos + 1)).atCursor.length := by
        rw [length_atCursor]; simp only [rpos_setRpos, storage_setRpos]; omega
      simp only [hz, hrs, memcmpNe_ok ha hlen]
      cases ((st.buff.setRpos (st.buff.rpos + 1)).atCursor.take rd.Length != rs.Result.take rd.Length)
        <;> simp
    · simp [hz]
  case MPQ_CHECK =>
    obtain ⟨rs, hrs, hlen⟩ := hmpq hty
    have h1 : st.buff.rpos + 1 ≤ st.buff.storage.length := by split at hfit <;> omega
    rw [read_of_le h1]
    by_cases hz : fromLE (List.take 1 st.buff.atCursor) = 0
    · rw [if_pos hz] at hfit
      have ha : 20 ≤ (st.buff.setRpos (st.buff.rpos + 1)).atCursor.length := by
        rw [length_atCursor]; simp only [rpos_setRpos, storage_setRpos]; omega
      simp only [hz, hrs, memcmpNe_ok ha hlen]
      cases ((st.buff.setRpos (st.buff.rpos + 1)).atCursor.take 20 != rs.Result.take 20)
        <;> simp
    · simp [hz]
  case LUA_STR_CHECK =>
    have h1 : st.buff.rpos + 1 ≤ st.buff.storage.length := by split at hfit <;> omega
    rw [read_of_le h1]
    by_cases hz : fromLE (List.take 1 st.buff.atCursor) = 0
    · rw [if_pos hz] at hfit
      have h2 : (st.buff.setRpos (st.buff.rpos + 1)).rpos + 1 ≤
          (st.buff.setRpos (st.buff.rpos + 1)).storage.length := by
        simp only [rpos_setRpos, storage_setRpos]; omega
      simp only [hz, read_of_le h2]
      by_cases hl : fromLE (List.take 1 (st.buff.setRpos (st.buff.rpos + 1)).atCursor) = 0
      · simp [hl]
      · have ha : fromLE (List.take 1 (st.buff.setRpos (st.buff.rpos + 1)).atCursor) ≤
            ((st.buff.setRpos (st.buff.rpos + 1)).setRpos
              ((st.buff.setRpos (st.buff.rpos + 1)).rpos + 1)).atCursor.length := by
          rw [length_atCursor]
          simp only [rpos_setRpos, storage_setRpos, atCursor_setRpos_add] at hfit ⊢
          omega
        simp [hl, rawRead, ha]
    · simp [hz]
  case TIMING_CHECK => cases hcase
  case PROC_CHECK => cases hcase
  all_goals
    have h1 : 1 ≤ st.buff.atCursor.length := by rw [length_atCursor]; omega
    rw [memcmpNe_ok h1 (by simp)]
    cases (st.buff.atCursor.take 1 != [233].take 1) <;> simp

theorem checkLoop_ok_of_fits {mgr : WardenCheckMgr} {build : Nat} :
    ∀ (ids : List Nat) (st : LoopState), (∀ id ∈ ids, CatalogOk mgr build id) →
      st.buff.rpos + loopBytes (mgr.GetWardenDataById build) st.buff.storage st.buff.rpos ids ≤
        st.buff.storage.length →
      ∃ st', checkLoop mgr build st ids = .ok st' := by
  intro ids
  induction ids with
  | nil => intro st _ _; exact ⟨st, rfl⟩
  | cons id rest ih =>
    intro st hcat hfit
    have hc := hcat id (List.mem_cons_self _ _)
    obtain ⟨rd, hrd, -⟩ := hcat id (List.mem_cons_self _ _)
    simp only [loopBytes, hrd] at hfit
    obtain ⟨st1, hs⟩ := checkStep_ok_of_fits st hc hrd
      (by simp only [ByteBuffer.atCursor]; omega)
    obtain ⟨rd', hrd', hb1, -⟩ := checkStep_ok_spec hs
    rw [hrd] at hrd'
    cases hrd'
    have hfit1 : st1.buff.rpos + loopBytes (mgr.GetWardenDataById build) st1.buff.storage
        st1.buff.rpos rest ≤ st1.buff.storage.length := by
      rw [hb1]
      simp only [rpos_setRpos, storage_setRpos, ByteBuffer.atCursor]
      omega
    obtain ⟨st', hl⟩ := ih st1 (fun x hx => hcat x (List.mem_cons_of_mem _ hx)) hfit1
    exact ⟨st', by simp only [checkLoop, hs, hl]⟩

theorem filter_decodes_of_catalogOk {mgr : WardenCheckMgr} {build : Nat} (ids : List Nat)
    (h : ∀ id ∈ ids, CatalogOk mgr build id) : ids.filter (decodes mgr build) = ids := by
  apply List.filter_eq_self.mpr
  intro id hid
  obtain ⟨rd, hrd, hcase, -⟩ := h id hid
  simp [decodes, hrd, hcase]

theorem finishCycle_completed (mgr : WardenCheckMgr) (build : Nat) (st : LoopState) :
    (finishCycle mgr build st).completed = true := by
  unfold finishCycle; split <;> rfl

theorem afterChecksum_ok_cases {mgr : WardenCheckMgr} {now : Nat} {w : Session}
    {buff : ByteBuffer} {r : HandleDataResult}
    (h : afterChecksum mgr now w (buff.setRpos (buff.rpos + 6)) = .ok r) :
    (timingFlag buff = 0 ∧
      r = { buff := buff.setRpos (buff.rpos + 7), checkFailed := 0, log := [.failedTiming],
            penalty := [.noCheck], completed := false }) ∨
    (timingFlag buff ≠ 0 ∧ buff.rpos + 11 ≤ buff.storage.length ∧ r.completed = true) := by
  by_cases hfl : timingFlag buff = 0
  · left
    have h7 : buff.rpos + 7 ≤ buff.storage.length := by
      unfold afterChecksum at h
      cases h1 : (buff.setRpos (buff.rpos + 6)).read 1 with
      | error e => simp [h1] at h
      | ok p =>
        obtain ⟨hl, -, -⟩ := read_ok_iff.mp h1
        simpa only [rpos_setRpos, storage_setRpos] using hl
    rw [afterChecksum_zero mgr now w h7 hfl] at h
    cases h
    exact ⟨hfl, rfl⟩
  · right
    have h11 : buff.rpos + 11 ≤ buff.storage.length := by
      unfold afterChecksum at h
      cases h1 : (buff.setRpos (buff.rpos + 6)).read 1 with
      | error e => simp [h1] at h
      | ok p =>
        obtain ⟨v, b⟩ := p
        obtain ⟨-, hv, hb⟩ := read_ok_iff.mp h1
        have hv' : v = timingFlag buff := by
          rw [hv]; simp [timingFlag, ByteBuffer.atCursor, ByteBuffer.setRpos, List.drop_drop,
            Nat.add_comm]
        simp only [h1, hv', hfl, if_false] at h
        cases h2 : b.read 4 with
        | error e => simp [h2] at h
        | ok p2 =>
          obtain ⟨hl, -, -⟩ := read_ok_iff.mp h2
          subst hb
          simpa only [rpos_setRpos, storage_setRpos] using hl
    refine ⟨hfl, h11, ?_⟩
    rw [afterChecksum_valid mgr now w h11 hfl] at h
    split at h
    · cases h
    · cases h
      exact finishCycle_completed _ _ _

theorem HandleData_ok_cases {mgr : WardenCheckMgr} {cs : List Nat → Nat} {now : Nat} {w : Session}
    {buff : ByteBuffer} {r : HandleDataResult} (h : HandleData mgr cs now w buff = .ok r) :
    (hdrChecksum buff ≠ cs (covered buff) ∧
      r = { buff := buff.setRpos buff.wpos, checkFailed := 0, log := [.failedChecksum],
            penalty := [.noCheck], completed := false }) ∨
    (hdrChecksum buff = cs (covered buff) ∧ timingFlag buff = 0 ∧
      r = { buff := buff.setRpos (buff.rpos + 7), checkFailed := 0, log := [.failedTiming],
            penalty := [.noCheck], completed := false }) ∨
    (ValidResponse cs buff ∧ r.completed = true) := by
  have hin : HeaderInside buff := by
    unfold HandleData at h
    cases h1 : buff.read 2 with
    | error e => simp [h1] at h
    | ok p1 =>
      obtain ⟨v1, b1⟩ := p1
      simp only [h1] at h
      cases h2 : b1.read 4 with
      | error e => simp [h2] at h
      | ok p2 =>
        obtain ⟨v2, b2⟩ := p2
        simp only [h2] at h
        obtain ⟨-, hv1, hb1⟩ := read_ok_iff.mp h1
        obtain ⟨hl2, -, hb2⟩ := read_ok_iff.mp h2
        cases h3 : rawRead b2.atCursor v1 with
        | error e => simp [h3] at h
        | ok data =>
          simp only [rawRead] at h3
          split at h3
          · rename_i hle
            subst hb2 hb1 hv1
            simp only [atCursor_setRpos, storage_setRpos, List.length_drop,
              rpos_setRpos] at hle hl2
            unfold HeaderInside hdrLength
            omega
          · cases h3
  rw [HandleData_header mgr cs now w hin] at h
  by_cases hck : hdrChecksum buff = cs (covered buff)
  · rw [if_neg (by simpa using hck)] at h
    rcases afterChecksum_ok_cases h with ⟨hfl, hr⟩ | ⟨hfl, h11, hr⟩
    · exact Or.inr (Or.inl ⟨hck, hfl, hr⟩)
    · exact Or.inr (Or.inr ⟨⟨h11, hin, hck, hfl⟩, hr⟩)
  · rw [if_pos hck] at h
    left
    cases h
    exact ⟨hck, rfl⟩

/-! ## The result of one iteration, by type -/

theorem take_one_atCursor {b : ByteBuffer} {x : Nat} (h : b.storage[b.rpos]? = some x) :
    b.atCursor.take 1 = [x] := by
  obtain ⟨hlt, hx⟩ := List.getElem?_eq_some.mp h
  unfold ByteBuffer.atCursor
  rw [List.drop_eq_getElem_cons hlt, hx]
  simp

theorem checkStep_sentinel {mgr : WardenCheckMgr} {build id : Nat} {rd : WardenCheck}
    (st : LoopState) {x : Nat} (hrd : mgr.GetWardenDataById build id = some rd)
    (hty : rd.Type_ = .PAGE_CHECK_A ∨ rd.Type_ = .PAGE_CHECK_B ∨ rd.Type_ = .DRIVER_CHECK ∨
      rd.Type_ = .MODULE_CHECK)
    (hx : st.buff.storage[st.buff.rpos]? = some x) :
    checkStep mgr build st id = .ok
      (if x = 0xE9 then
        { buff := st.buff.setRpos (st.buff.rpos + 1), checkFailed := st.checkFailed,
          log := st.log ++ [.result rd.Type_ .passed id] }
      else
        { buff := st.buff.setRpos (st.buff.rpos + 1), checkFailed := id,
          log := st.log ++ [.result rd.Type_ .fail id] }) := by
  have ht := take_one_atCursor hx
  have h1 : 1 ≤ st.buff.atCursor.length := by
    have := congrArg List.length ht
    simp only [List.length_take, List.length_singleton] at this
    omega
  unfold checkStep
  simp only [hrd]
  by_cases hx9 : x = 233
  · subst hx9
    have hb : (([233] : List Nat) != [233]) = false := bne_self_eq_false _
    rcases hty with hty | hty | hty | hty <;>
      simp only [hty, memcmpNe_ok h1 (show 1 ≤ [233].length by simp), ht, List.take_succ_cons,
        List.take_zero, hb, if_true]
  · have hb : ([x] != [233]) = true := bne_iff_ne.mpr (by simpa using hx9)
    rcases hty with hty | hty | hty | hty <;>
      simp only [hty, memcmpNe_ok h1 (show 1 ≤ [233].length by simp), ht, List.take_succ_cons,
        List.take_zero, hb, hx9, if_false]

theorem checkStep_status {mgr : WardenCheckMgr} {build id : Nat} {rd : WardenCheck}
    (st : LoopState) (n : Nat) (hrd : mgr.GetWardenDataById build id = some rd)
    (hty : rd.Type_ = .MEM_CHECK ∧ n = rd.Length ∨ rd.Type_ = .MPQ_CHECK ∧ n = 20)
    {rs : WardenCheckResult} (hrs : mgr.GetWardenResultById build id = some rs)
    (hE : n ≤ rs.Result.length) (h1 : st.buff.rpos + 1 ≤ st.buff.storage.length)
    (hfit : fromLE (st.buff.atCursor.take 1) = 0 → st.buff.rpos + 1 + n ≤ st.buff.storage.length) :
    checkStep mgr build st id = .ok
      (if fromLE (st.buff.atCursor.take 1) ≠ 0 then
        { buff := st.buff.setRpos (st.buff.rpos + 1), checkFailed := id,
          log := st.log ++ [.result rd.Type_ .notZero id] }
      else if (st.buff.atCursor.drop 1).take n = rs.Result.take n then
        { buff := st.buff.setRpos (st.buff.rpos + 1 + n), checkFailed := st.checkFailed,
          log := st.log ++ [.result rd.Type_ .passed id] }
      else
        { buff := st.buff.setRpos (st.buff.rpos + 1 + n), checkFailed := id,
          log := st.log ++ [.result rd.Type_ .fail id] }) := by
  unfold checkStep
  simp only [hrd, hrs]
  by_cases hz : fromLE (st.buff.atCursor.take 1) = 0
  · have ha : n ≤ (st.buff.atCursor.drop 1).length := by
      rw [← atCursor_setRpos_add, length_atCursor]
      simp only [rpos_setRpos, storage_setRpos]; have := hfit hz; omega
    by_cases he : (st.buff.atCursor.drop 1).take n = rs.Result.take n
    · have hb : ((st.buff.atCursor.drop 1).take n != rs.Result.take n) = false := by
        rw [he]; exact bne_self_eq_false _
      rcases hty with ⟨hty, hn⟩ | ⟨hty, hn⟩ <;> subst hn <;>
        simp only [hty, read_of_le h1, hz, memcmpNe_ok ha hE, atCursor_setRpos_add, he,
          bne_self_eq_false, ne_eq, not_true_eq_false, if_false, if_true, rpos_setRpos,
          setRpos_setRpos]
    · have hb : ((st.buff.atCursor.drop 1).take n != rs.Result.take n) = true :=
        bne_iff_ne.mpr he
      rcases hty with ⟨hty, hn⟩ | ⟨hty, hn⟩ <;> subst hn <;>
        simp only [hty, read_of_le h1, hz, memcmpNe_ok ha hE, atCursor_setRpos_add, hb, he,
          ne_eq, not_true_eq_false, if_false, if_true, rpos_setRpos, setRpos_setRpos]
  · rcases hty with ⟨hty, hn⟩ | ⟨hty, hn⟩ <;> simp [hty, read_of_le h1, hz]

theorem checkStep_lua {mgr : WardenCheckMgr} {build id : Nat} {rd : WardenCheck}
    (st : LoopState) (hrd : mgr.GetWardenDataById build id = some rd)
    (hty : rd.Type_ = .LUA_STR_CHECK) (h1 : st.buff.rpos + 1 ≤ st.buff.storage.length)
    (hfit : fromLE (st.buff.atCursor.take 1) = 0 →
      st.buff.rpos + 2 + fromLE ((st.buff.atCursor.drop 1).take 1) ≤ st.buff.storage.length) :
    checkStep mgr build st id = .ok
      (if fromLE (st.buff.atCursor.take 1) ≠ 0 then
        { buff := st.buff.setRpos (st.buff.rpos + 1), checkFailed := id,
          log := st.log ++ [.result .LUA_STR_CHECK .fail id] }
      else
        { buff := st.buff.setRpos
            (st.buff.rpos + 2 + fromLE ((st.buff.atCursor.drop 1).take 1)),
          checkFailed := st.checkFailed,
          log := st.log ++
            (if fromLE ((st.buff.atCursor.drop 1).take 1) ≠ 0 then
              [.luaString ((st.buff.atCursor.drop 2).take
                (fromLE ((st.buff.atCursor.drop 1).take 1)))]
             else []) ++ [.result .LUA_STR_CHECK .passed id] }) := by
  unfold checkStep
  simp only [hrd, hty]
  by_cases hz : fromLE (st.buff.atCursor.take 1) = 0
  · have hf := hfit hz
    have h2 : (st.buff.setRpos (st.buff.rpos + 1)).rpos + 1 ≤
        (st.buff.setRpos (st.buff.rpos + 1)).storage.length := by
      simp only [rpos_setRpos, storage_setRpos]; omega
    simp only [read_of_le h1, hz, read_of_le h2, atCursor_setRpos_add, rpos_setRpos,
      setRpos_setRpos]
    generalize fromLE ((st.buff.atCursor.drop 1).take 1) = n at hf ⊢
    by_cases hl : n = 0
    · subst hl
      simp [ByteBuffer.setRpos]
    · have ha : n ≤ ((st.buff.setRpos (st.buff.rpos + 1 + 1)).atCursor).length := by
        rw [length_atCursor]; simp only [rpos_setRpos, storage_setRpos]; omega
      have e2 : (st.buff.setRpos (st.buff.rpos + 1 + 1)).atCursor = st.buff.atCursor.drop 2 := by
        rw [Nat.add_assoc]; exact atCursor_setRpos_add _ _
      rw [e2] at ha
      simp only [ne_eq, hl, not_false_eq_true, if_true, e2, rawRead_ok ha]
      simp [ByteBuffer.setRpos, Nat.add_assoc]
  · simp [read_of_le h1, hz]

theorem finishCycle_fields (mgr : WardenCheckMgr) (build : Nat) (st : LoopState) :
    (finishCycle mgr build st).buff = st.buff ∧
    (finishCycle mgr build st).checkFailed = st.checkFailed ∧
    resultIds (finishCycle mgr build st).log = resultIds st.log ∧
    failedIds (finishCycle mgr build st).log = failedIds st.log ∧
    (finishCycle mgr build st).penalty =
      (if st.checkFailed > 0 then
        [.forCheck st.checkFailed (mgr.GetWardenDataById build st.checkFailed)] else []) := by
  unfold finishCycle
  split <;> simp [resultIds_append, failedIds_append, resultIds, failedIds]

theorem HandleData_valid_spec {mgr : WardenCheckMgr} {cs : List Nat → Nat} {now : Nat}
    {w : Session} {buff : ByteBuffer} {r : HandleDataResult} (hv : ValidResponse cs buff)
    (h : HandleData mgr cs now w buff = .ok r) :
    r.buff = buff.setRpos (buff.rpos + 11 +
      loopBytes (mgr.GetWardenDataById w.build) buff.storage (buff.rpos + 11) w._currentChecks) ∧
    resultIds r.log = w._currentChecks.filter (decodes mgr w.build) ∧
    (∀ x ∈ failedIds r.log, x ∈ w._currentChecks) ∧
    r.checkFailed = (failedIds r.log).getLastD 0 ∧
    r.penalty =
      (if r.checkFailed > 0 then
        [.forCheck r.checkFailed (mgr.GetWardenDataById w.build r.checkFailed)] else []) := by
  obtain ⟨st, hloop, rfl⟩ := HandleData_valid_ok hv h
  obtain ⟨hb, hr, F, hF, hmem, hcf⟩ := checkLoop_ok_spec _ _ _ hloop
  obtain ⟨fb, fc, fr, ff, fp⟩ := finishCycle_fields mgr w.build st
  have hF' : failedIds st.log = F := by
    rw [hF]; simp [timingLog, failedIds]
  refine ⟨?_, ?_, ?_, ?_, ?_⟩
  · rw [fb, hb]; simp [ByteBuffer.setRpos, Nat.add_assoc]
  · rw [fr, hr]; simp [timingLog, resultIds]
  · rw [ff, hF']; exact hmem
  · rw [fc, ff, hF', hcf]
  · rw [fp, fc]

theorem HandleData_single (mgr : WardenCheckMgr) {cs : List Nat → Nat} (now : Nat) {w : Session}
    {buff : ByteBuffer} {id : Nat} (hv : ValidResponse cs buff) (hcur : w._currentChecks = [id]) :
    HandleData mgr cs now w buff =
      match checkStep mgr w.build
          { buff := buff.setRpos (buff.rpos + 11), checkFailed := 0, log := timingLog now w buff }
          id with
      | .error e => .error e
      | .ok st => .ok (finishCycle mgr w.build st) := by
  rw [HandleData_valid mgr now w hv, hcur]
  simp only [checkLoop]
  cases checkStep mgr w.build
    { buff := buff.setRpos (buff.rpos + 11), checkFailed := 0, log := timingLog now w buff } id <;>
    rfl

theorem checkStep_status_fits {mgr : WardenCheckMgr} {build id : Nat} {rd : WardenCheck}
    {st st' : LoopState} {n : Nat} (h : checkStep mgr build st id = .ok st')
    (hrd : mgr.GetWardenDataById build id = some rd)
    (hty : rd.Type_ = .MEM_CHECK ∧ n = rd.Length ∨ rd.Type_ = .MPQ_CHECK ∧ n = 20)
    (hz : fromLE (st.buff.atCursor.take 1) = 0) :
    st.buff.rpos + 1 + n ≤ st.buff.storage.length := by
  by_cases h1 : st.buff.rpos + 1 ≤ st.buff.storage.length
  · unfold checkStep at h
    simp only [hrd] at h
    have key : ∀ rs : WardenCheckResult,
        (∃ b, memcmpNe (st.buff.setRpos (st.buff.rpos + 1)).atCursor rs.Result n = .ok b) →
        st.buff.rpos + 1 + n ≤ st.buff.storage.length := by
      intro rs ⟨b, hb⟩
      unfold memcmpNe rawRead at hb
      split at hb
      · cases hb
      · rename_i x hx
        split at hx
        · rename_i hle
          rw [length_atCursor] at hle
          simp only [rpos_setRpos, storage_setRpos] at hle
          omega
        · cases hx
    rcases hty with ⟨hty, hn⟩ | ⟨hty, hn⟩ <;> subst hn <;>
      simp only [hty, read_of_le h1, hz, ne_eq, not_true_eq_false, if_false] at h
    all_goals
      cases hrs : mgr.GetWardenResultById build id with
      | none => simp [hrs] at h
      | some rs =>
        simp only [hrs] at h
        apply key rs
        cases hm : memcmpNe (st.buff.setRpos (st.buff.rpos + 1)).atCursor rs.Result _ with
        | error e => simp [hm] at h
        | ok b => exact ⟨b, rfl⟩
  · exfalso
    unfold checkStep at h
    simp only [hrd] at h
    rcases hty with ⟨hty, -⟩ | ⟨hty, -⟩ <;> simp [hty, ByteBuffer.read, h1] at h


theorem finishCycle_penalty_nil {mgr : WardenCheckMgr} {build : Nat} {st : LoopState} :
    (finishCycle mgr build st).penalty = [] ↔ st.checkFailed = 0 := by
  unfold finishCycle
  split
  · constructor
    · intro h; cases h
    · intro h; omega
  · constructor
    · intro _; omega
    · intro _; rfl

/-! ## Lemmas on the draw loops -/

theorem drawMemChecks_wrap {quota : Nat} (hq : 65536 ≤ quota) :
    ∀ (todo : List Nat) (i : Nat) (cur : List Nat), i < 65536 →
      drawMemChecks quota i todo cur = ([], cur ++ todo) := by
  intro todo
  induction todo with
  | nil => intro i cur _; simp [drawMemChecks]
  | cons id rest ih =>
    intro i cur hi
    have hlt : i < quota := by omega
    simp only [drawMemChecks, hlt, if_true]
    have hm : (i + 1) % 2 ^ 16 < 65536 := Nat.mod_lt _ (by norm_num)
    rw [ih ((i + 1) % 2 ^ 16) (cur ++ [id]) hm]
    simp

theorem drawMemChecks_le {quota : Nat} (hq : quota < 65536) :
    ∀ (todo : List Nat) (i : Nat) (cur : List Nat), i ≤ quota →
      (drawMemChecks quota i todo cur).2.length ≤ cur.length + (quota - i) := by
  intro todo
  induction todo with
  | nil => intro i cur _; simp [drawMemChecks]
  | cons id rest ih =>
    intro i cur hi
    by_cases hlt : i < quota
    · have hm : (i + 1) % 2 ^ 16 = i + 1 := Nat.mod_eq_of_lt (by norm_num; omega)
      simp only [drawMemChecks, hlt, if_true, hm]
      have := ih (i + 1) (cur ++ [id]) (by omega)
      simp only [List.length_append, List.length_singleton] at this
      omega
    · simp only [drawMemChecks, hlt, if_false]
      omega

theorem drawOtherChecks_le {mgr : WardenCheckMgr} {build quota : Nat} (hq : quota < 65536) :
    ∀ (todo : List Nat) (i : Nat) (cur : List Nat) (buff : ByteBuffer), i ≤ quota →
      (drawOtherChecks mgr build quota i todo cur buff).2.1.length ≤
        cur.length + (quota - i) := by
  intro todo
  induction todo with
  | nil => intro i cur buff _; simp [drawOtherChecks]
  | cons id rest ih =>
    intro i cur buff hi
    by_cases hlt : i < quota
    · have hm : (i + 1) % 2 ^ 16 = i + 1 := Nat.mod_eq_of_lt (by norm_num; omega)
      simp only [drawOtherChecks, hlt, if_true, hm]
      have := ih (i + 1) (cur ++ [id]) (appendCheckString mgr build buff id) (by omega)
      simp only [List.length_append, List.length_singleton] at this
      omega
    · simp only [drawOtherChecks, hlt, if_false]
      omega

theorem tagStep_ok (env : RequestEnv) (build xorByte : Nat) (rand32 : Nat → Nat) (st : TagState)
    {id : Nat} (h : env.mgr.GetWardenDataById build id ≠ none) :
    ∃ st', tagStep env build xorByte rand32 st id = .ok st' := by
  unfold tagStep
  cases hrd : env.mgr.GetWardenDataById build id with
  | none => exact absurd hrd h
  | some wd => cases hty : wd.Type_ <;> simp [hty]

theorem tagLoop_ok (env : RequestEnv) (build xorByte : Nat) (rand32 : Nat → Nat) :
    ∀ (ids : List Nat) (st : TagState), (∀ id ∈ ids, env.mgr.GetWardenDataById build id ≠ none) →
      ∃ st', tagLoop env build xorByte rand32 st ids = .ok st' := by
  intro ids
  induction ids with
  | nil => intro st _; exact ⟨st, rfl⟩
  | cons id rest ih =>
    intro st h
    obtain ⟨st1, h1⟩ := tagStep_ok env build xorByte rand32 st (h id (List.mem_cons_self _ _))
    obtain ⟨st', h'⟩ := ih st1 (fun x hx => h x (List.mem_cons_of_mem _ hx))
    exact ⟨st', by simp only [tagLoop, h1, h']⟩

theorem RequestData_session (env : RequestEnv) (gameTime : Nat) (rand32 : Nat → Nat) (w : Session)
    (h : ∀ id ∈ (RequestDataDraw env gameTime w).1._currentChecks,
      env.mgr.GetWardenDataById w.build id ≠ none) :
    ∃ buff, RequestData env gameTime rand32 w = .ok ((RequestDataDraw env gameTime w).1, buff) := by
  unfold RequestData
  obtain ⟨st', h'⟩ := tagLoop_ok env w.build (w._inputKey.headD 0 % 256) rand32 _
    { buff := ((RequestDataDraw env gameTime w).2.append [0]).append
        [(env.tagByte .TIMING_CHECK ^^^ (w._inputKey.headD 0 % 256)) % 256],
      index := 1, rands := 0 } h
  exact ⟨st'.buff.append [w._inputKey.headD 0 % 256], by simp only [h']⟩

theorem RequestDataDraw_wrap (env : RequestEnv) (gameTime : Nat) (w : Session)
    (hq : 65536 ≤ env.NUM_MEM_CHECKS) (hmem : w._memChecksTodo ≠ [])
    (hother : w._otherChecksTodo = []) (hcat : env.mgr.GetWardenCheckIds false w.build = []) :
    (RequestDataDraw env gameTime w).1._currentChecks = w._memChecksTodo.reverse ∧
      (RequestDataDraw env gameTime w).1._memChecksTodo = [] ∧
      (RequestDataDraw env gameTime w).1._otherChecksTodo = [] := by
  have hmem' : w._memChecksTodo.isEmpty = false := by
    cases hl : w._memChecksTodo with
    | nil => exact absurd hl hmem
    | cons a l => rfl
  unfold RequestDataDraw
  simp [hmem', hother, hcat, drawMemChecks_wrap hq, drawOtherChecks]

/-! ## Lemmas on the payload of `RequestData` -/

theorem drawCount_le (quota : Nat) : ∀ (todo : List Nat) (i : Nat),
    drawCount quota i todo ≤ todo.length := by
  intro todo
  induction todo with
  | nil => intro i; simp [drawCount]
  | cons id rest ih =>
    intro i
    simp only [drawCount]
    split
    · have := ih ((i + 1) % 2 ^ 16)
      simp only [List.length_cons]; omega
    · omega

theorem drawMemChecks_eq (quota : Nat) : ∀ (todo : List Nat) (i : Nat) (cur : List Nat),
    drawMemChecks quota i todo cur =
      (todo.drop (drawCount quota i todo), cur ++ todo.take (drawCount quota i todo)) := by
  intro todo
  induction todo with
  | nil => intro i cur; simp [drawMemChecks, drawCount]
  | cons id rest ih =>
    intro i cur
    by_cases hlt : i < quota
    · simp only [drawMemChecks, drawCount, hlt, if_true, ih]
      simp [Nat.add_comm 1]
    · simp [drawMemChecks, drawCount, hlt]

theorem append_append (b : ByteBuffer) (x y : List Nat) :
    (b.append x).append y = b.append (x ++ y) := by
  simp [ByteBuffer.append, Nat.add_assoc]

theorem append_nil (b : ByteBuffer) : b.append [] = b := by
  simp [ByteBuffer.append]

theorem definitions_append (mgr : WardenCheckMgr) (build : Nat) (a b : List Nat) :
    definitions mgr build (a ++ b) = definitions mgr build a ++ definitions mgr build b := by
  simp [definitions, List.filterMap_append]

theorem stringChecks_append (mgr : WardenCheckMgr) (build : Nat) (a b : List Nat) :
    stringChecks mgr build (a ++ b) = stringChecks mgr build a ++ stringChecks mgr build b := by
  simp [stringChecks, definitions_append]

theorem prepass_append (a b : List WardenCheck) : prepass (a ++ b) = prepass a ++ prepass b := by
  induction a with
  | nil => rfl
  | cons wd rest ih => simp [prepass, ih]

theorem appendCheckString_eq (mgr : WardenCheckMgr) (build : Nat) (buff : ByteBuffer) (id : Nat) :
    appendCheckString mgr build buff id = buff.append (prepass (stringChecks mgr build [id])) := by
  unfold appendCheckString
  cases hrd : mgr.GetWardenDataById build id with
  | none => simp [stringChecks, definitions, hrd, prepass, append_nil]
  | some wd =>
    cases hty : wd.Type_ <;>
      simp [stringChecks, definitions, hrd, hty, carriesString, prepass, append_nil,
        append_append, lengthPrefixed]

theorem drawOtherChecks_eq (mgr : WardenCheckMgr) (build quota : Nat) :
    ∀ (todo : List Nat) (i : Nat) (cur : List Nat) (buff : ByteBuffer),
      drawOtherChecks mgr build quota i todo cur buff =
        (todo.drop (drawCount quota i todo), cur ++ todo.take (drawCount quota i todo),
          buff.append (prepass (stringChecks mgr build (todo.take (drawCount quota i todo))))) := by
  intro todo
  induction todo with
  | nil => intro i cur buff; simp [drawOtherChecks, drawCount, stringChecks, definitions, prepass, append_nil]
  | cons id rest ih =>
    intro i cur buff
    by_cases hlt : i < quota
    · simp only [drawOtherChecks, drawCount, hlt, if_true, ih, appendCheckString_eq, append_append,
        ← prepass_append, ← stringChecks_append]
      simp [Nat.add_comm 1]
    · simp [drawOtherChecks, drawCount, hlt, stringChecks, definitions, prepass, append_nil]

theorem RequestDataDraw_eq (env : RequestEnv) (gameTime : Nat) (w : Session) :
    RequestDataDraw env gameTime w =
      ({ w with _serverTicks := gameTime % 2 ^ 32,
                _memChecksTodo := ((memPool env w).reverse.drop
                  (drawCount env.NUM_MEM_CHECKS 0 (memPool env w).reverse)).reverse,
                _otherChecksTodo := ((otherPool env w).reverse.drop
                  (drawCount env.NUM_OTHER_CHECKS 0 (otherPool env w).reverse)).reverse,
                _currentChecks := memDrawn env w ++ otherDrawn env w },
        ByteBuffer.append ⟨[], 0, 0⟩ ([env.WARDEN_SMSG_CHEAT_CHECKS_REQUEST % 256] ++
          prepass (stringChecks env.mgr w.build (otherDrawn env w)))) := by
  unfold RequestDataDraw
  simp only [drawMemChecks_eq, drawOtherChecks_eq, append_append]
  rfl

theorem pool_split (pool : List Nat) (n : Nat) :
    pool = (pool.reverse.drop n).reverse ++ (pool.reverse.take n).reverse := by
  rw [← List.reverse_append, List.take_append_drop, List.reverse_reverse]

theorem tagStep_spec {env : RequestEnv} {build xorByte : Nat} {rand32 : Nat → Nat}
    {st st' : TagState} {id : Nat} (h : tagStep env build xorByte rand32 st id = .ok st')
    (k : Nat) (hk : st.index = (1 + k) % 256) :
    ∃ wd, env.mgr.GetWardenDataById build id = some wd ∧
      st'.buff = st.buff.append
        (((env.tagByte wd.Type_ ^^^ xorByte) % 256) ::
          sectionBody env wd ((1 + k) % 256) (toLE 4 (rand32 st.rands))) ∧
      st'.index = (1 + (if carriesString wd.Type_ then k + 1 else k)) % 256 ∧
      st'.rands = (if wd.Type_ = .MODULE_CHECK then st.rands + 1 else st.rands) := by
  unfold tagStep at h
  cases hrd : env.mgr.GetWardenDataById build id with
  | none => simp [hrd] at h
  | some wd =>
    refine ⟨wd, rfl, ?_⟩
    simp only [hrd] at h
    cases hty : wd.Type_ <;> simp only [hty] at h <;> cases h <;>
      simp [sectionBody, hty, carriesString, append_append, hk, Nat.add_assoc]

theorem tagLoop_spec {env : RequestEnv} {build xorByte : Nat} {rand32 : Nat → Nat} :
    ∀ (ids : List Nat) (st st' : TagState) (k : Nat),
      tagLoop env build xorByte rand32 st ids = .ok st' → st.index = (1 + k) % 256 →
      (definitions env.mgr build ids).length = ids.length ∧
      st'.buff = st.buff.append
        (sectionsFrom env xorByte (fun t => (1 + t) % 256) (fun m => toLE 4 (rand32 m)) k st.rands
          (definitions env.mgr build ids)) := by
  intro ids
  induction ids with
  | nil =>
    intro st st' k h _
    simp only [tagLoop, Except.ok.injEq] at h
    subst h
    simp [definitions, sectionsFrom, append_nil]
  | cons id rest ih =>
    intro st st' k h hk
    simp only [tagLoop] at h
    cases hs : tagStep env build xorByte rand32 st id with
    | error e => simp [hs] at h
    | ok st1 =>
      simp only [hs] at h
      obtain ⟨wd, hrd, hb1, hi1, hr1⟩ := tagStep_spec hs k hk
      obtain ⟨hlen, hb⟩ := ih st1 st' _ h hi1
      constructor
      · simp only [definitions, List.filterMap_cons, hrd, List.length_cons] at hlen ⊢
        omega
      · rw [hb, hb1, append_append, hr1]
        simp [definitions, hrd, sectionsFrom]

theorem RequestData_payload {env : RequestEnv} {gameTime : Nat} {rand32 : Nat → Nat}
    {w : Session} {p : Session × ByteBuffer} (h : RequestData env gameTime rand32 w = .ok p) :
    p.1 = (RequestDataDraw env gameTime w).1 ∧
    p.1._currentChecks = memDrawn env w ++ otherDrawn env w ∧
    (definitions env.mgr w.build p.1._currentChecks).length = p.1._currentChecks.length ∧
    p.2.storage = [env.WARDEN_SMSG_CHEAT_CHECKS_REQUEST % 256] ++
      prepass (stringChecks env.mgr w.build (otherDrawn env w)) ++
      timingProbe env (xorByteOf w) ++
      sectionsFrom env (xorByteOf w) (fun t => (1 + t) % 256) (fun m => toLE 4 (rand32 m)) 0 0
        (definitions env.mgr w.build p.1._currentChecks) ++
      [xorByteOf w] := by
  unfold RequestData at h
  simp only at h
  split at h
  · cases h
  · rename_i st hst
    cases h
    obtain ⟨hlen, hb⟩ := tagLoop_spec _ _ _ 0 hst rfl
    refine ⟨rfl, by rw [RequestDataDraw_eq], hlen, ?_⟩
    simp only [hb, append_append]
    rw [RequestDataDraw_eq]
    simp [ByteBuffer.append, timingProbe, xorByteOf]

theorem sectionBody_index (env : RequestEnv) (wd : WardenCheck) (i j : Nat) (seed : List Nat)
    (h : carriesString wd.Type_ = false) :
    sectionBody env wd i seed = sectionBody env wd j seed := by
  unfold sectionBody
  cases hT : wd.Type_ <;> simp [hT, carriesString] at h ⊢

theorem sectionsFrom_congr (env : RequestEnv) (xorByte : Nat) (idx idx' : Nat → Nat)
    (seed : Nat → List Nat) :
    ∀ (l : List WardenCheck) (k m : Nat),
      (∀ t, k ≤ t → t < k + (l.filter fun wd => carriesString wd.Type_).length →
        idx t = idx' t) →
      sectionsFrom env xorByte idx seed k m l = sectionsFrom env xorByte idx' seed k m l
  | [], _, _, _ => rfl
  | wd :: rest, k, m, h => by
    unfold sectionsFrom
    cases hc : carriesString wd.Type_ with
    | false =>
      rw [sectionBody_index env wd (idx k) (idx' k) (seed m) hc]
      simp only [Bool.false_eq_true, if_false]
      rw [sectionsFrom_congr env xorByte idx idx' seed rest k _]
      intro t h1 h2
      apply h t h1
      simpa [List.filter, hc] using h2
    | true =>
      have hk : idx k = idx' k := by
        apply h k (le_refl k)
        simp [List.filter, hc]
      rw [hk]
      simp only [if_true]
      rw [sectionsFrom_congr env xorByte idx idx' seed rest (k + 1) _]
      intro t h1 h2
      apply h t (by omega)
      simp only [List.filter, hc, List.length_cons]
      omega

theorem drawCount_replicate (quota a : Nat) (hq : quota < 2 ^ 16) :
    ∀ (n i : Nat), i + n ≤ quota → drawCount quota i (List.replicate n a) = n
  | 0, _, _ => rfl
  | n + 1, i, h => by
    have hi : i < quota := by omega
    have h16 : (2 : Nat) ^ 16 = 65536 := by norm_num
    have hmod : (i + 1) % 2 ^ 16 = i + 1 := Nat.mod_eq_of_lt (by omega)
    simp only [List.replicate_succ, drawCount, hi, if_true, hmod]
    rw [drawCount_replicate quota a hq n (i + 1) (by omega)]
    omega

theorem definitions_replicate (mgr : WardenCheckMgr) (build id : Nat) (wd : WardenCheck)
    (h : mgr.GetWardenDataById build id = some wd) :
    ∀ n, definitions mgr build (List.replicate n id) = List.replicate n wd
  | 0 => rfl
  | n + 1 => by
    have ih := definitions_replicate mgr build id wd h n
    unfold definitions at ih ⊢
    simp only [List.replicate_succ, List.filterMap_cons, h, ih]

theorem sectionsFrom_replicate_succ (env : RequestEnv) (xorByte : Nat) (idx : Nat → Nat)
    (seed : Nat → List Nat) (wd : WardenCheck) (hT : wd.Type_ = .LUA_STR_CHECK) :
    ∀ (n k m : Nat),
      sectionsFrom env xorByte idx seed k m (List.replicate (n + 1) wd) =
        sectionsFrom env xorByte idx seed k m (List.replicate n wd) ++
          [(env.tagByte .LUA_STR_CHECK ^^^ xorByte) % 256, idx (k + n)]
  | 0, k, m => by
    simp [sectionsFrom, sectionBody, hT]
  | n + 1, k, m => by
    have ih := sectionsFrom_replicate_succ env xorByte idx seed wd hT n (k + 1) m
    rw [List.replicate_succ, sectionsFrom]
    simp only [hT, carriesString, if_true]
    rw [show (if WardenCheckType.LUA_STR_CHECK = WardenCheckType.MODULE_CHECK then m + 1 else m)
      = m from by simp]
    rw [ih]
    conv_rhs => rw [List.replicate_succ, sectionsFrom]
    simp only [hT, carriesString, if_true]
    rw [show (if WardenCheckType.LUA_STR_CHECK = WardenCheckType.MODULE_CHECK then m + 1 else m)
      = m from by simp]
    rw [show k + 1 + n = k + (n + 1) from by omega]
    simp

theorem HandleHashResult_valid (md : ModuleData) (gameTime : Nat) (w : Session) (buff : ByteBuffer)
    (hlen : 1 + md.ClientKeySeedHash.length ≤ buff.storage.length)
    (hvalid : (buff.storage.drop 1).take md.ClientKeySeedHash.length = md.ClientKeySeedHash) :
    HandleHashResult md gameTime w buff =
      .ok ({ w with _inputKey := md.ClientKeySeed.take 16
                    _outputKey := md.ServerKeySeed.take 16
                    _inputCrypto := SARC4.Init (md.ClientKeySeed.take 16)
                    _outputCrypto := SARC4.Init (md.ServerKeySeed.take 16)
                    _previousTimestamp := gameTime % 2 ^ 32 }, buff.setRpos buff.wpos, []) := by
  have h1 : md.ClientKeySeedHash.length ≤ (buff.storage.drop 1).length := by
    rw [List.length_drop]; omega
  have hm : memcmpNe ((buff.setRpos buff.wpos).storage.drop 1) md.ClientKeySeedHash
      md.ClientKeySeedHash.length = .ok false := by
    rw [show (buff.setRpos buff.wpos).storage = buff.storage from rfl,
      memcmpNe_ok h1 (le_refl _), hvalid, List.take_length]
    simp
  unfold HandleHashResult
  simp only [hm]

theorem HandleHashResult_cases {md : ModuleData} {gameTime : Nat} {w : Session}
    {buff : ByteBuffer} {p : Session × ByteBuffer × List PenaltyCall}
    (h : HandleHashResult md gameTime w buff = .ok p) :
    (p.1 = w ∧ p.2.2 = [.noCheck]) ∨
    (p.1 = { w with _inputKey := md.ClientKeySeed.take 16
                    _outputKey := md.ServerKeySeed.take 16
                    _inputCrypto := SARC4.Init (md.ClientKeySeed.take 16)
                    _outputCrypto := SARC4.Init (md.ServerKeySeed.take 16)
                    _previousTimestamp := gameTime % 2 ^ 32 } ∧ p.2.2 = []) := by
  unfold HandleHashResult at h
  dsimp only at h
  generalize memcmpNe _ _ _ = r at h
  rcases r with e | b
  · cases h
  · cases b
    · cases h; exact Or.inr ⟨rfl, rfl⟩
    · cases h; exact Or.inl ⟨rfl, rfl⟩

theorem RequestDataSend_keys {env : RequestEnv} {gameTime : Nat} {rand32 : Nat → Nat}
    {w : Session} {r : Session × List Nat} (h : RequestDataSend env gameTime rand32 w = .ok r) :
    r.1._inputKey = w._inputKey ∧ r.1._outputKey = w._outputKey ∧
    r.1._inputCrypto = w._inputCrypto ∧
    ∃ p, RequestData env gameTime rand32 w = .ok p ∧
      r.1._outputCrypto = (w._outputCrypto.UpdateData p.2.storage).1 ∧
      r.2 = (w._outputCrypto.UpdateData p.2.storage).2 := by
  unfold RequestDataSend at h
  cases hp : RequestData env gameTime rand32 w with
  | error e => rw [hp] at h; cases h
  | ok p =>
    rw [hp] at h
    obtain ⟨hs, -, -, -⟩ := RequestData_payload hp
    cases h
    have hw : p.1 = (RequestDataDraw env gameTime w).1 := hs
    rw [RequestDataDraw_eq] at hw
    refine ⟨?_, ?_, ?_, p, rfl, ?_, ?_⟩
    · show p.1._inputKey = _; rw [hw]
    · show p.1._outputKey = _; rw [hw]
    · show p.1._inputCrypto = _; rw [hw]
    · show (p.1._outputCrypto.UpdateData p.2.storage).1 = _; rw [hw]
    · show (p.1._outputCrypto.UpdateData p.2.storage).2 = _; rw [hw]

theorem Call_run_keys {env : WardenEnv} {req : RequestEnv} {c : Call} {w w' : Session}
    (h : c.run env req w = .ok w') :
    (w'._inputKey = w._inputKey ∧ w'._outputKey = w._outputKey) ∨
    (w'._inputKey = env.Module.ClientKeySeed.take 16 ∧
      w'._outputKey = env.Module.ServerKeySeed.take 16) := by
  cases c with
  | hashResult gameTime buff =>
    simp only [Call.run] at h
    cases hr : HandleHashResult env.Module gameTime w buff with
    | error e => rw [hr] at h; cases h
    | ok r =>
      rw [hr] at h
      cases h
      rcases HandleHashResult_cases hr with ⟨h1, -⟩ | ⟨h1, -⟩
      · exact Or.inl (by rw [h1]; exact ⟨rfl, rfl⟩)
      · exact Or.inr (by rw [h1]; exact ⟨rfl, rfl⟩)
  | requestData gameTime rand32 =>
    simp only [Call.run] at h
    cases hr : RequestDataSend req gameTime rand32 w with
    | error e => rw [hr] at h; cases h
    | ok r =>
      rw [hr] at h
      cases h
      obtain ⟨h1, h2, -⟩ := RequestDataSend_keys hr
      exact Or.inl ⟨h1, h2⟩
  | handleData ticksNow buff =>
    simp only [Call.run] at h
    cases hr : HandleData req.mgr env.BuildChecksum ticksNow w buff with
    | error e => rw [hr] at h; cases h
    | ok r =>
      rw [hr] at h
      cases h
      exact Or.inl ⟨rfl, rfl⟩

theorem runCalls_keys {env : WardenEnv} {req : RequestEnv} :
    ∀ (cs : List Call) {w w' : Session}, runCalls env req cs w = .ok w' →
      (w'._inputKey = w._inputKey ∧ w'._outputKey = w._outputKey) ∨
      (w'._inputKey = env.Module.ClientKeySeed.take 16 ∧
        w'._outputKey = env.Module.ServerKeySeed.take 16)
  | [], w, w', h => by
    unfold runCalls at h
    cases h
    exact Or.inl ⟨rfl, rfl⟩
  | c :: rest, w, w', h => by
    unfold runCalls at h
    cases hc : c.run env req w with
    | error e => rw [hc] at h; cases h
    | ok w1 =>
      rw [hc] at h
      rcases runCalls_keys rest h with ⟨h1, h2⟩ | h2
      · rcases Call_run_keys hc with ⟨h3, h4⟩ | ⟨h3, h4⟩
        · exact Or.inl ⟨h1.trans h3, h2.trans h4⟩
        · exact Or.inr ⟨h1.trans h3, h2.trans h4⟩
      · exact Or.inr h2

theorem InitializeModule_message (env : WardenEnv) (uninit : Memory) (w : Session) :
    (InitializeModule env uninit w).1 =
      [env.WARDEN_SMSG_MODULE_INITIALIZE % 256] ++ [20, 0] ++
      toLE 4 (env.BuildChecksum (peek uninit 7 20)) ++
      [1, 0, 1, 0, 0xF0, 0x85, 0x24, 0x00, 0xF0, 0x87, 0x24, 0x00, 0x60, 0x84, 0x24, 0x00,
        0x30, 0x87, 0x24, 0x00] ++
      [env.WARDEN_SMSG_MODULE_INITIALIZE % 256] ++ [8, 0] ++
      toLE 4 (env.BuildChecksum [0, 1, 0, 0xF0, 0x85, 0x24, 0x00, 0xF0]) ++
      [4, 0, 0, 0x40, 0x9D, 0x41, 0x00, 1] ++
      [env.WARDEN_SMSG_MODULE_INITIALIZE % 256] ++ [8, 0] ++
      toLE 4 (env.BuildChecksum (peek uninit 49 8)) ++
      [1, 1, 0, 0x20, 0xAE, 0x46, 0x00, 1] := by
  simp [InitializeModule, InitializeModuleRequest, peek, poke, toLE, List.range, List.range.loop,
    WardenInitModuleRequest.Command1, WardenInitModuleRequest.Size1,
    WardenInitModuleRequest.CheckSumm1, WardenInitModuleRequest.Unk1,
    WardenInitModuleRequest.Unk2, WardenInitModuleRequest.Type_,
    WardenInitModuleRequest.String_library1, WardenInitModuleRequest.Function1,
    WardenInitModuleRequest.Command2, WardenInitModuleRequest.Size2,
    WardenInitModuleRequest.CheckSumm2, WardenInitModuleRequest.Unk3,
    WardenInitModuleRequest.Unk4, WardenInitModuleRequest.String_library2,
    WardenInitModuleRequest.Function2, WardenInitModuleRequest.Function2_set,
    WardenInitModuleRequest.Command3, WardenInitModuleRequest.Size3,
    WardenInitModuleRequest.CheckSumm3, WardenInitModuleRequest.Unk5,
    WardenInitModuleRequest.Unk6, WardenInitModuleRequest.String_library3,
    WardenInitModuleRequest.Function3, WardenInitModuleRequest.Function3_set,
    WardenInitModuleRequest.sizeof]

theorem UpdateData_roundtrip :
    ∀ (B : List Nat) (st : SARC4), (st.UpdateData (st.UpdateData B).2).2 = B
  | [], _ => rfl
  | b :: rest, st => by
    simp only [SARC4.UpdateData, Nat.xor_cancel_right]
    rw [UpdateData_roundtrip rest]

theorem UpdateData_state :
    ∀ (B : List Nat) (st : SARC4), (st.UpdateData (st.UpdateData B).2).1 = (st.UpdateData B).1
  | [], _ => rfl
  | b :: rest, st => by
    simp only [SARC4.UpdateData]
    rw [UpdateData_state rest]

theorem HandleData_outside (mgr : WardenCheckMgr) (cs : List Nat → Nat) (now : Nat) (w : Session)
    {buff : ByteBuffer} (h6 : buff.rpos + 6 ≤ buff.storage.length)
    (hout : buff.storage.length < buff.rpos + 6 + hdrLength buff) :
    HandleData mgr cs now w buff = .error .outOfBounds := by
  have h2 : buff.rpos + 2 ≤ buff.storage.length := by omega
  have h4 : buff.rpos + 2 + 4 ≤ buff.storage.length := by omega
  unfold HandleData
  simp only [ByteBuffer.read, h2, if_true, h4, ByteBuffer.atCursor, List.drop_drop]
  have h5 : ¬ fromLE (List.take 2 (List.drop buff.rpos buff.storage)) ≤
      buff.storage.length - (buff.rpos + 2 + 4) := by
    unfold hdrLength ByteBuffer.atCursor at hout
    omega
  simp [rawRead, h5]

theorem xor_mod_unmask (a x : Nat) (h : x < 256) : ((a ^^^ x) % 256) ^^^ x = a % 256 := by
  apply Nat.eq_of_testBit_eq
  intro i
  have h8 : (256 : Nat) = 2 ^ 8 := by norm_num
  rw [h8] at h ⊢
  simp only [Nat.testBit_xor, Nat.testBit_mod_two_pow]
  by_cases hi : i < 8
  · simp [hi]
  · have hx : x.testBit i = false :=
      Nat.testBit_lt_two_pow (lt_of_lt_of_le h (Nat.pow_le_pow_right (by norm_num) (not_lt.mp hi)))
    simp [hi, hx]

theorem xorByteOf_lt (w : Session) : xorByteOf w < 256 := Nat.mod_lt _ (by norm_num)

theorem prepass_flatten :
    ∀ (l : List WardenCheck),
      prepass l = (l.map fun wd => (wd.Str.length % 256) :: wd.Str).flatten
  | [] => rfl
  | wd :: rest => by
    rw [prepass, prepass_flatten rest]
    simp [lengthPrefixed]

theorem read_one_view (b : ByteBuffer) :
    b.read 1 = if 1 ≤ b.atCursor.length then
      .ok (fromLE (b.atCursor.take 1), b.setRpos (b.rpos + 1))
    else .error .byteBufferException := by
  unfold ByteBuffer.read
  rw [length_atCursor]
  by_cases h : b.rpos + 1 ≤ b.storage.length
  · have h' : 1 ≤ b.storage.length - b.rpos := by omega
    simp only [h, h', if_true]; rfl
  · have h' : ¬ 1 ≤ b.storage.length - b.rpos := by omega
    simp only [h, h', if_false]

theorem view_mk (b : ByteBuffer) (c : Nat) (l : List LogEvent) :
    LoopState.view { buff := b, checkFailed := c, log := l } = (b.atCursor, c) := rfl

theorem checkStep_view (mgr : WardenCheckMgr) (build id : Nat) (st1 st2 : LoopState)
    (h : st1.view = st2.view) :
    (checkStep mgr build st1 id).map LoopState.view =
      (checkStep mgr build st2 id).map LoopState.view := by
  obtain ⟨hb, hc⟩ : st1.buff.atCursor = st2.buff.atCursor ∧ st1.checkFailed = st2.checkFailed := by
    simpa [LoopState.view] using h
  unfold checkStep
  cases hrd : mgr.GetWardenDataById build id with
  | none => rfl
  | some rd =>
    cases hrs : mgr.GetWardenResultById build id <;> cases hty : rd.Type_ <;>
      simp only [hty, read_one_view, memcmpNe, rawRead, atCursor_setRpos_add, hb, hc] <;>
      (try split_ifs) <;>
      (try simp only [Except.map, view_mk, atCursor_setRpos_add, hb, hc]) <;>
      (try split_ifs) <;>
      (try simp only [Except.map, view_mk, atCursor_setRpos_add, hb, hc]) <;>
      (try split_ifs) <;>
      (try simp only [Except.map, view_mk, atCursor_setRpos_add, hb, hc]) <;>
      (try rw [h])
    all_goals
      generalize ((_ : List Nat) != _) = b
      cases b <;> simp only [Except.map, view_mk, atCursor_setRpos_add, hb, hc]

theorem checkLoop_view (mgr : WardenCheckMgr) (build : Nat) :
    ∀ (ids : List Nat) (st1 st2 : LoopState), st1.view = st2.view →
      (checkLoop mgr build st1 ids).map LoopState.view =
        (checkLoop mgr build st2 ids).map LoopState.view
  | [], st1, st2, h => by simp only [checkLoop, Except.map, h]
  | id :: rest, st1, st2, h => by
    have hs := checkStep_view mgr build id st1 st2 h
    simp only [checkLoop]
    cases h1 : checkStep mgr build st1 id with
    | error e1 =>
      cases h2 : checkStep mgr build st2 id with
      | error e2 =>
        rw [h1, h2] at hs
        simp only [Except.map, Except.error.injEq] at hs
        simp only [Except.map, hs]
      | ok b => rw [h1, h2] at hs; simp [Except.map] at hs
    | ok a =>
      cases h2 : checkStep mgr build st2 id with
      | error e2 => rw [h1, h2] at hs; simp [Except.map] at hs
      | ok b =>
        rw [h1, h2] at hs
        simp only [Except.map, Except.ok.injEq] at hs
        exact checkLoop_view mgr build rest a b hs

theorem finishCycle_view (mgr : WardenCheckMgr) (build : Nat) (a b : LoopState)
    (h : a.view = b.view) :
    ((finishCycle mgr build a).checkFailed, (finishCycle mgr build a).penalty) =
      ((finishCycle mgr build b).checkFailed, (finishCycle mgr build b).penalty) := by
  have hc : a.checkFailed = b.checkFailed := congrArg Prod.snd h
  unfold finishCycle
  rw [hc]
  split <;> rfl

theorem resultLines_append (l₁ l₂ : List LogEvent) :
    resultLines (l₁ ++ l₂) = resultLines l₁ ++ resultLines l₂ := by
  simp [resultLines, List.filterMap_append]

theorem checkStep_lines {mgr : WardenCheckMgr} {build id : Nat} {st st' : LoopState}
    (h : checkStep mgr build st id = .ok st') :
    resultLines st'.log = resultLines st.log ++ decodedLines mgr build [id] := by
  unfold checkStep at h
  cases hrd : mgr.GetWardenDataById build id with
  | none => simp [hrd] at h
  | some rd =>
    simp only [hrd] at h
    cases hty : rd.Type_ <;> simp only [hty] at h
    all_goals repeat' split at h
    all_goals first
      | (cases h; done)
      | (cases h
         simp [resultLines_append, resultLines, decodedLines, hrd, hty, hasCase])

theorem checkLoop_lines {mgr : WardenCheckMgr} {build : Nat} :
    ∀ (ids : List Nat) (st st' : LoopState), checkLoop mgr build st ids = .ok st' →
      resultLines st'.log = resultLines st.log ++ decodedLines mgr build ids
  | [], st, st', h => by
    simp only [checkLoop, Except.ok.injEq] at h
    subst h
    simp [decodedLines]
  | id :: rest, st, st', h => by
    simp only [checkLoop] at h
    cases hs : checkStep mgr build st id with
    | error e => simp [hs] at h
    | ok st1 =>
      simp only [hs] at h
      rw [checkLoop_lines rest st1 st' h, checkStep_lines hs, List.append_assoc]
      congr 1
      unfold decodedLines
      rw [← List.filterMap_append]
      rfl

theorem HandleData_lines {mgr : WardenCheckMgr} {cs : List Nat → Nat} {now : Nat} {w : Session}
    {buff : ByteBuffer} {r : HandleDataResult} (hv : ValidResponse cs buff)
    (h : HandleData mgr cs now w buff = .ok r) :
    resultLines r.log = decodedLines mgr w.build w._currentChecks := by
  obtain ⟨st, hst, rfl⟩ := HandleData_valid_ok hv h
  have hl := checkLoop_lines _ _ _ hst
  have hf : resultLines (finishCycle mgr w.build st).log = resultLines st.log := by
    unfold finishCycle
    split <;> simp [resultLines_append, resultLines]
  rw [hf, hl]
  simp [timingLog, resultLines]

theorem decodedLines_types (mgr : WardenCheckMgr) (build : Nat) :
    ∀ (ids : List Nat),
      (decodedLines mgr build ids).map Prod.fst =
        ((definitions mgr build ids).filter fun wd => hasCase wd.Type_).map fun wd => wd.Type_
  | [] => rfl
  | id :: rest => by
    have ih := decodedLines_types mgr build rest
    unfold decodedLines definitions at ih ⊢
    cases hrd : mgr.GetWardenDataById build id with
    | none => simpa [List.filterMap_cons, hrd] using ih
    | some rd =>
      cases hc : hasCase rd.Type_ <;>
        simpa [List.filterMap_cons, hrd, hc, List.filter_cons] using ih

theorem decodedLines_all (mgr : WardenCheckMgr) (build : Nat) :
    ∀ (ids : List Nat), (∀ id ∈ ids, decodes mgr build id = true) →
      (decodedLines mgr build ids).map Prod.snd = ids ∧
      (decodedLines mgr build ids).map Prod.fst =
        (definitions mgr build ids).map fun wd => wd.Type_
  | [], _ => ⟨rfl, rfl⟩
  | id :: rest, h => by
    obtain ⟨ih1, ih2⟩ := decodedLines_all mgr build rest
      (fun x hx => h x (List.mem_cons_of_mem _ hx))
    have hd := h id (List.mem_cons_self _ _)
    unfold decodedLines at ih1 ih2 ⊢
    unfold definitions at ih2 ⊢
    unfold decodes at hd
    cases hrd : mgr.GetWardenDataById build id with
    | none => simp [hrd] at hd
    | some rd =>
      rw [hrd] at hd
      simp only at hd
      constructor
      · simpa [List.filterMap_cons, hrd, hd] using ih1
      · simpa [List.filterMap_cons, hrd, hd] using ih2

theorem read_error {b : ByteBuffer} {n : Nat} {e : Fault} (h : b.read n = .error e) :
    e = .byteBufferException := by
  unfold ByteBuffer.read at h
  split at h
  · cases h
  · cases h; rfl

theorem memcmpNe_error {a b : List Nat} {n : Nat} {e : Fault} (h : memcmpNe a b n = .error e) :
    e = .outOfBounds := by
  unfold memcmpNe rawRead at h
  split_ifs at h <;> (cases h; rfl)

theorem rawRead_error {a : List Nat} {n : Nat} {e : Fault} (h : rawRead a n = .error e) :
    e = .outOfBounds := by
  unfold rawRead at h
  split_ifs at h
  cases h; rfl

theorem checkStep_ne_null {mgr : WardenCheckMgr} {build id : Nat} {rd : WardenCheck}
    (st : LoopState) (hrd : mgr.GetWardenDataById build id = some rd)
    (hrs : rd.Type_ = .MEM_CHECK ∨ rd.Type_ = .MPQ_CHECK →
      mgr.GetWardenResultById build id ≠ none) :
    checkStep mgr build st id ≠ .error .nullPointer := by
  intro h
  unfold checkStep at h
  simp only [hrd] at h
  cases hty : rd.Type_ <;> simp only [hty] at h hrs
  all_goals repeat' split at h
  all_goals first
    | (cases h; done)
    | (cases h
       first
         | (rename_i he; exact absurd (read_error he) (by decide))
         | (rename_i he; exact absurd (memcmpNe_error he) (by decide))
         | (rename_i he; exact absurd (rawRead_error he) (by decide))
         | (rename_i he; exact absurd he (hrs (by simp))))

theorem checkLoop_ne_null {mgr : WardenCheckMgr} {build : Nat} :
    ∀ (ids : List Nat) (st : LoopState),
      (∀ id ∈ ids, ∃ rd, mgr.GetWardenDataById build id = some rd ∧
        (rd.Type_ = .MEM_CHECK ∨ rd.Type_ = .MPQ_CHECK →
          mgr.GetWardenResultById build id ≠ none)) →
      checkLoop mgr build st ids ≠ .error .nullPointer
  | [], st, _ => by simp [checkLoop]
  | id :: rest, st, h => by
    obtain ⟨rd, hrd, hrs⟩ := h id (List.mem_cons_self _ _)
    have h1 := checkStep_ne_null st hrd hrs
    simp only [checkLoop]
    cases hs : checkStep mgr build st id with
    | error e =>
      intro he
      simp only [Except.error.injEq] at he
      rw [hs, he] at h1
      exact h1 rfl
    | ok st1 =>
      exact checkLoop_ne_null rest st1 (fun x hx => h x (List.mem_cons_of_mem _ hx))

theorem HandleData_ne_null {mgr : WardenCheckMgr} (cs : List Nat → Nat) (now : Nat)
    (w : Session) (buff : ByteBuffer)
    (h : ∀ id ∈ w._currentChecks, ∃ rd, mgr.GetWardenDataById w.build id = some rd ∧
      (rd.Type_ = .MEM_CHECK ∨ rd.Type_ = .MPQ_CHECK →
        mgr.GetWardenResultById w.build id ≠ none)) :
    HandleData mgr cs now w buff ≠ .error .nullPointer := by
  intro he
  unfold HandleData at he
  cases h1 : buff.read 2 with
  | error e => rw [h1] at he; cases he; exact absurd (read_error h1) (by decide)
  | ok p1 =>
    rw [h1] at he
    simp only at he
    cases h2 : p1.2.read 4 with
    | error e => rw [h2] at he; cases he; exact absurd (read_error h2) (by decide)
    | ok p2 =>
      rw [h2] at he
      simp only at he
      cases h3 : rawRead p2.2.atCursor p1.1 with
      | error e => rw [h3] at he; cases he; exact absurd (rawRead_error h3) (by decide)
      | ok data =>
        rw [h3] at he
        simp only at he
        split_ifs at he
        unfold afterChecksum at he
        cases h4 : p2.2.read 1 with
        | error e => rw [h4] at he; cases he; exact absurd (read_error h4) (by decide)
        | ok p4 =>
          rw [h4] at he
          simp only at he
          split_ifs at he
          cases h5 : p4.2.read 4 with
          | error e => rw [h5] at he; cases he; exact absurd (read_error h5) (by decide)
          | ok p5 =>
            rw [h5] at he
            simp only at he
            split at he
            · rename_i e hl
              cases he
              exact checkLoop_ne_null _ _ h hl
            · cases he


theorem memPool_catalog {env : RequestEnv} {w : Session} (h : PoolsFromCatalog env.mgr w) :
    ∀ id ∈ memPool env w, CatalogId env.mgr w.build id := by
  intro id hid
  unfold memPool at hid
  split at hid
  · exact ⟨true, hid⟩
  · exact h id (List.mem_append_left _ hid)

theorem otherPool_catalog {env : RequestEnv} {w : Session} (h : PoolsFromCatalog env.mgr w) :
    ∀ id ∈ otherPool env w, CatalogId env.mgr w.build id := by
  intro id hid
  unfold otherPool at hid
  split at hid
  · exact ⟨false, hid⟩
  · exact h id (List.mem_append_right _ hid)

theorem memDrawn_subset (env : RequestEnv) (w : Session) :
    ∀ id ∈ memDrawn env w, id ∈ memPool env w := fun _ hid =>
  List.mem_reverse.mp (List.mem_of_mem_take hid)

theorem otherDrawn_subset (env : RequestEnv) (w : Session) :
    ∀ id ∈ otherDrawn env w, id ∈ otherPool env w := fun _ hid =>
  List.mem_reverse.mp (List.mem_of_mem_take hid)

theorem RequestDataDraw_catalog {env : RequestEnv} (gameTime : Nat) {w : Session}
    (h : PoolsFromCatalog env.mgr w) :
    (RequestDataDraw env gameTime w).1.build = w.build ∧
    PoolsFromCatalog env.mgr (RequestDataDraw env gameTime w).1 ∧
    ∀ id ∈ (RequestDataDraw env gameTime w).1._currentChecks, CatalogId env.mgr w.build id := by
  rw [RequestDataDraw_eq]
  refine ⟨rfl, ?_, ?_⟩
  · intro id hid
    rcases List.mem_append.mp hid with hm | ho
    · exact memPool_catalog h id
        (List.mem_reverse.mp (List.mem_of_mem_drop (List.mem_reverse.mp hm)))
    · exact otherPool_catalog h id
        (List.mem_reverse.mp (List.mem_of_mem_drop (List.mem_reverse.mp ho)))
  · intro id hid
    rcases List.mem_append.mp hid with hm | ho
    · exact memPool_catalog h id (memDrawn_subset env w id hm)
    · exact otherPool_catalog h id (otherDrawn_subset env w id ho)

theorem getLastD_mem {α : Type} : ∀ (l : List α) (d : α), l ≠ [] → l.getLastD d ∈ l
  | [], _, h => absurd rfl h
  | [a], _, _ => by simp [List.getLastD]
  | a :: b :: rest, d, _ => by
    simp only [List.getLastD]
    exact List.mem_cons_of_mem _ (by simp)

theorem draw_stream (pool catalog final rest : List Nat) (n : Nat) (R : List Nat)
    (ih : rest ++ final.reverse = ((if pool.isEmpty then catalog else pool).reverse.drop n) ++ R) :
    ((if pool.isEmpty then catalog else pool).reverse.take n ++ rest) ++ final.reverse =
      pool.reverse ++ ((if pool.isEmpty then catalog.reverse else []) ++ R) := by
  rw [List.append_assoc, ih, ← List.append_assoc, List.take_append_drop]
  cases pool with
  | nil => simp
  | cons a l => simp

theorem runCycles_spec (env : RequestEnv) :
    ∀ (cycles : List (Nat × (Nat → Nat))) (w : Session) (c : CycleRecord),
      runCycles env cycles w = .ok c →
        c.session.build = w.build ∧
        c.inFlight = List.zipWith (fun a b => a ++ b) c.memDraws c.otherDraws ∧
        c.memDraws.length = cycles.length ∧ c.otherDraws.length = cycles.length ∧
        c.memDraws.flatten ++ c.session._memChecksTodo.reverse =
          w._memChecksTodo.reverse ++
            (List.replicate c.memRefills (env.mgr.GetWardenCheckIds true w.build).reverse).flatten ∧
        c.otherDraws.flatten ++ c.session._otherChecksTodo.reverse =
          w._otherChecksTodo.reverse ++
            (List.replicate c.otherRefills
              (env.mgr.GetWardenCheckIds false w.build).reverse).flatten ∧
        c.session._memChecksTodo <+:
          (if c.memRefills = 0 then w._memChecksTodo
           else env.mgr.GetWardenCheckIds true w.build) ∧
        c.session._otherChecksTodo <+:
          (if c.otherRefills = 0 then w._otherChecksTodo
           else env.mgr.GetWardenCheckIds false w.build)
  | [], w, c, h => by
    simp only [runCycles, Except.ok.injEq] at h
    subst h
    simp
  | cycle :: rest, w, c, h => by
    simp only [runCycles] at h
    cases hp : RequestData env cycle.1 cycle.2 w with
    | error e => rw [hp] at h; cases h
    | ok p =>
      rw [hp] at h
      simp only at h
      cases hc : runCycles env rest p.1 with
      | error e => rw [hc] at h; cases h
      | ok c' =>
        rw [hc] at h
        simp only [Except.ok.injEq] at h
        subst h
        obtain ⟨hs, hcur, -, -⟩ := RequestData_payload hp
        obtain ⟨hb, hin, hl1, hl2, hm, ho, hpm, hpo⟩ := runCycles_spec env rest p.1 c' hc
        have hbuild : p.1.build = w.build := by rw [hs, RequestDataDraw_eq]
        have hmp : p.1._memChecksTodo = ((memPool env w).reverse.drop
            (drawCount env.NUM_MEM_CHECKS 0 (memPool env w).reverse)).reverse := by
          rw [hs, RequestDataDraw_eq]
        have hop : p.1._otherChecksTodo = ((otherPool env w).reverse.drop
            (drawCount env.NUM_OTHER_CHECKS 0 (otherPool env w).reverse)).reverse := by
          rw [hs, RequestDataDraw_eq]
        rw [hbuild] at hm ho hpm hpo
        rw [hmp, List.reverse_reverse] at hm
        rw [hop, List.reverse_reverse] at ho
        refine ⟨hb.trans hbuild, ?_, ?_, ?_, ?_, ?_, ?_, ?_⟩
        · simp only [List.zipWith_cons_cons, hin, hcur]
        · simp only [List.length_cons, hl1]
        · simp only [List.length_cons, hl2]
        · simp only [List.flatten_cons, List.replicate_add, List.flatten_append]
          unfold memDrawn memPool
          unfold memPool at hm
          rw [draw_stream _ _ _ _ _ _ hm]
          cases w._memChecksTodo <;> simp
        · simp only [List.flatten_cons, List.replicate_add, List.flatten_append]
          unfold otherDrawn otherPool
          unfold otherPool at ho
          rw [draw_stream _ _ _ _ _ _ ho]
          cases w._otherChecksTodo <;> simp
        · have hpre : p.1._memChecksTodo <+: memPool env w := by
            rw [hmp]
            exact ⟨((memPool env w).reverse.take
              (drawCount env.NUM_MEM_CHECKS 0 (memPool env w).reverse)).reverse, by
                rw [← List.reverse_append, List.take_append_drop, List.reverse_reverse]⟩
          show c'.session._memChecksTodo <+: _
          by_cases hk : c'.memRefills = 0
          · rw [if_pos hk] at hpm
            have h2 := hpm.trans hpre
            unfold memPool at h2
            cases hw : w._memChecksTodo with
            | nil => simpa [hw, hk] using h2
            | cons a l => simpa [hw, hk] using h2
          · rw [if_neg hk] at hpm
            have : (if w._memChecksTodo.isEmpty = true then 1 else 0) + c'.memRefills ≠ 0 := by
              omega
            rw [if_neg this]
            exact hpm
        · have hpre : p.1._otherChecksTodo <+: otherPool env w := by
            rw [hop]
            exact ⟨((otherPool env w).reverse.take
              (drawCount env.NUM_OTHER_CHECKS 0 (otherPool env w).reverse)).reverse, by
                rw [← List.reverse_append, List.take_append_drop, List.reverse_reverse]⟩
          show c'.session._otherChecksTodo <+: _
          by_cases hk : c'.otherRefills = 0
          · rw [if_pos hk] at hpo
            have h2 := hpo.trans hpre
            unfold otherPool at h2
            cases hw : w._otherChecksTodo with
            | nil => simpa [hw, hk] using h2
            | cons a l => simpa [hw, hk] using h2
          · rw [if_neg hk] at hpo
            have : (if w._otherChecksTodo.isEmpty = true then 1 else 0) + c'.otherRefills ≠ 0 := by
              omega
            rw [if_neg this]
            exact hpo


theorem count_flatten_replicate (x : Nat) (l : List Nat) :
    ∀ k, ((List.replicate k l.reverse).flatten).count x = k * l.count x
  | 0 => by simp
  | k + 1 => by
    rw [List.replicate_succ, List.flatten_cons, List.count_append, List.count_reverse,
      count_flatten_replicate x l k]
    ring

theorem count_stream (x : Nat) (draws left pool catalog : List Nat) (k : Nat)
    (h : draws ++ left.reverse = pool.reverse ++ (List.replicate k catalog.reverse).flatten) :
    draws.count x + left.count x = pool.count x + k * catalog.count x := by
  have hc := congrArg (List.count x) h
  simp only [List.count_append, List.count_reverse] at hc
  rw [hc, count_flatten_replicate]

theorem drawCount_lt_wrap (quota : Nat) (hq : quota < 65536) :
    ∀ (todo : List Nat) (i : Nat), i ≤ quota → drawCount quota i todo ≤ quota - i
  | [], _, _ => Nat.zero_le _
  | id :: rest, i, hi => by
    unfold drawCount
    by_cases h : i < quota
    · have h16 : (2 : Nat) ^ 16 = 65536 := by norm_num
      have hmod : (i + 1) % 2 ^ 16 = i + 1 := Nat.mod_eq_of_lt (by omega)
      have ih := drawCount_lt_wrap quota hq rest (i + 1) (by omega)
      simp only [h, if_true, hmod]
      omega
    · simp only [h, if_false]
      exact Nat.zero_le _

theorem drawCount_le_quota (quota : Nat) (todo : List Nat) (hlen : todo.length ≤ 65536) :
    drawCount quota 0 todo ≤ quota := by
  by_cases hq : quota < 65536
  · exact drawCount_lt_wrap quota hq todo 0 (Nat.zero_le _)
  · exact (drawCount_le quota todo 0).trans (by omega)

theorem sectionsFrom_flatten (env : RequestEnv) (xorByte : Nat) (idx : Nat → Nat)
    (seed : Nat → List Nat) :
    ∀ (l : List WardenCheck) (k m : Nat),
      sectionsFrom env xorByte idx seed k m l =
        (sectionList env xorByte idx seed k m l).flatten
  | [], _, _ => rfl
  | wd :: rest, k, m => by
    rw [sectionsFrom, sectionList, List.flatten_cons, sectionsFrom_flatten env xorByte idx seed rest]
    rfl

theorem sectionList_heads (env : RequestEnv) (xorByte : Nat) (idx : Nat → Nat)
    (seed : Nat → List Nat) :
    ∀ (l : List WardenCheck) (k m : Nat),
      (sectionList env xorByte idx seed k m l).map List.head? =
        l.map fun wd => some (maskedTag env xorByte wd.Type_)
  | [], _, _ => rfl
  | wd :: rest, k, m => by
    rw [sectionList, List.map_cons, sectionList_heads env xorByte idx seed rest]
    rfl

theorem sectionList_tags (env : RequestEnv) (xorByte : Nat) (idx : Nat → Nat)
    (seed : Nat → List Nat) :
    ∀ (l : List WardenCheck) (k m : Nat),
      (sectionList env xorByte idx seed k m l).filterMap List.head? =
        l.map fun wd => maskedTag env xorByte wd.Type_
  | [], _, _ => rfl
  | wd :: rest, k, m => by
    rw [sectionList, List.filterMap_cons, List.map_cons,
      ← sectionList_tags env xorByte idx seed rest]
    rfl

theorem maskedTag_inj (env : RequestEnv) (xorByte : Nat) (hx : xorByte < 256)
    (a b : WardenCheckType) (h : maskedTag env xorByte a = maskedTag env xorByte b) :
    env.tagByte a % 256 = env.tagByte b % 256 := by
  unfold maskedTag at h
  rw [← xor_mod_unmask (env.tagByte a) xorByte hx, ← xor_mod_unmask (env.tagByte b) xorByte hx, h]

theorem payloadTags_count (env : RequestEnv) (xorByte : Nat) (hx : xorByte < 256)
    (defs : List WardenCheck)
    (h : ∀ wd ∈ defs, env.tagByte wd.Type_ % 256 ≠ env.tagByte .TIMING_CHECK % 256) :
    (payloadTags env xorByte defs).count (maskedTag env xorByte .TIMING_CHECK) = 1 := by
  unfold payloadTags
  rw [List.count_cons_self]
  have : (defs.map fun wd => maskedTag env xorByte wd.Type_).count
      (maskedTag env xorByte .TIMING_CHECK) = 0 := by
    rw [List.count_eq_zero]
    intro hmem
    obtain ⟨wd, hwd, heq⟩ := List.mem_map.mp hmem
    exact h wd hwd (maskedTag_inj env xorByte hx _ _ heq)
  rw [this]

theorem resultRecords_append (l₁ l₂ : List LogEvent) :
    resultRecords (l₁ ++ l₂) = resultRecords l₁ ++ resultRecords l₂ := by
  simp [resultRecords, List.filterMap_append]

theorem resultLines_records (log : List LogEvent) :
    resultLines log = (resultRecords log).map fun x => (x.1, x.2.2) := by
  induction log with
  | nil => rfl
  | cons e rest ih =>
    have h1 : resultLines (e :: rest) = resultLines [e] ++ resultLines rest :=
      resultLines_append [e] rest
    have h2 : resultRecords (e :: rest) = resultRecords [e] ++ resultRecords rest :=
      resultRecords_append [e] rest
    rw [h1, h2, List.map_append, ih]
    cases e <;> rfl

theorem memcmpNe_ok_iff {a b : List Nat} {n : Nat} {r : Bool} :
    memcmpNe a b n = .ok r ↔
      n ≤ a.length ∧ n ≤ b.length ∧ r = (a.take n != b.take n) := by
  unfold memcmpNe rawRead
  split_ifs <;> simp_all [eq_comm]

theorem checkStep_records {mgr : WardenCheckMgr} {build id : Nat} {st st' : LoopState}
    (h : checkStep mgr build st id = .ok st') :
    ∃ rd, mgr.GetWardenDataById build id = some rd ∧
      resultRecords st'.log = resultRecords st.log ++
        (match entryVerdict rd (expectedBytes mgr build id) st.buff.atCursor with
          | some v => [(rd.Type_, v, id)]
          | none => []) := by
  unfold checkStep at h
  cases hrd : mgr.GetWardenDataById build id with
  | none => simp [hrd] at h
  | some rd =>
    refine ⟨rd, rfl, ?_⟩
    simp only [hrd] at h
    cases hrs : mgr.GetWardenResultById build id <;>
    cases hty : rd.Type_ <;> simp only [hty, hrs] at h
    all_goals repeat' split at h
    all_goals first
      | (cases h; done)
      | (cases h
         simp_all [read_ok_iff, memcmpNe_ok_iff, entryVerdict, expectedBytes, resultRecords_append,
           resultRecords, ByteBuffer.setRpos, ByteBuffer.atCursor, -List.drop_one])

theorem checkLoop_records {mgr : WardenCheckMgr} {build : Nat} :
    ∀ (ids : List Nat) (st st' : LoopState), checkLoop mgr build st ids = .ok st' →
      resultRecords st'.log = resultRecords st.log ++
        decodedResults mgr build st.buff.storage st.buff.rpos ids
  | [], st, st', h => by
    simp only [checkLoop, Except.ok.injEq] at h
    subst h
    simp [decodedResults]
  | id :: rest, st, st', h => by
    simp only [checkLoop] at h
    cases hs : checkStep mgr build st id with
    | error e => simp [hs] at h
    | ok st1 =>
      simp only [hs] at h
      obtain ⟨rd, hrd, hrec⟩ := checkStep_records hs
      obtain ⟨rd', hrd', hb, -⟩ := checkStep_ok_spec hs
      rw [hrd] at hrd'
      cases hrd'
      rw [checkLoop_records rest st1 st' h, hrec, hb, List.append_assoc]
      simp only [decodedResults, hrd, rpos_setRpos, storage_setRpos, ByteBuffer.atCursor]

theorem HandleData_records {mgr : WardenCheckMgr} {cs : List Nat → Nat} {now : Nat} {w : Session}
    {buff : ByteBuffer} {r : HandleDataResult} (hv : ValidResponse cs buff)
    (h : HandleData mgr cs now w buff = .ok r) :
    resultRecords r.log =
      decodedResults mgr w.build buff.storage (buff.rpos + 11) w._currentChecks := by
  obtain ⟨st, hst, rfl⟩ := HandleData_valid_ok hv h
  have hl := checkLoop_records _ _ _ hst
  have hf : resultRecords (finishCycle mgr w.build st).log = resultRecords st.log := by
    unfold finishCycle
    split <;> simp [resultRecords_append, resultRecords]
  rw [hf, hl]
  simp [timingLog, resultRecords, ByteBuffer.setRpos]

theorem decodes_of_catalogOk {mgr : WardenCheckMgr} {build id : Nat}
    (h : CatalogOk mgr build id) : decodes mgr build id = true := by
  obtain ⟨rd, hrd, hcase, -⟩ := h
  simp [decodes, hrd, hcase]



theorem resultIds_records (log : List LogEvent) :
    resultIds log = (resultRecords log).map fun x => x.2.2 := by
  induction log with
  | nil => rfl
  | cons e rest ih =>
    have h1 : resultIds (e :: rest) = resultIds [e] ++ resultIds rest :=
      resultIds_append [e] rest
    have h2 : resultRecords (e :: rest) = resultRecords [e] ++ resultRecords rest :=
      resultRecords_append [e] rest
    rw [h1, h2, List.map_append, ih]
    cases e <;> rfl

theorem resultTypes_records (log : List LogEvent) :
    (resultLines log).map Prod.fst = (resultRecords log).map fun x => x.1 := by
  rw [resultLines_records, List.map_map]
  rfl

/-! ## Properties of `HandleData` and `RequestData` -/

/-- C1 (amended): for every in-flight list and every response with a valid
checksum and a non-zero timing flag on which `HandleData` returns, the check id
that is recorded and handed to the penalty step is the id of the LAST failing
entry in list order (0, and no penalty, when that id is 0 or no entry fails),
and one result is decoded for every entry whose type has a case label, through
the last entry. -/
theorem C1_last_failure_recorded (mgr : WardenCheckMgr) (cs : List Nat → Nat) (now : Nat)
    (w : Session) (buff : ByteBuffer) (r : HandleDataResult) (hv : ValidResponse cs buff)
    (h : HandleData mgr cs now w buff = .ok r) :
    r.checkFailed = (failedIds r.log).getLastD 0 ∧
    r.penalty =
      (if r.checkFailed > 0 then
        [.forCheck r.checkFailed (mgr.GetWardenDataById w.build r.checkFailed)] else []) ∧
    resultIds r.log = w._currentChecks.filter (decodes mgr w.build) := by
  obtain ⟨-, hr, -, hcf, hp⟩ := HandleData_valid_spec hv h
  exact ⟨hcf, hp, hr⟩

/-- C1, counterexample: six page-presence entries with the ids 1 to 6, of which
entries 2 and 5 fail (their sentinel byte is 0x00): every entry is decoded, and
the recorded id handed to the penalty step is 5, the id of entry 5, not 2. -/
theorem C1_counterexample :
    ValidResponse exChecksum
      (exResponse [1, 0x10, 0, 0, 0, 0xE9, 0x00, 0xE9, 0xE9, 0x00, 0xE9]) ∧
    ∃ r, HandleData exPageMgr exChecksum 1500 (exSession [1, 2, 3, 4, 5, 6])
        (exResponse [1, 0x10, 0, 0, 0, 0xE9, 0x00, 0xE9, 0xE9, 0x00, 0xE9]) = .ok r ∧
      resultIds r.log = [1, 2, 3, 4, 5, 6] ∧ failedIds r.log = [2, 5] ∧ r.checkFailed = 5 ∧
      r.penalty = [.forCheck 5 (exPageMgr.GetWardenDataById 5875 5)] ∧ r.checkFailed ≠ 2 :=
  ⟨by decide, _, rfl, by decide, by decide, by decide, by decide, by decide⟩

/-- C1, witness: three page-presence entries of which entry 2 fails. -/
theorem C1_last_failure_recorded_witness :
    ValidResponse exChecksum (exResponse [1, 0x10, 0, 0, 0, 0xE9, 0x00, 0xE9]) ∧
    ∃ r, HandleData exPageMgr exChecksum 1500 (exSession [1, 2, 3])
        (exResponse [1, 0x10, 0, 0, 0, 0xE9, 0x00, 0xE9]) = .ok r ∧
      r.checkFailed = (failedIds r.log).getLastD 0 ∧
      r.penalty =
        (if r.checkFailed > 0 then
          [.forCheck r.checkFailed (exPageMgr.GetWardenDataById 5875 r.checkFailed)] else []) ∧
      resultIds r.log = [1, 2, 3] :=
  ⟨by decide, _, rfl,
    C1_last_failure_recorded exPageMgr exChecksum 1500 (exSession [1, 2, 3])
      (exResponse [1, 0x10, 0, 0, 0, 0xE9, 0x00, 0xE9]) _ (by decide) rfl⟩

/-- C2 (amended): for every in-flight list and every response with a valid
checksum and a non-zero timing flag on which `HandleData` returns, the bytes
consumed for an entry are fixed by its type, its definition and its status
byte, not by the outcome of a comparison (`entryBytes`: a memory-region entry
1 byte when its status is non-zero and 1 + Length when it is zero, a
page/native/module entry 1 byte, a catalog-hash entry 1 byte when its status is
non-zero and 1 + 20 when it is zero); hence the cursor after the last entry is
the start plus `loopBytes`, the same for every table of stored expectations. -/
theorem C2_cursor_fixed_by_status (mgr : WardenCheckMgr) (cs : List Nat → Nat) (now : Nat)
    (w : Session) (buff : ByteBuffer) (r : HandleDataResult) (hv : ValidResponse cs buff)
    (h : HandleData mgr cs now w buff = .ok r) :
    r.buff.storage = buff.storage ∧
    r.buff.rpos = buff.rpos + 11 +
      loopBytes (mgr.GetWardenDataById w.build) buff.storage (buff.rpos + 11) w._currentChecks ∧
    ∀ (mgr' : WardenCheckMgr) (r' : HandleDataResult),
      mgr'.GetWardenDataById = mgr.GetWardenDataById →
      HandleData mgr' cs now w buff = .ok r' → r'.buff = r.buff := by
  obtain ⟨hb, -⟩ := HandleData_valid_spec hv h
  refine ⟨by rw [hb]; rfl, by rw [hb]; rfl, ?_⟩
  intro mgr' r' hd h'
  obtain ⟨hb', -⟩ := HandleData_valid_spec hv h'
  rw [hb', hb, hd]

/-- C2, counterexample: one memory-region entry of length 4.  With the status
byte 0x01 the cursor stops 1 byte after the timing answer (at 12, not at
11 + 1 + 4), with the status byte 0x00 and a wrong body it stops at 16: the
position after the entry depends on how the entry failed. -/
theorem C2_counterexample :
    (ValidResponse exChecksum (exResponse [1, 0x10, 0, 0, 0, 0x01, 1, 2, 3, 4]) ∧
      ∃ r, HandleData exMemMgr exChecksum 1500 (exSession [7])
          (exResponse [1, 0x10, 0, 0, 0, 0x01, 1, 2, 3, 4]) = .ok r ∧
        failedIds r.log = [7] ∧ r.buff.rpos = 12 ∧
        r.buff.rpos ≠ 11 + (1 + (exMemCheck 7).Length)) ∧
    (ValidResponse exChecksum (exResponse [1, 0x10, 0, 0, 0, 0x00, 1, 2, 3, 5]) ∧
      ∃ r, HandleData exMemMgr exChecksum 1500 (exSession [7])
          (exResponse [1, 0x10, 0, 0, 0, 0x00, 1, 2, 3, 5]) = .ok r ∧
        failedIds r.log = [7] ∧ r.buff.rpos = 16) :=
  ⟨⟨by decide, _, rfl, by decide, by decide, by decide⟩, ⟨by decide, _, rfl, by decide, by decide⟩⟩

/-- C2, witness: two memory-region entries, the second with a wrong body; the
cursor ends at 11 + 5 + 5, also when checked against other expectations. -/
theorem C2_cursor_fixed_by_status_witness :
    ValidResponse exChecksum
      (exResponse [1, 0x10, 0, 0, 0, 0x00, 1, 2, 3, 4, 0x00, 9, 9, 9, 9]) ∧
    ∃ r, HandleData exMemMgr exChecksum 1500 (exSession [7, 8])
        (exResponse [1, 0x10, 0, 0, 0, 0x00, 1, 2, 3, 4, 0x00, 9, 9, 9, 9]) = .ok r ∧
      r.buff.rpos = 21 :=
  ⟨by decide, _, rfl,
    (C2_cursor_fixed_by_status exMemMgr exChecksum 1500 (exSession [7, 8])
      (exResponse [1, 0x10, 0, 0, 0, 0x00, 1, 2, 3, 4, 0x00, 9, 9, 9, 9]) _ (by decide)
      rfl).2.1⟩

/-- C3 (amended): for a Lua string entry whose status byte is present,
`HandleData` reads the 1-byte status; when the status is NON-zero the entry is
marked failed and nothing more is read (the cursor advances by 1); when the
status is zero it reads the 1-byte length that follows, logs the string when the
length is not 0 and advances the cursor past it (2 + length bytes in all), and
the entry passes. -/
theorem C3_lua_string_entry (mgr : WardenCheckMgr) (build id : Nat) (rd : WardenCheck)
    (st : LoopState) (hrd : mgr.GetWardenDataById build id = some rd)
    (hty : rd.Type_ = .LUA_STR_CHECK) (h1 : st.buff.rpos + 1 ≤ st.buff.storage.length)
    (hfit : fromLE (st.buff.atCursor.take 1) = 0 →
      st.buff.rpos + 2 + fromLE ((st.buff.atCursor.drop 1).take 1) ≤ st.buff.storage.length) :
    checkStep mgr build st id = .ok
      (if fromLE (st.buff.atCursor.take 1) ≠ 0 then
        { buff := st.buff.setRpos (st.buff.rpos + 1), checkFailed := id,
          log := st.log ++ [.result .LUA_STR_CHECK .fail id] }
      else
        { buff := st.buff.setRpos
            (st.buff.rpos + 2 + fromLE ((st.buff.atCursor.drop 1).take 1)),
          checkFailed := st.checkFailed,
          log := st.log ++
            (if fromLE ((st.buff.atCursor.drop 1).take 1) ≠ 0 then
              [.luaString ((st.buff.atCursor.drop 2).take
                (fromLE ((st.buff.atCursor.drop 1).take 1)))]
             else []) ++ [.result .LUA_STR_CHECK .passed id] }) :=
  checkStep_lua st hrd hty h1 hfit

/-- C3, counterexample: a Lua string entry with the status byte 0x01 followed by
the length 3 and three string bytes: the entry is marked failed and the cursor
stops 1 byte after the timing answer, at 12; the length and the string are not
consumed (that would be 11 + 1 + 1 + 3). -/
theorem C3_counterexample :
    ValidResponse exChecksum (exResponse [1, 0x10, 0, 0, 0, 0x01, 0x03, 0x61, 0x62, 0x63]) ∧
    ∃ r, HandleData exLuaMgr exChecksum 1500 (exSession [3])
        (exResponse [1, 0x10, 0, 0, 0, 0x01, 0x03, 0x61, 0x62, 0x63]) = .ok r ∧
      failedIds r.log = [3] ∧ r.buff.rpos = 12 ∧ r.buff.rpos ≠ 11 + (1 + 1 + 3) :=
  ⟨by decide, _, rfl, by decide, by decide, by decide⟩

/-- C3, witness: a Lua string entry with status 0x00, length 3 and the string
"abc": the cursor advances by 5 and the entry passes. -/
theorem C3_lua_string_entry_witness :
    checkStep exLuaMgr 5875 (exLoopState [0x00, 0x03, 0x61, 0x62, 0x63]) 3 = .ok
      { buff := { storage := [0x00, 0x03, 0x61, 0x62, 0x63], rpos := 5, wpos := 5 },
        checkFailed := 0,
        log := [.luaString [0x61, 0x62, 0x63], .result .LUA_STR_CHECK .passed 3] } :=
  C3_lua_string_entry exLuaMgr 5875 3 _ (exLoopState [0x00, 0x03, 0x61, 0x62, 0x63]) rfl rfl
    (by decide) (by decide)

/-- C4: when the 6-byte header is present and the `Length` bytes it announces
lie inside the payload: if the checksum field differs from the checksum
recomputed over those bytes, `HandleData` decodes neither the timing answer nor
any entry (the log holds the checksum line alone), sets the read position to the
write position, calls `Penalty` without a check and returns; if it matches,
`HandleData` goes on with the timing answer right after the header. -/
theorem C4_checksum_mismatch_aborts (mgr : WardenCheckMgr) (cs : List Nat → Nat) (now : Nat) (w : Session)
    {buff : ByteBuffer} (hin : HeaderInside buff) :
    (hdrChecksum buff ≠ cs (covered buff) →
      HandleData mgr cs now w buff =
        .ok { buff := buff.setRpos buff.wpos, checkFailed := 0, log := [.failedChecksum],
              penalty := [.noCheck], completed := false }) ∧
    (hdrChecksum buff = cs (covered buff) →
      HandleData mgr cs now w buff = afterChecksum mgr now w (buff.setRpos (buff.rpos + 6))) := by
  constructor
  · intro hne
    rw [HandleData_header mgr cs now w hin, if_pos hne]
  · intro heq
    rw [HandleData_header mgr cs now w hin, if_neg (by simpa using heq)]

/-- C4, witness: a payload of 5 covered bytes whose checksum field is 0 while the
checksum of the covered bytes is 15. -/
theorem C4_checksum_mismatch_aborts_witness :
    HeaderInside ⟨[5, 0, 0, 0, 0, 0, 1, 2, 3, 4, 5], 0, 11⟩ ∧
    HandleData exPageMgr exChecksum 1500 (exSession [1, 2])
        ⟨[5, 0, 0, 0, 0, 0, 1, 2, 3, 4, 5], 0, 11⟩ =
      .ok { buff := ⟨[5, 0, 0, 0, 0, 0, 1, 2, 3, 4, 5], 11, 11⟩, checkFailed := 0,
            log := [.failedChecksum], penalty := [.noCheck], completed := false } :=
  ⟨by decide,
    (C4_checksum_mismatch_aborts exPageMgr exChecksum 1500 (exSession [1, 2])
      (show HeaderInside ⟨[5, 0, 0, 0, 0, 0, 1, 2, 3, 4, 5], 0, 11⟩ by decide)).1 (by decide)⟩

/-- C5 (amended): for every response with a valid checksum and a NON-ZERO timing
flag that holds the bytes of every entry, and a catalog that holds what each
in-flight entry looks up, `HandleData` returns after it has decoded one result
for every entry of the in-flight list, in list order.  A call of `HandleData`
that returns before the end of its body has met a checksum mismatch or a timing
flag of zero, and has decoded no entry. -/
theorem C5_all_entries_decoded (mgr : WardenCheckMgr) (cs : List Nat → Nat) (now : Nat)
    (w : Session) (buff : ByteBuffer) (hv : ValidResponse cs buff)
    (hcat : ∀ id ∈ w._currentChecks, CatalogOk mgr w.build id)
    (hfit : buff.rpos + 11 + loopBytes (mgr.GetWardenDataById w.build) buff.storage
      (buff.rpos + 11) w._currentChecks ≤ buff.storage.length) :
    (∃ r, HandleData mgr cs now w buff = .ok r ∧ resultIds r.log = w._currentChecks ∧
      r.completed = true) ∧
    ∀ (buff' : ByteBuffer) (r' : HandleDataResult),
      HandleData mgr cs now w buff' = .ok r' → r'.completed = false →
        (hdrChecksum buff' ≠ cs (covered buff') ∨ timingFlag buff' = 0) ∧
          resultIds r'.log = [] := by
  constructor
  · obtain ⟨st, hst⟩ := @checkLoop_ok_of_fits mgr w.build w._currentChecks
      { buff := buff.setRpos (buff.rpos + 11), checkFailed := 0, log := timingLog now w buff }
      hcat (by simpa only [rpos_setRpos, storage_setRpos, Nat.add_assoc] using hfit)
    have h : HandleData mgr cs now w buff = .ok (finishCycle mgr w.build st) := by
      rw [HandleData_valid mgr now w hv, hst]
    obtain ⟨-, hr, -⟩ := HandleData_valid_spec hv h
    exact ⟨_, h, by rw [hr, filter_decodes_of_catalogOk _ hcat], finishCycle_completed _ _ _⟩
  · intro buff' r' h' hc
    rcases HandleData_ok_cases h' with ⟨hck, rfl⟩ | ⟨-, hfl, rfl⟩ | ⟨-, hcomp⟩
    · exact ⟨Or.inl hck, rfl⟩
    · exact ⟨Or.inr hfl, rfl⟩
    · rw [hcomp] at hc; cases hc

/-- C5, counterexample: a response with a valid checksum and the timing flag
0x00 for an in-flight list of three entries: `HandleData` returns after the
timing flag (cursor at 7) with a `Penalty` call and without decoding any of the
three entries. -/
theorem C5_counterexample :
    HeaderInside (exResponse [0x00, 0x10, 0, 0, 0, 0xE9, 0xE9, 0xE9]) ∧
    hdrChecksum (exResponse [0x00, 0x10, 0, 0, 0, 0xE9, 0xE9, 0xE9]) =
      exChecksum (covered (exResponse [0x00, 0x10, 0, 0, 0, 0xE9, 0xE9, 0xE9])) ∧
    ∃ r, HandleData exPageMgr exChecksum 1500 (exSession [1, 2, 3])
        (exResponse [0x00, 0x10, 0, 0, 0, 0xE9, 0xE9, 0xE9]) = .ok r ∧
      resultIds r.log = [] ∧ r.log = [.failedTiming] ∧ r.penalty = [.noCheck] ∧
      r.buff.rpos = 7 ∧ r.completed = false :=
  ⟨by decide, by decide, _, rfl, by decide, by decide, by decide, by decide, by decide⟩

/-- C5, witness: three page-presence entries and a response that holds their
three sentinel bytes. -/
theorem C5_all_entries_decoded_witness :
    ValidResponse exChecksum (exResponse [1, 0x10, 0, 0, 0, 0xE9, 0x00, 0xE9]) ∧
    ∃ r, HandleData exPageMgr exChecksum 1500 (exSession [1, 2, 3])
        (exResponse [1, 0x10, 0, 0, 0, 0xE9, 0x00, 0xE9]) = .ok r ∧
      resultIds r.log = [1, 2, 3] ∧ r.completed = true :=
  ⟨by decide,
    (C5_all_entries_decoded exPageMgr exChecksum 1500 (exSession [1, 2, 3])
      (exResponse [1, 0x10, 0, 0, 0, 0xE9, 0x00, 0xE9]) (by decide)
      (fun id _ => ⟨_, rfl, rfl, fun h => (by cases h), fun h => (by cases h)⟩)
      (by decide)).1⟩

/-- C6 (amended): for every in-flight list of NON-ZERO check ids and every
response with a valid checksum and a non-zero timing flag on which `HandleData`
returns, `Penalty` is called for a check if and only if at least one in-flight
entry failed, and then once, for the recorded failing entry; when no entry
failed the cycle is clean and `Penalty` is not called. -/
theorem C6_penalty_iff_failed (mgr : WardenCheckMgr) (cs : List Nat → Nat) (now : Nat)
    (w : Session) (buff : ByteBuffer) (r : HandleDataResult) (hv : ValidResponse cs buff)
    (h : HandleData mgr cs now w buff = .ok r) (hnz : ∀ id ∈ w._currentChecks, id ≠ 0) :
    (failedIds r.log ≠ [] ↔
      ∃ id ∈ failedIds r.log,
        r.penalty = [.forCheck id (mgr.GetWardenDataById w.build id)]) ∧
    (failedIds r.log = [] → r.penalty = []) := by
  obtain ⟨-, -, hmem, hcf, hp⟩ := HandleData_valid_spec hv h
  constructor
  · constructor
    · intro hne
      have hlast : (failedIds r.log).getLastD 0 ∈ failedIds r.log := by
        cases hl : failedIds r.log with
        | nil => exact absurd hl hne
        | cons a l =>
          rw [List.getLastD_cons, List.getLastD_eq_getLast?]
          cases hl' : l.getLast? with
          | none =>
            rw [List.getLast?_eq_none_iff] at hl'
            simp [hl']
          | some b =>
            simp only [Option.getD_some]
            exact List.mem_cons_of_mem _ (List.mem_of_getLast?_eq_some hl')
      have hpos : r.checkFailed > 0 := by
        rw [hcf]
        exact Nat.pos_of_ne_zero (hnz _ (hmem _ hlast))
      exact ⟨r.checkFailed, by rw [hcf]; exact hlast, by rw [hp, if_pos hpos]⟩
    · rintro ⟨id, hid, -⟩ hnil
      rw [hnil] at hid
      cases hid
  · intro hnil
    rw [hp, hcf, hnil]
    rfl

/-- C6, counterexample: an in-flight list that holds the check id 0, whose entry
fails (sentinel byte 0x00): the recorded id is 0 and `Penalty` is not called. -/
theorem C6_counterexample :
    ValidResponse exChecksum (exResponse [1, 0x10, 0, 0, 0, 0x00]) ∧
    ∃ r, HandleData exPageMgr exChecksum 1500 (exSession [0])
        (exResponse [1, 0x10, 0, 0, 0, 0x00]) = .ok r ∧
      r.log = [.ticks 1500 1000 16, .waittime 500, .result .PAGE_CHECK_A .fail 0] ∧
      failedIds r.log = [0] ∧ r.checkFailed = 0 ∧ r.penalty = [] :=
  ⟨by decide, _, rfl, by decide, by decide, by decide, by decide⟩

/-- C6, witness: two page-presence entries with the ids 1 and 2, of which the
second fails. -/
theorem C6_penalty_iff_failed_witness :
    ValidResponse exChecksum (exResponse [1, 0x10, 0, 0, 0, 0xE9, 0x00]) ∧
    ∃ r, HandleData exPageMgr exChecksum 1500 (exSession [1, 2])
        (exResponse [1, 0x10, 0, 0, 0, 0xE9, 0x00]) = .ok r ∧
      (failedIds r.log ≠ [] ↔
        ∃ id ∈ failedIds r.log,
          r.penalty = [.forCheck id (exPageMgr.GetWardenDataById 5875 id)]) ∧
      r.penalty = [.forCheck 2 (exPageMgr.GetWardenDataById 5875 2)] :=
  ⟨by decide, _, rfl,
    (C6_penalty_iff_failed exPageMgr exChecksum 1500 (exSession [1, 2])
      (exResponse [1, 0x10, 0, 0, 0, 0xE9, 0x00]) _ (by decide) rfl (by decide)).1, by decide⟩

/-- C7: for an in-flight list holding one memory-region check with a non-zero
id (0 stands for no failing check), length L and stored expectation E of at
least L bytes, and a response with a valid checksum, a non-zero timing flag and
a status byte for the entry, `HandleData` returns a clean cycle (no `Penalty`
call) if and only if the status byte is 0 and the next L bytes equal the first L
bytes of E; changing any one of those L bytes yields a `Penalty` call for that
check id. -/
theorem C7_single_memory_check (mgr : WardenCheckMgr) (cs : List Nat → Nat) (now : Nat)
    (w : Session) (buff : ByteBuffer) (id : Nat) (rd : WardenCheck) (rs : WardenCheckResult)
    (hv : ValidResponse cs buff) (hcur : w._currentChecks = [id]) (hid : id ≠ 0)
    (hrd : mgr.GetWardenDataById w.build id = some rd) (hty : rd.Type_ = .MEM_CHECK)
    (hrs : mgr.GetWardenResultById w.build id = some rs) (hE : rd.Length ≤ rs.Result.length)
    (hs : buff.rpos + 12 ≤ buff.storage.length) :
    ((∃ r, HandleData mgr cs now w buff = .ok r ∧ r.penalty = []) ↔
      fromLE ((bodyAt buff).take 1) = 0 ∧
        ((bodyAt buff).drop 1).take rd.Length = rs.Result.take rd.Length) ∧
    (∀ (i v : Nat), i < rd.Length → rs.Result[i]? ≠ some v →
      fromLE ((bodyAt buff).take 1) = 0 →
      ((bodyAt buff).drop 1).take rd.Length = (rs.Result.take rd.Length).set i v →
      ∃ r, HandleData mgr cs now w buff = .ok r ∧
        r.penalty = [.forCheck id (some rd)]) := by
  have hsingle := HandleData_single mgr now hv hcur
  obtain ⟨st0, hst0⟩ : ∃ st0 : LoopState,
      st0 = ⟨buff.setRpos (buff.rpos + 11), 0, timingLog now w buff⟩ := ⟨_, rfl⟩
  rw [← hst0] at hsingle
  have hcursor : st0.buff.atCursor = bodyAt buff := by subst hst0; rfl
  have hrpos : st0.buff.rpos = buff.rpos + 11 := by subst hst0; rfl
  have hstor : st0.buff.storage = buff.storage := by subst hst0; rfl
  have hcf0 : st0.checkFailed = 0 := by subst hst0; rfl
  have h1 : st0.buff.rpos + 1 ≤ st0.buff.storage.length := by rw [hrpos, hstor]; omega
  have hbody : (bodyAt buff).length = buff.storage.length - (buff.rpos + 11) := by
    simp [bodyAt]
  -- a body of the full length fits in the payload
  have hfits : ∀ l : List Nat, l.length = rd.Length →
      ((bodyAt buff).drop 1).take rd.Length = l →
      st0.buff.rpos + 1 + rd.Length ≤ st0.buff.storage.length := by
    intro l hl he
    have := congrArg List.length he
    rw [List.length_take, List.length_drop, hbody, hl] at this
    rw [hrpos, hstor]
    omega
  have hstep := fun hfit => @checkStep_status mgr w.build id rd st0
    rd.Length hrd (Or.inl ⟨hty, rfl⟩) rs hrs hE h1 hfit
  rw [hcursor] at hstep
  have hlenE : (rs.Result.take rd.Length).length = rd.Length := by
    rw [List.length_take]; omega
  constructor
  · constructor
    · rintro ⟨r, h, hp⟩
      rw [hsingle] at h
      cases hs0 : checkStep mgr w.build st0 id with
      | error e => simp [hs0] at h
      | ok st =>
        simp only [hs0, Except.ok.injEq] at h
        subst h
        have hc0 := finishCycle_penalty_nil.mp hp
        by_cases hz : fromLE ((bodyAt buff).take 1) = 0
        · have hfit := checkStep_status_fits hs0 hrd (Or.inl ⟨hty, rfl⟩) (by rw [hcursor]; exact hz)
          have hst := hstep (fun _ => hfit)
          rw [hs0] at hst
          by_cases he : ((bodyAt buff).drop 1).take rd.Length = rs.Result.take rd.Length
          · exact ⟨hz, he⟩
          · simp only [hz, ne_eq, not_true_eq_false, if_false, he, Except.ok.injEq] at hst
            rw [hst] at hc0
            exact absurd hc0 hid
        · have hst := hstep (fun h0 => absurd h0 hz)
          rw [hs0] at hst
          simp only [ne_eq, hz, not_false_eq_true, if_true, Except.ok.injEq] at hst
          rw [hst] at hc0
          exact absurd hc0 hid
    · rintro ⟨hz, he⟩
      have hst := hstep (fun _ => hfits _ hlenE he)
      simp only [hz, ne_eq, not_true_eq_false, if_false, he, if_true] at hst
      refine ⟨_, by rw [hsingle, hst], ?_⟩
      exact finishCycle_penalty_nil.mpr hcf0
  · intro i v hi hv' hz he
    have hlen : ((rs.Result.take rd.Length).set i v).length = rd.Length := by
      rw [List.length_set, hlenE]
    have hst := hstep (fun _ => hfits _ hlen he)
    have hne : ¬ ((bodyAt buff).drop 1).take rd.Length = rs.Result.take rd.Length := by
      intro heq
      rw [he] at heq
      have := congrArg (fun l => l[i]?) heq
      simp only [List.getElem?_set_self (show i < (rs.Result.take rd.Length).length by omega),
        List.getElem?_take_of_lt hi] at this
      exact hv' this.symm
    simp only [hz, ne_eq, not_true_eq_false, if_false, hne] at hst
    refine ⟨_, by rw [hsingle, hst], ?_⟩
    simp [finishCycle, Nat.pos_of_ne_zero hid, hrd]

/-- C7, witness: the scenario (address `0x1000`, length 4, expectation
`[1, 2, 3, 4]`) under the check id 7: the matching response gives a clean cycle,
the response with the last byte changed to 5 gives a `Penalty` call for 7. -/
theorem C7_single_memory_check_witness :
    (∃ r, HandleData exMemMgr exChecksum 1500 (exSession [7])
        (exResponse [1, 0x10, 0, 0, 0, 0x00, 1, 2, 3, 4]) = .ok r ∧ r.penalty = []) ∧
    (∃ r, HandleData exMemMgr exChecksum 1500 (exSession [7])
        (exResponse [1, 0x10, 0, 0, 0, 0x00, 1, 2, 3, 5]) = .ok r ∧
      r.penalty = [.forCheck 7 (some (exMemCheck 7))]) :=
  ⟨(C7_single_memory_check exMemMgr exChecksum 1500 (exSession [7])
      (exResponse [1, 0x10, 0, 0, 0, 0x00, 1, 2, 3, 4]) 7 (exMemCheck 7) ⟨[1, 2, 3, 4]⟩
      (by decide) rfl (by decide) rfl rfl rfl (by decide) (by decide)).1.mpr ⟨by decide, by decide⟩,
   (C7_single_memory_check exMemMgr exChecksum 1500 (exSession [7])
      (exResponse [1, 0x10, 0, 0, 0, 0x00, 1, 2, 3, 5]) 7 (exMemCheck 7) ⟨[1, 2, 3, 4]⟩
      (by decide) rfl (by decide) rfl rfl rfl (by decide) (by decide)).2 3 5 (by decide) (by decide)
        (by decide) (by decide)⟩

/-- C8: for a page-presence, native-code-integrity or module-integrity entry and
a byte `x` at the read position, the iteration of `HandleData` advances the
cursor by exactly one byte in both outcomes, and the entry passes (nothing is
recorded, the line ends in `passed`) if and only if `x` is the sentinel 0xE9;
otherwise the entry's id is recorded as failed. -/
theorem C8_sentinel_entry (mgr : WardenCheckMgr) (build id : Nat) (rd : WardenCheck)
    (st : LoopState) (x : Nat) (hrd : mgr.GetWardenDataById build id = some rd)
    (hty : rd.Type_ = .PAGE_CHECK_A ∨ rd.Type_ = .PAGE_CHECK_B ∨ rd.Type_ = .DRIVER_CHECK ∨
      rd.Type_ = .MODULE_CHECK)
    (hx : st.buff.storage[st.buff.rpos]? = some x) :
    checkStep mgr build st id = .ok
      (if x = 0xE9 then
        { buff := st.buff.setRpos (st.buff.rpos + 1), checkFailed := st.checkFailed,
          log := st.log ++ [.result rd.Type_ .passed id] }
      else
        { buff := st.buff.setRpos (st.buff.rpos + 1), checkFailed := id,
          log := st.log ++ [.result rd.Type_ .fail id] }) ∧
    ((∃ st', checkStep mgr build st id = .ok st' ∧
        st'.log = st.log ++ [.result rd.Type_ .passed id]) ↔ x = 0xE9) := by
  have h := checkStep_sentinel st hrd hty hx
  refine ⟨h, ?_⟩
  rw [h]
  by_cases hx9 : x = 0xE9
  · simp [hx9]
  · simp [hx9]

/-- C8, witness: a page-presence entry on the byte 0xE9 passes and on the byte
0x00 fails; the cursor moves from 0 to 1 in both. -/
theorem C8_sentinel_entry_witness :
    checkStep exPageMgr 5875 (exLoopState [0xE9, 0x00]) 4 = .ok
      { buff := ⟨[0xE9, 0x00], 1, 2⟩, checkFailed := 0,
        log := [.result .PAGE_CHECK_A .passed 4] } ∧
    checkStep exPageMgr 5875 (exLoopState [0x00, 0xE9]) 4 = .ok
      { buff := ⟨[0x00, 0xE9], 1, 2⟩, checkFailed := 4,
        log := [.result .PAGE_CHECK_A .fail 4] } :=
  ⟨(C8_sentinel_entry exPageMgr 5875 4 _ (exLoopState [0xE9, 0x00]) 0xE9 rfl (Or.inl rfl)
      rfl).1,
   (C8_sentinel_entry exPageMgr 5875 4 _ (exLoopState [0x00, 0xE9]) 0x00 rfl (Or.inl rfl)
      rfl).1⟩

/-- C9: for a catalog-hash (MPQ) entry with a stored expectation `E` of at least
20 bytes, whose status byte is present (and whose 20 digest bytes are present
when the status is 0), the iteration of `HandleData` passes the entry if and only
if the status byte is 0 and the following 20 bytes equal the first 20 bytes of
`E`; otherwise the entry's id is recorded as failed. -/
theorem C9_catalog_hash_entry (mgr : WardenCheckMgr) (build id : Nat) (rd : WardenCheck)
    (rs : WardenCheckResult) (st : LoopState) (hrd : mgr.GetWardenDataById build id = some rd)
    (hty : rd.Type_ = .MPQ_CHECK)
    (hrs : mgr.GetWardenResultById build id = some rs) (hE : 20 ≤ rs.Result.length)
    (h1 : st.buff.rpos + 1 ≤ st.buff.storage.length)
    (hfit : fromLE (st.buff.atCursor.take 1) = 0 →
      st.buff.rpos + 1 + 20 ≤ st.buff.storage.length) :
    checkStep mgr build st id = .ok
      (if fromLE (st.buff.atCursor.take 1) ≠ 0 then
        { buff := st.buff.setRpos (st.buff.rpos + 1), checkFailed := id,
          log := st.log ++ [.result .MPQ_CHECK .notZero id] }
      else if (st.buff.atCursor.drop 1).take 20 = rs.Result.take 20 then
        { buff := st.buff.setRpos (st.buff.rpos + 1 + 20), checkFailed := st.checkFailed,
          log := st.log ++ [.result .MPQ_CHECK .passed id] }
      else
        { buff := st.buff.setRpos (st.buff.rpos + 1 + 20), checkFailed := id,
          log := st.log ++ [.result .MPQ_CHECK .fail id] }) ∧
    ((∃ st', checkStep mgr build st id = .ok st' ∧
        st'.log = st.log ++ [.result .MPQ_CHECK .passed id]) ↔
      fromLE (st.buff.atCursor.take 1) = 0 ∧
        (st.buff.atCursor.drop 1).take 20 = rs.Result.take 20) := by
  have h := checkStep_status st 20 hrd (Or.inr ⟨hty, rfl⟩) hrs hE h1 hfit
  rw [hty] at h
  refine ⟨h, ?_⟩
  rw [h]
  by_cases hz : fromLE (st.buff.atCursor.take 1) = 0
  · by_cases he : (st.buff.atCursor.drop 1).take 20 = rs.Result.take 20
    · simp [hz, he, -List.drop_one]
    · simp [hz, he, -List.drop_one]
  · simp [hz, -List.drop_one]

/-- C9, witness: a catalog-hash entry whose response is the status 0x00 followed
by the stored 20-byte digest passes. -/
theorem C9_catalog_hash_entry_witness :
    checkStep exMpqMgr 5875 (exLoopState (0x00 :: exDigest)) 4 = .ok
      { buff := ⟨0x00 :: exDigest, 21, 21⟩, checkFailed := 0,
        log := [.result .MPQ_CHECK .passed 4] } :=
  (C9_catalog_hash_entry exMpqMgr 5875 4 _ ⟨exDigest⟩ (exLoopState (0x00 :: exDigest)) rfl rfl
    rfl (by decide) (by decide) (by decide)).1

/-- C10: in every cycle, for every quota value, when a pool holds at most 65536
ids at the start of the draws (its ids are 16-bit and come from the catalog,
which holds an id once), the number of ids drawn from the primary pool is at
most the primary quota and the number drawn from the secondary pool is at most
the secondary quota: the in-flight list is the primary draws followed by the
secondary draws, each pool loses exactly the ids drawn from it, and the
in-flight list holds at most the two quotas together. -/
theorem C10_draws_within_quota (env : RequestEnv) (gameTime : Nat) (w : Session)
    (hm : (memPool env w).length ≤ 65536) (ho : (otherPool env w).length ≤ 65536) :
    (memDrawn env w).length ≤ env.NUM_MEM_CHECKS ∧
    (otherDrawn env w).length ≤ env.NUM_OTHER_CHECKS ∧
    (RequestDataDraw env gameTime w).1._currentChecks = memDrawn env w ++ otherDrawn env w ∧
    (RequestDataDraw env gameTime w).1._memChecksTodo.length + (memDrawn env w).length =
      (memPool env w).length ∧
    (RequestDataDraw env gameTime w).1._otherChecksTodo.length + (otherDrawn env w).length =
      (otherPool env w).length ∧
    ∀ (rand32 : Nat → Nat) (p : Session × ByteBuffer),
      RequestData env gameTime rand32 w = .ok p →
        p.1._currentChecks.length ≤ env.NUM_MEM_CHECKS + env.NUM_OTHER_CHECKS ∧
        (memPool env w).length - p.1._memChecksTodo.length ≤ env.NUM_MEM_CHECKS ∧
        (otherPool env w).length - p.1._otherChecksTodo.length ≤ env.NUM_OTHER_CHECKS := by
  have h1 : (memDrawn env w).length ≤ env.NUM_MEM_CHECKS := by
    unfold memDrawn
    rw [List.length_take]
    exact (Nat.min_le_left _ _).trans
      (drawCount_le_quota _ _ (by rw [List.length_reverse]; exact hm))
  have h2 : (otherDrawn env w).length ≤ env.NUM_OTHER_CHECKS := by
    unfold otherDrawn
    rw [List.length_take]
    exact (Nat.min_le_left _ _).trans
      (drawCount_le_quota _ _ (by rw [List.length_reverse]; exact ho))
  have h3 : (RequestDataDraw env gameTime w).1._memChecksTodo.length + (memDrawn env w).length =
      (memPool env w).length := by
    have := congrArg List.length (pool_split (memPool env w)
      (drawCount env.NUM_MEM_CHECKS 0 (memPool env w).reverse))
    rw [RequestDataDraw_eq]
    simp only [List.length_append, List.length_reverse] at this ⊢
    unfold memDrawn
    omega
  have h4 : (RequestDataDraw env gameTime w).1._otherChecksTodo.length +
      (otherDrawn env w).length = (otherPool env w).length := by
    have := congrArg List.length (pool_split (otherPool env w)
      (drawCount env.NUM_OTHER_CHECKS 0 (otherPool env w).reverse))
    rw [RequestDataDraw_eq]
    simp only [List.length_append, List.length_reverse] at this ⊢
    unfold otherDrawn
    omega
  refine ⟨h1, h2, by rw [RequestDataDraw_eq], h3, h4, ?_⟩
  intro rand32 p hp
  obtain ⟨hs, hc, -, -⟩ := RequestData_payload hp
  rw [hs]
  refine ⟨?_, by omega, by omega⟩
  rw [← hs, hc, List.length_append]
  omega

/-- C10, witness: the cycle on `exMixedMgr` with the quotas 3 and 2 and the pools
`[1, 2]` and `[3, 4, 5]` after the refill draws 2 and 2 ids; and with the
primary quota 65536 of `exEnv` the one id of the primary pool is drawn. -/
theorem C10_draws_within_quota_witness :
    ((memDrawn (exReqEnv exMixedMgr) (exPools [] [] [])).length ≤ 3 ∧
      (otherDrawn (exReqEnv exMixedMgr) (exPools [] [] [])).length ≤ 2 ∧
      (RequestDataDraw (exReqEnv exMixedMgr) 10 (exPools [] [] [])).1._currentChecks =
        [2, 1] ++ [5, 4]) ∧
    (memDrawn exEnv (exSession [])).length ≤ 65536 :=
  ⟨⟨(C10_draws_within_quota (exReqEnv exMixedMgr) 10 (exPools [] [] []) (by decide)
        (by decide)).1,
      (C10_draws_within_quota (exReqEnv exMixedMgr) 10 (exPools [] [] []) (by decide)
        (by decide)).2.1,
      (C10_draws_within_quota (exReqEnv exMixedMgr) 10 (exPools [] [] []) (by decide)
        (by decide)).2.2.1⟩,
    (C10_draws_within_quota exEnv 10 (exSession []) (by decide) (by decide)).1⟩

/-- C11: after a call of `RequestData` that returns, the in-flight list is the
ids drawn from the primary pool in this cycle followed by the ids drawn from the
secondary pool, each in draw order (from the back of the pool), whatever the
in-flight list was before; every drawn id has left its pool and the undrawn ids
stay in it in their order: the pool at the start of the draws is the pool that
is left followed by the drawn ids, last drawn first. -/
theorem C11_in_flight_is_the_draws (env : RequestEnv) (gameTime : Nat) (rand32 : Nat → Nat)
    (w : Session) (p : Session × ByteBuffer) (h : RequestData env gameTime rand32 w = .ok p) :
    p.1._currentChecks = memDrawn env w ++ otherDrawn env w ∧
    memPool env w = p.1._memChecksTodo ++ (memDrawn env w).reverse ∧
    otherPool env w = p.1._otherChecksTodo ++ (otherDrawn env w).reverse ∧
    ∀ (old : List Nat) (q : Session × ByteBuffer),
      RequestData env gameTime rand32 { w with _currentChecks := old } = .ok q →
        q.1._currentChecks = p.1._currentChecks := by
  obtain ⟨hs, hc, -, -⟩ := RequestData_payload h
  refine ⟨hc, ?_, ?_, ?_⟩
  · rw [hs, RequestDataDraw_eq]
    exact pool_split _ _
  · rw [hs, RequestDataDraw_eq]
    exact pool_split _ _
  · intro old q hq
    obtain ⟨-, hc', -, -⟩ := RequestData_payload hq
    rw [hc', hc]
    rfl

/-- C11, witness: both pools are empty at the start and are refilled with
`[1, 2]` and `[3, 4, 5]`; the quotas are 3 and 2.  The in-flight list becomes
`[2, 1, 5, 4]` and the pools `[]` and `[3]`. -/
theorem C11_in_flight_is_the_draws_witness :
    ∃ p, RequestData (exReqEnv exMixedMgr) 10 (fun _ => 0) (exPools [] [] [9, 9]) = .ok p ∧
      p.1._currentChecks = [2, 1, 5, 4] ∧
      [1, 2] = p.1._memChecksTodo ++ [1, 2] ∧ [3, 4, 5] = p.1._otherChecksTodo ++ [4, 5] :=
  ⟨_, rfl,
    (C11_in_flight_is_the_draws (exReqEnv exMixedMgr) 10 (fun _ => 0) (exPools [] [] [9, 9]) _
      rfl).1,
    (C11_in_flight_is_the_draws (exReqEnv exMixedMgr) 10 (fun _ => 0) (exPools [] [] [9, 9]) _
      rfl).2.1,
    (C11_in_flight_is_the_draws (exReqEnv exMixedMgr) 10 (fun _ => 0) (exPools [] [] [9, 9]) _
      rfl).2.2.1⟩

/-- C12: in a call of `RequestData` that returns, a pool that is not empty at the
start of the cycle receives no id (what is left of it is a prefix of it); a pool
that is empty at the start is refilled from the catalog's ids for the client's
build (what is left is a prefix of those ids); the ids drawn and the ids left
make up the start-of-cycle pool, so nothing is added while drawing, and a pool
whose ids have all been drawn is left empty. -/
theorem C12_refill_only_at_start (env : RequestEnv) (gameTime : Nat) (rand32 : Nat → Nat)
    (w : Session) (p : Session × ByteBuffer) (h : RequestData env gameTime rand32 w = .ok p) :
    (w._memChecksTodo ≠ [] → p.1._memChecksTodo <+: w._memChecksTodo) ∧
    (w._memChecksTodo = [] → p.1._memChecksTodo <+: env.mgr.GetWardenCheckIds true w.build) ∧
    (w._otherChecksTodo ≠ [] → p.1._otherChecksTodo <+: w._otherChecksTodo) ∧
    (w._otherChecksTodo = [] →
      p.1._otherChecksTodo <+: env.mgr.GetWardenCheckIds false w.build) ∧
    p.1._memChecksTodo.length + (memDrawn env w).length = (memPool env w).length ∧
    p.1._otherChecksTodo.length + (otherDrawn env w).length = (otherPool env w).length ∧
    ((memDrawn env w).length = (memPool env w).length → p.1._memChecksTodo = []) ∧
    ((otherDrawn env w).length = (otherPool env w).length → p.1._otherChecksTodo = []) := by
  obtain ⟨hs, -, -, -⟩ := RequestData_payload h
  have hm : memPool env w = p.1._memChecksTodo ++ (memDrawn env w).reverse := by
    rw [hs, RequestDataDraw_eq]; exact pool_split _ _
  have ho : otherPool env w = p.1._otherChecksTodo ++ (otherDrawn env w).reverse := by
    rw [hs, RequestDataDraw_eq]; exact pool_split _ _
  have hml := congrArg List.length hm
  have hol := congrArg List.length ho
  simp only [List.length_append, List.length_reverse] at hml hol
  refine ⟨?_, ?_, ?_, ?_, hml.symm, hol.symm, ?_, ?_⟩
  · intro hne
    have : memPool env w = w._memChecksTodo := by
      unfold memPool
      cases hl : w._memChecksTodo with
      | nil => exact absurd hl hne
      | cons a l => rfl
    rw [← this, hm]
    exact List.prefix_append _ _
  · intro he
    have : memPool env w = env.mgr.GetWardenCheckIds true w.build := by
      unfold memPool; rw [he]; rfl
    rw [← this, hm]
    exact List.prefix_append _ _
  · intro hne
    have : otherPool env w = w._otherChecksTodo := by
      unfold otherPool
      cases hl : w._otherChecksTodo with
      | nil => exact absurd hl hne
      | cons a l => rfl
    rw [← this, ho]
    exact List.prefix_append _ _
  · intro he
    have : otherPool env w = env.mgr.GetWardenCheckIds false w.build := by
      unfold otherPool; rw [he]; rfl
    rw [← this, ho]
    exact List.prefix_append _ _
  · intro hall
    exact List.eq_nil_of_length_eq_zero (by omega)
  · intro hall
    exact List.eq_nil_of_length_eq_zero (by omega)

/-- C12, witness: the primary pool `[1]` is not empty and is not refilled (it is
left empty after its one id is drawn, although the quota is 3 and the catalog
holds `[1, 2]`); the secondary pool is empty and is refilled with `[3, 4, 5]`,
of which `[3]` is left. -/
theorem C12_refill_only_at_start_witness :
    ∃ p, RequestData (exReqEnv exMixedMgr) 10 (fun _ => 0) (exPools [1] [] []) = .ok p ∧
      p.1._memChecksTodo = [] ∧ p.1._otherChecksTodo = [3] ∧
      p.1._currentChecks = [1, 5, 4] ∧
      p.1._memChecksTodo <+: [1] ∧ p.1._otherChecksTodo <+: [3, 4, 5] :=
  ⟨_, rfl, rfl, rfl, rfl,
    (C12_refill_only_at_start (exReqEnv exMixedMgr) 10 (fun _ => 0) (exPools [1] [] []) _
      rfl).1 (by decide),
    (C12_refill_only_at_start (exReqEnv exMixedMgr) 10 (fun _ => 0) (exPools [1] [] []) _
      rfl).2.2.2.1 rfl⟩

/-- C13, counterexample: the secondary pool of `exTimingMgr` holds a catalog
entry typed `TIMING_CHECK`; it is drawn, and the payload holds the masked
`TIMING_CHECK` tag 0x1A twice, once for the timing probe and once as the tag of
the in-flight entry. -/
theorem C13_counterexample :
    ∃ p, RequestData (exReqEnv exTimingMgr) 10 (fun _ => 0) (exPools [] [] []) = .ok p ∧
      p.1._currentChecks = [9] ∧
      p.2.storage = [0x02] ++ [0x00, 0x1A] ++ [0x1A] ++ [0x4D] ∧
      payloadTags (exReqEnv exTimingMgr) 0x4D
        (definitions exTimingMgr 5875 p.1._currentChecks) = [0x1A, 0x1A] ∧
      (payloadTags (exReqEnv exTimingMgr) 0x4D
        (definitions exTimingMgr 5875 p.1._currentChecks)).count 0x1A = 2 :=
  ⟨_, rfl, rfl, rfl, rfl, by decide⟩

/-- C13 (amended): if both pools are empty after the start-of-cycle refill,
`RequestData` returns the 4-byte payload that holds the request marker, the timing probe (a
zero byte and the tag `TIMING_CHECK` masked with `_inputKey[0]`) and the mask
byte, with no string and no per-check section.  In every cycle the payload is
not empty and is the marker and the strings of the pre-pass, the timing probe,
one section per in-flight id, each opened by the masked tag of its type, and
the mask byte; and when no in-flight check has the type tag of `TIMING_CHECK`,
the masked `TIMING_CHECK` tag occurs exactly once among the tag bytes of the
payload (the tag of the probe and the tags that open the sections). -/
theorem C13_timing_probe_always_sent (env : RequestEnv) (gameTime : Nat) (rand32 : Nat → Nat)
    (w : Session) :
    (memPool env w = [] → otherPool env w = [] →
      ∃ p, RequestData env gameTime rand32 w = .ok p ∧ p.1._currentChecks = [] ∧
        p.2.storage = [env.WARDEN_SMSG_CHEAT_CHECKS_REQUEST % 256, 0,
          (env.tagByte .TIMING_CHECK ^^^ (w._inputKey.headD 0 % 256)) % 256,
          w._inputKey.headD 0 % 256]) ∧
    (∀ p, RequestData env gameTime rand32 w = .ok p →
      p.2.storage ≠ [] ∧
      (definitions env.mgr w.build p.1._currentChecks).length = p.1._currentChecks.length ∧
      p.2.storage =
        ([env.WARDEN_SMSG_CHEAT_CHECKS_REQUEST % 256] ++
          prepass (stringChecks env.mgr w.build (otherDrawn env w))) ++
        timingProbe env (xorByteOf w) ++
        (sectionsFrom env (xorByteOf w) (fun t => (1 + t) % 256) (fun m => toLE 4 (rand32 m)) 0 0
          (definitions env.mgr w.build p.1._currentChecks) ++ [xorByteOf w])) ∧
    ∀ p, RequestData env gameTime rand32 w = .ok p →
      timingProbe env (xorByteOf w) = [0, maskedTag env (xorByteOf w) .TIMING_CHECK] ∧
      p.2.storage =
        ([env.WARDEN_SMSG_CHEAT_CHECKS_REQUEST % 256] ++
          prepass (stringChecks env.mgr w.build (otherDrawn env w))) ++
        [0, maskedTag env (xorByteOf w) .TIMING_CHECK] ++
        ((sectionList env (xorByteOf w) (fun t => (1 + t) % 256) (fun m => toLE 4 (rand32 m)) 0 0
          (definitions env.mgr w.build p.1._currentChecks)).flatten ++ [xorByteOf w]) ∧
      (sectionList env (xorByteOf w) (fun t => (1 + t) % 256) (fun m => toLE 4 (rand32 m)) 0 0
        (definitions env.mgr w.build p.1._currentChecks)).length = p.1._currentChecks.length ∧
      maskedTag env (xorByteOf w) .TIMING_CHECK ::
        (sectionList env (xorByteOf w) (fun t => (1 + t) % 256) (fun m => toLE 4 (rand32 m)) 0 0
          (definitions env.mgr w.build p.1._currentChecks)).filterMap List.head? =
        payloadTags env (xorByteOf w) (definitions env.mgr w.build p.1._currentChecks) ∧
      ((∀ wd ∈ definitions env.mgr w.build p.1._currentChecks,
          env.tagByte wd.Type_ % 256 ≠ env.tagByte .TIMING_CHECK % 256) →
        (payloadTags env (xorByteOf w)
          (definitions env.mgr w.build p.1._currentChecks)).count
            (maskedTag env (xorByteOf w) .TIMING_CHECK) = 1) := by
  refine ⟨?_, ?_, ?_⟩
  · intro hm ho
    have hdm : memDrawn env w = [] := by simp [memDrawn, hm]
    have hdo : otherDrawn env w = [] := by simp [otherDrawn, ho]
    have hcur : (RequestDataDraw env gameTime w).1._currentChecks = [] := by
      rw [RequestDataDraw_eq]; simp [hdm, hdo]
    obtain ⟨buff, hb⟩ := RequestData_session env gameTime rand32 w (by rw [hcur]; simp)
    obtain ⟨-, hc, -, hp⟩ := RequestData_payload hb
    refine ⟨_, hb, hcur, ?_⟩
    rw [hp]
    simp only [hcur, hdo]
    simp [stringChecks, definitions, prepass, sectionsFrom, timingProbe, xorByteOf]
  · intro p h
    obtain ⟨-, -, hlen, hp⟩ := RequestData_payload h
    refine ⟨?_, hlen, ?_⟩
    · rw [hp]; simp
    · rw [hp]; simp only [List.append_assoc]
  · intro p h
    obtain ⟨-, -, hlen, hp⟩ := RequestData_payload h
    refine ⟨rfl, ?_, ?_, ?_, ?_⟩
    · rw [hp, sectionsFrom_flatten]
      simp only [timingProbe, maskedTag, List.append_assoc]
    · have := congrArg List.length (sectionList_heads env (xorByteOf w)
        (fun t => (1 + t) % 256) (fun m => toLE 4 (rand32 m))
        (definitions env.mgr w.build p.1._currentChecks) 0 0)
      simp only [List.length_map] at this
      rw [this, hlen]
    · unfold payloadTags
      rw [sectionList_tags]
    · intro hno
      exact payloadTags_count env _ (xorByteOf_lt w) _ hno

/-- C13, witness: with an empty catalog and empty pools the payload is the marker
0x02, the probe `[0x00, 0x57 xor 0x4D]` and the mask byte 0x4D; and in the cycle
on `exMixedMgr`, whose in-flight checks are memory-region, Lua string and
page-presence checks, the tag bytes are 0x1A, 0xBE, 0xBE, 0xC6, 0xFF and the
masked `TIMING_CHECK` tag 0x1A occurs once among them. -/
theorem C13_timing_probe_always_sent_witness :
    (∃ p, RequestData (exReqEnv exEmptyMgr) 10 (fun _ => 0) (exPools [] [] [7]) = .ok p ∧
      p.1._currentChecks = [] ∧ p.2.storage = [0x02, 0x00, 0x1A, 0x4D]) ∧
    payloadTags (exReqEnv exMixedMgr) 0x4D (definitions exMixedMgr 5875 [2, 1, 5, 4]) =
      [0x1A, 0xBE, 0xBE, 0xC6, 0xFF] ∧
    (payloadTags (exReqEnv exMixedMgr) 0x4D (definitions exMixedMgr 5875 [2, 1, 5, 4])).count
      0x1A = 1 :=
  ⟨(C13_timing_probe_always_sent (exReqEnv exEmptyMgr) 10 (fun _ => 0) (exPools [] [] [7])).1
      rfl rfl,
    rfl,
    ((C13_timing_probe_always_sent (exReqEnv exMixedMgr) 10 (fun _ => 0)
      (exPools [] [] [])).2.2
        ((RequestDataDraw (exReqEnv exMixedMgr) 10 (exPools [] [] [])).1,
          ⟨[2, 3, 0x61, 0x62, 5, 0, 0x1A, 0xBE, 0, 0, 0x10, 0, 0, 4, 0xBE, 0, 0, 0x10, 0, 0, 4,
            0xC6, 1, 0xFF, 0xAA, 0xBB, 0, 0x20, 0, 0, 8, 0x4D], 0, 32⟩) rfl).2.2.2.2
      (by decide)⟩

/-- C14: when the catalog holds a definition for every id drawn in the cycle,
`RequestData` returns, and the payload it built is, in this order: the request
marker byte; the length-prefixed strings of the string-carrying checks drawn
from the secondary pool, in draw order; the timing probe (a zero byte and the
masked tag of `TIMING_CHECK`); for each in-flight id in list order the masked
tag of its type followed by the body of the type (memory-region: a zero byte,
the 4-byte address, the 1-byte length; page-presence: the data blob, the 4-byte
address, the 1-byte length; string-bearing: a 1-byte index; native-code
integrity: the data blob and a 1-byte index; module-integrity: a 4-byte seed and
the digest of the seed and the string); and the mask byte. -/
theorem C14_payload_grammar (env : RequestEnv) (gameTime : Nat) (rand32 : Nat → Nat)
    (w : Session)
    (hdef : ∀ id ∈ memDrawn env w ++ otherDrawn env w,
      env.mgr.GetWardenDataById w.build id ≠ none) :
    (∃ p, RequestData env gameTime rand32 w = .ok p ∧
      p.1._currentChecks = memDrawn env w ++ otherDrawn env w ∧
      (definitions env.mgr w.build p.1._currentChecks).length = p.1._currentChecks.length ∧
      p.2.storage = [env.WARDEN_SMSG_CHEAT_CHECKS_REQUEST % 256] ++
        prepass (stringChecks env.mgr w.build (otherDrawn env w)) ++
        timingProbe env (xorByteOf w) ++
        sectionsFrom env (xorByteOf w) (fun t => (1 + t) % 256) (fun m => toLE 4 (rand32 m)) 0 0
          (definitions env.mgr w.build p.1._currentChecks) ++
        [xorByteOf w]) ∧
    (∀ (wd : WardenCheck) (index : Nat) (seed : List Nat),
      (wd.Type_ = .MEM_CHECK →
        sectionBody env wd index seed = [0] ++ toLE 4 wd.Address ++ [wd.Length % 256]) ∧
      (wd.Type_ = .PAGE_CHECK_A ∨ wd.Type_ = .PAGE_CHECK_B →
        sectionBody env wd index seed = wd.Data ++ toLE 4 wd.Address ++ [wd.Length % 256]) ∧
      (wd.Type_ = .MPQ_CHECK ∨ wd.Type_ = .LUA_STR_CHECK →
        sectionBody env wd index seed = [index]) ∧
      (wd.Type_ = .DRIVER_CHECK → sectionBody env wd index seed = wd.Data ++ [index]) ∧
      (wd.Type_ = .MODULE_CHECK →
        sectionBody env wd index seed = seed ++ env.HMACSHA1 seed wd.Str)) := by
  constructor
  · have hcur : (RequestDataDraw env gameTime w).1._currentChecks =
        memDrawn env w ++ otherDrawn env w := by
      rw [RequestDataDraw_eq]
    obtain ⟨buff, hb⟩ := RequestData_session env gameTime rand32 w (by rw [hcur]; exact hdef)
    obtain ⟨-, hc, hlen, hp⟩ := RequestData_payload hb
    exact ⟨_, hb, hc, hlen, hp⟩
  · intro wd index seed
    refine ⟨?_, ?_, ?_, ?_, ?_⟩
    · intro h; simp [sectionBody, h]
    · rintro (h | h) <;> simp [sectionBody, h]
    · rintro (h | h) <;> simp [sectionBody, h]
    · intro h; simp [sectionBody, h]
    · intro h; simp [sectionBody, h]

/-- C14, witness: the catalog `exMixedMgr` with empty pools; the ids 2 and 1
(memory-region) and 5 (Lua string) and 4 (page-presence) are drawn, and the
payload is the marker 0x02, the string of check 5 with its length 3, the probe,
two memory-region sections, the Lua section with index 1, the page-presence
section and the mask byte 0x4D. -/
theorem C14_payload_grammar_witness :
    ∃ p, RequestData (exReqEnv exMixedMgr) 10 (fun _ => 0) (exPools [] [] [9, 9]) = .ok p ∧
      p.1._currentChecks = [2, 1, 5, 4] ∧
      p.2.storage = [0x02] ++ [3, 0x61, 0x62, 5] ++ [0x00, 0x1A] ++
        ([0xBE, 0, 0x00, 0x10, 0, 0, 4] ++ [0xBE, 0, 0x00, 0x10, 0, 0, 4] ++ [0xC6, 1] ++
          [0xFF, 0xAA, 0xBB, 0x00, 0x20, 0, 0, 8]) ++ [0x4D] := by
  obtain ⟨p, h, hc, -, hp⟩ :=
    (C14_payload_grammar (exReqEnv exMixedMgr) 10 (fun _ => 0) (exPools [] [] [9, 9])
      (by decide)).1
  exact ⟨p, h, hc, by cases h; rfl⟩

/-- C15, counterexample: (i) with the secondary quota 256 and 256 Lua string
checks in the secondary pool, all 256 are in flight and the index byte written
for the last of them is 0, not 256 (the payload ends with its tag 0xC6, the
index 0 and the mask byte); (ii) a Lua string check drawn from the primary pool
is given the index 1 although the pre-pass emitted no string (the payload is the
marker, the probe, the tag 0xC6, the index 1 and the mask byte). -/
theorem C15_counterexample :
    (∃ p, RequestData exWideEnv 10 (fun _ => 0) (exPools [] (List.replicate 256 3) []) = .ok p ∧
      p.1._currentChecks.length = 256 ∧
      p.2.storage.reverse.take 3 = [0x4D, 0, 0xC6]) ∧
    (∃ p, RequestData (exReqEnv exLuaPrimaryMgr) 10 (fun _ => 0) (exPools [] [] []) = .ok p ∧
      p.1._currentChecks = [3] ∧
      p.2.storage = [0x02, 0x00, 0x1A, 0xC6, 1, 0x4D]) := by
  refine ⟨?_, ⟨_, rfl, rfl, rfl⟩⟩
  have hm : memDrawn exWideEnv (exPools [] (List.replicate 256 3) []) = [] := rfl
  have ho : otherDrawn exWideEnv (exPools [] (List.replicate 256 3) []) =
      List.replicate 256 3 := by
    have hp : otherPool exWideEnv (exPools [] (List.replicate 256 3) []) =
        List.replicate 256 3 := rfl
    unfold otherDrawn
    rw [hp, List.reverse_replicate,
      show exWideEnv.NUM_OTHER_CHECKS = 256 from rfl,
      drawCount_replicate 256 3 (by decide) 256 0 (by decide)]
    exact List.take_of_length_le (by rw [List.length_replicate])
  have hcur : (RequestDataDraw exWideEnv 10 (exPools [] (List.replicate 256 3) [])).1._currentChecks
      = List.replicate 256 3 := by
    rw [RequestDataDraw_eq, hm, ho]; rfl
  obtain ⟨buff, hb⟩ := RequestData_session exWideEnv 10 (fun _ => 0)
    (exPools [] (List.replicate 256 3) []) (fun id _ => Option.some_ne_none _)
  obtain ⟨-, hc, -, hp⟩ := RequestData_payload hb
  refine ⟨_, hb, ?_, ?_⟩
  · rw [hcur, List.length_replicate]
  · rw [hp]
    simp only [hcur]
    rw [show (exPools [] (List.replicate 256 3) []).build = 5875 from rfl,
      definitions_replicate exWideEnv.mgr 5875 3 _ rfl 256,
      sectionsFrom_replicate_succ _ _ _ _ _ rfl 255]
    simp only [List.reverse_append, List.append_assoc]
    rfl

/-- C15: when no string-carrying check is drawn from the primary pool and at
most 255 string-carrying checks are in flight, the index bytes written by
`RequestData` are 1, 2, 3, ... in in-flight list order (the string-carrying
check with `k` string-carrying checks before it is given `k + 1`), and the
string-carrying checks in flight are, in the same order, the checks whose
strings the pre-pass emitted, so the check with index `k` is the one whose
string is the `k`-th of the pre-pass. -/
theorem C15_indices_follow_prepass (env : RequestEnv) (gameTime : Nat) (rand32 : Nat → Nat)
    (w : Session) (p : Session × ByteBuffer) (h : RequestData env gameTime rand32 w = .ok p)
    (hmem : stringChecks env.mgr w.build (memDrawn env w) = [])
    (hcount : (stringChecks env.mgr w.build p.1._currentChecks).length ≤ 255) :
    stringChecks env.mgr w.build p.1._currentChecks =
      stringChecks env.mgr w.build (otherDrawn env w) ∧
    p.2.storage = [env.WARDEN_SMSG_CHEAT_CHECKS_REQUEST % 256] ++
      prepass (stringChecks env.mgr w.build p.1._currentChecks) ++
      timingProbe env (xorByteOf w) ++
      sectionsFrom env (xorByteOf w) (fun k => k + 1) (fun m => toLE 4 (rand32 m)) 0 0
        (definitions env.mgr w.build p.1._currentChecks) ++
      [xorByteOf w] := by
  obtain ⟨-, hc, -, hp⟩ := RequestData_payload h
  have hs : stringChecks env.mgr w.build p.1._currentChecks =
      stringChecks env.mgr w.build (otherDrawn env w) := by
    rw [hc, stringChecks_append, hmem, List.nil_append]
  refine ⟨hs, ?_⟩
  rw [hp, hs]
  congr 2
  apply sectionsFrom_congr
  intro t _ ht
  have : t < 255 := by
    have := hcount
    unfold stringChecks at this
    omega
  show (1 + t) % 256 = t + 1
  omega

/-- C15, witness: the Lua string checks 5 and 3 are drawn from the secondary
pool after the memory-region checks 2 and 1; the pre-pass emits the string of 5
and then the string of 3, and the sections of 5 and 3 carry the indices 1 and
2. -/
theorem C15_indices_follow_prepass_witness :
    ∃ p, RequestData (exReqEnv exMixedMgr) 10 (fun _ => 0) (exPools [] [3, 5] []) = .ok p ∧
      p.1._currentChecks = [2, 1, 5, 3] ∧
      p.2.storage = [0x02] ++ ([3, 0x61, 0x62, 5] ++ [3, 0x61, 0x62, 3]) ++ [0x00, 0x1A] ++
        ([0xBE, 0, 0x00, 0x10, 0, 0, 4] ++ [0xBE, 0, 0x00, 0x10, 0, 0, 4] ++ [0xC6, 1] ++
          [0xC6, 2]) ++ [0x4D] :=
  ⟨_, rfl, rfl,
    (C15_indices_follow_prepass (exReqEnv exMixedMgr) 10 (fun _ => 0) (exPools [] [3, 5] []) _
      rfl (by decide) (by decide)).2⟩

/-- C16: `Init` draws the inbound key and then the outbound key, 16 bytes each,
from one generator keyed with the secret: the inbound key is the first draw and
the outbound key the draw from the generator as the first draw left it, that is
the bytes 0..15 and 16..31 of the generator's stream; both cipher states are
initialised from their key; and the two keys are the same for every call with
the same secret, whatever the build and the session before. -/
theorem C16_init_keys (env : WardenEnv) (build : Nat) (K : List Nat) (w : Session) :
    (Init env build K w)._inputKey = (SHA1Randx.Generate env.keyStream ⟨K, 0⟩ 16).1 ∧
    (Init env build K w)._outputKey =
      (SHA1Randx.Generate env.keyStream (SHA1Randx.Generate env.keyStream ⟨K, 0⟩ 16).2 16).1 ∧
    (Init env build K w)._inputKey = (List.range 16).map (fun n => env.keyStream K n) ∧
    (Init env build K w)._outputKey = (List.range 16).map (fun n => env.keyStream K (16 + n)) ∧
    (Init env build K w)._inputKey.length = 16 ∧
    (Init env build K w)._outputKey.length = 16 ∧
    (Init env build K w)._inputCrypto = SARC4.Init (Init env build K w)._inputKey ∧
    (Init env build K w)._outputCrypto = SARC4.Init (Init env build K w)._outputKey ∧
    ∀ (build' : Nat) (w' : Session),
      (Init env build' K w')._inputKey = (Init env build K w)._inputKey ∧
      (Init env build' K w')._outputKey = (Init env build K w)._outputKey := by
  refine ⟨rfl, rfl, ?_, ?_, ?_, ?_, rfl, rfl, fun _ _ => ⟨rfl, rfl⟩⟩
  · simp [Init, SHA1Randx.Generate]
  · simp [Init, SHA1Randx.Generate]
  · simp [Init, SHA1Randx.Generate]
  · simp [Init, SHA1Randx.Generate]

/-- C17, counterexample: a reply that validates (the opcode byte and the 20
bytes of the module's hash) leaves the keys equal to the module's two key seeds,
and no byte of either new key occurs in the reply. -/
theorem C17_counterexample :
    ∃ p, HandleHashResult exModule 10 exInitSession exHashReply = .ok p ∧
      p.2.2 = [] ∧
      p.1._inputKey = exModule.ClientKeySeed ∧ p.1._outputKey = exModule.ServerKeySeed ∧
      ∀ b ∈ p.1._inputKey ++ p.1._outputKey, b ∉ exHashReply.storage :=
  ⟨_, rfl, rfl, rfl, rfl, by decide⟩

/-- C17: for a reply that validates (the 20 bytes after the opcode byte are the
module's hash), `HandleHashResult` returns without a penalty, replaces the
inbound key by the first 16 bytes of the module's client key seed and the
outbound key by the first 16 bytes of the module's server key seed, constants
of the module that do not depend on the reply, and re-initialises both cipher
states from the new keys. -/
theorem C17_keys_from_module_seeds (md : ModuleData) (gameTime : Nat) (w : Session)
    (buff : ByteBuffer)
    (hlen : 1 + md.ClientKeySeedHash.length ≤ buff.storage.length)
    (hvalid : (buff.storage.drop 1).take md.ClientKeySeedHash.length = md.ClientKeySeedHash) :
    ∃ p, HandleHashResult md gameTime w buff = .ok p ∧ p.2.2 = [] ∧
      p.1._inputKey = md.ClientKeySeed.take 16 ∧
      p.1._outputKey = md.ServerKeySeed.take 16 ∧
      p.1._inputCrypto = SARC4.Init p.1._inputKey ∧
      p.1._outputCrypto = SARC4.Init p.1._outputKey :=
  ⟨_, HandleHashResult_valid md gameTime w buff hlen hvalid, rfl, rfl, rfl, rfl, rfl⟩

/-- C17, witness: the reply `exHashReply` validates against `exModule`. -/
theorem C17_keys_from_module_seeds_witness :
    ∃ p, HandleHashResult exModule 10 exInitSession exHashReply = .ok p ∧ p.2.2 = [] ∧
      p.1._inputKey = exModule.ClientKeySeed.take 16 ∧
      p.1._outputKey = exModule.ServerKeySeed.take 16 ∧
      p.1._inputCrypto = SARC4.Init p.1._inputKey ∧
      p.1._outputCrypto = SARC4.Init p.1._outputKey :=
  C17_keys_from_module_seeds exModule 10 exInitSession exHashReply (by decide) (by decide)

/-- C19: the module `GetModuleForClient` returns has the byte length of the module
blob as its compressed size, the blob as its data, the first 16 bytes of the
embedded module key (the key itself when it has 16 bytes) as its key and the
MD5 digest of its compressed data as its Id; the module depends on nothing else,
so `Init` stores the same module whatever the build, the secret and the session
before. -/
theorem C19_module_for_client (env : WardenEnv) :
    (GetModuleForClient env).CompressedSize = env.Module.Module.length ∧
    (GetModuleForClient env).CompressedSize = (GetModuleForClient env).CompressedData.length ∧
    (GetModuleForClient env).CompressedData = env.Module.Module ∧
    (GetModuleForClient env).Key = env.Module.ModuleKey.take 16 ∧
    (env.Module.ModuleKey.length = 16 → (GetModuleForClient env).Key = env.Module.ModuleKey) ∧
    (GetModuleForClient env).Id = env.MD5 (GetModuleForClient env).CompressedData ∧
    ∀ (build build' : Nat) (K K' : List Nat) (w w' : Session),
      (Init env build K w)._module = some (GetModuleForClient env) ∧
      (Init env build' K' w')._module = (Init env build K w)._module := by
  refine ⟨rfl, rfl, rfl, rfl, ?_, rfl, fun _ _ _ _ _ _ => ⟨rfl, rfl⟩⟩
  intro h
  show env.Module.ModuleKey.take 16 = env.Module.ModuleKey
  exact List.take_of_length_le (by omega)

/-- C19, witness: the module of `exWardenEnv`: size 4, the blob, the 16-byte
key and the digest of the blob. -/
theorem C19_module_for_client_witness :
    (GetModuleForClient exWardenEnv).CompressedSize = 4 ∧
    (GetModuleForClient exWardenEnv).Key = exModule.ModuleKey ∧
    (GetModuleForClient exWardenEnv).Id = exWardenEnv.MD5 [0x4D, 0x5A, 0x90, 0x00] :=
  ⟨(C19_module_for_client exWardenEnv).1, (C19_module_for_client exWardenEnv).2.2.2.2.1 rfl,
    (C19_module_for_client exWardenEnv).2.2.2.2.2.1⟩

/-- C18, counterexample: after `Init`, a validating hash reply rotates the keys and
`RequestData` then sends a payload of four bytes, so the outbound cipher state
is at position 4; a further validating hash reply leaves the keys but sets both
cipher states back to the initial state of their key: the outbound cipher state
is at position 0 again and differs from the one before the call. -/
theorem C18_counterexample :
    ∃ s2 s3,
      runCalls exWardenEnv (exReqEnv exEmptyMgr)
        [.hashResult 10 exHashReply, .requestData 20 (fun _ => 0)] exInitSession = .ok s2 ∧
      s2._inputKey = exModule.ClientKeySeed ∧ s2._outputKey = exModule.ServerKeySeed ∧
      s2._outputCrypto.i = 4 ∧
      Call.run exWardenEnv (exReqEnv exEmptyMgr) (.hashResult 30 exHashReply) s2 = .ok s3 ∧
      s3._inputKey = s2._inputKey ∧ s3._outputKey = s2._outputKey ∧
      s3._outputCrypto.i = 0 ∧ s3._outputCrypto = SARC4.Init s3._outputKey ∧
      s3._outputCrypto ≠ s2._outputCrypto :=
  ⟨_, _, rfl, rfl, rfl, by decide, rfl, rfl, rfl, by decide, rfl,
    fun h => absurd (congrArg SARC4.i h) (by decide)⟩

/-- C18: in every sequence of `HandleHashResult`, `RequestData` and `HandleData`
calls on a session, the key values either are those before the sequence or are
the first 16 bytes of the module's two key seeds, so once a validating reply has
set them no later call gives them another value; `RequestData` leaves both keys
and the inbound cipher state and only advances the outbound cipher state over
the payload it sends; `HandleData` leaves the session; `HandleHashResult` either
leaves the session or sets the keys to the seeds and both cipher states to the
initial state of their key; and every validating reply, not only the first,
does the latter, whatever the cipher states before. -/
theorem C18_rotation_not_guarded (env : WardenEnv) (req : RequestEnv) :
    (∀ (cs : List Call) (w w' : Session), runCalls env req cs w = .ok w' →
      (w'._inputKey = w._inputKey ∧ w'._outputKey = w._outputKey) ∨
      (w'._inputKey = env.Module.ClientKeySeed.take 16 ∧
        w'._outputKey = env.Module.ServerKeySeed.take 16)) ∧
    (∀ (cs : List Call) (w w' : Session),
      w._inputKey = env.Module.ClientKeySeed.take 16 →
      w._outputKey = env.Module.ServerKeySeed.take 16 →
      runCalls env req cs w = .ok w' →
        w'._inputKey = w._inputKey ∧ w'._outputKey = w._outputKey) ∧
    (∀ (gameTime : Nat) (rand32 : Nat → Nat) (w w' : Session),
      Call.run env req (.requestData gameTime rand32) w = .ok w' →
        w'._inputKey = w._inputKey ∧ w'._outputKey = w._outputKey ∧
        w'._inputCrypto = w._inputCrypto ∧
        ∃ p, RequestData req gameTime rand32 w = .ok p ∧
          w'._outputCrypto = (w._outputCrypto.UpdateData p.2.storage).1) ∧
    (∀ (ticksNow : Nat) (buff : ByteBuffer) (w w' : Session),
      Call.run env req (.handleData ticksNow buff) w = .ok w' → w' = w) ∧
    (∀ (gameTime : Nat) (buff : ByteBuffer) (w w' : Session),
      Call.run env req (.hashResult gameTime buff) w = .ok w' →
        w' = w ∨
        (w'._inputKey = env.Module.ClientKeySeed.take 16 ∧
          w'._outputKey = env.Module.ServerKeySeed.take 16 ∧
          w'._inputCrypto = SARC4.Init w'._inputKey ∧
          w'._outputCrypto = SARC4.Init w'._outputKey)) ∧
    (∀ (gameTime : Nat) (buff : ByteBuffer) (w : Session),
      1 + env.Module.ClientKeySeedHash.length ≤ buff.storage.length →
      (buff.storage.drop 1).take env.Module.ClientKeySeedHash.length =
        env.Module.ClientKeySeedHash →
      ∃ w', Call.run env req (.hashResult gameTime buff) w = .ok w' ∧
        w'._inputKey = env.Module.ClientKeySeed.take 16 ∧
        w'._outputKey = env.Module.ServerKeySeed.take 16 ∧
        w'._inputCrypto = SARC4.Init w'._inputKey ∧
        w'._outputCrypto = SARC4.Init w'._outputKey) := by
  refine ⟨fun cs w w' h => runCalls_keys cs h, ?_, ?_, ?_, ?_, ?_⟩
  · intro cs w w' h1 h2 h
    rcases runCalls_keys cs h with h3 | ⟨h3, h4⟩
    · exact h3
    · exact ⟨h3.trans h1.symm, h4.trans h2.symm⟩
  · intro gameTime rand32 w w' h
    simp only [Call.run] at h
    cases hr : RequestDataSend req gameTime rand32 w with
    | error e => rw [hr] at h; cases h
    | ok r =>
      rw [hr] at h
      cases h
      obtain ⟨h1, h2, h3, p, hp, h4, -⟩ := RequestDataSend_keys hr
      exact ⟨h1, h2, h3, p, hp, h4⟩
  · intro ticksNow buff w w' h
    simp only [Call.run] at h
    cases hr : HandleData req.mgr env.BuildChecksum ticksNow w buff with
    | error e => rw [hr] at h; cases h
    | ok r => rw [hr] at h; cases h; rfl
  · intro gameTime buff w w' h
    simp only [Call.run] at h
    cases hr : HandleHashResult env.Module gameTime w buff with
    | error e => rw [hr] at h; cases h
    | ok r =>
      rw [hr] at h
      cases h
      rcases HandleHashResult_cases hr with ⟨h1, -⟩ | ⟨h1, -⟩
      · exact Or.inl h1
      · exact Or.inr (by rw [h1]; exact ⟨rfl, rfl, rfl, rfl⟩)
  · intro gameTime buff w hlen hvalid
    have hv := HandleHashResult_valid env.Module gameTime w buff hlen hvalid
    exact ⟨{ w with _inputKey := env.Module.ClientKeySeed.take 16
                    _outputKey := env.Module.ServerKeySeed.take 16
                    _inputCrypto := SARC4.Init (env.Module.ClientKeySeed.take 16)
                    _outputCrypto := SARC4.Init (env.Module.ServerKeySeed.take 16)
                    _previousTimestamp := gameTime % 2 ^ 32 },
      by simp only [Call.run, hv], rfl, rfl, rfl, rfl⟩

/-- C18, witness: on a session whose outbound cipher state has advanced over four
bytes, the validating reply `exHashReply` sets both keys to the module's key
seeds and both cipher states to the initial state of their key; and after
`Init`, a validating reply, a `RequestData` and a further validating reply the
keys are the module's key seeds. -/
theorem C18_rotation_not_guarded_witness :
    (∃ w', Call.run exWardenEnv (exReqEnv exEmptyMgr) (.hashResult 30 exHashReply)
        (EncryptData exInitSession [1, 2, 3, 4]).1 = .ok w' ∧
      w'._inputKey = exModule.ClientKeySeed.take 16 ∧
      w'._outputKey = exModule.ServerKeySeed.take 16 ∧
      w'._inputCrypto = SARC4.Init w'._inputKey ∧
      w'._outputCrypto = SARC4.Init w'._outputKey) ∧
    ∃ w', runCalls exWardenEnv (exReqEnv exEmptyMgr)
        [.hashResult 10 exHashReply, .requestData 20 (fun _ => 0), .hashResult 30 exHashReply]
        exInitSession = .ok w' ∧
      ((w'._inputKey = exInitSession._inputKey ∧ w'._outputKey = exInitSession._outputKey) ∨
        (w'._inputKey = exModule.ClientKeySeed.take 16 ∧
          w'._outputKey = exModule.ServerKeySeed.take 16)) :=
  ⟨(C18_rotation_not_guarded exWardenEnv (exReqEnv exEmptyMgr)).2.2.2.2.2 30 exHashReply _
      (by decide) (by decide),
    _, rfl, (C18_rotation_not_guarded exWardenEnv (exReqEnv exEmptyMgr)).1
      [.hashResult 10 exHashReply, .requestData 20 (fun _ => 0), .hashResult 30 exHashReply]
      exInitSession _ rfl⟩

/-- C20: in the message `InitializeModule` builds, each checksum is computed
before the fields it should cover are assigned: `CheckSumm1` is the checksum of
the 20 bytes the memory of `Request` held at `Unk1` before any assignment, not
of the 20 bytes sent after it; `CheckSumm2` is the checksum of the 8 bytes that
start at `Unk2`, a field of the first sub-block (`Unk2`, `Type`,
`String_library1`, `Function1[0]` and the low byte of `Function1[1]`), not of
the 8 bytes sent after it; `CheckSumm3` is the checksum of the 8 bytes the
memory held at `Unk5` before their assignment.  With the memory zero before the
assignments and the byte sum as checksum, none of the three checksum fields is
the checksum of the bytes that follow it. -/
theorem C20_checksums_precede_fields :
    (∀ (env : WardenEnv) (uninit : Memory) (w : Session),
      ((InitializeModule env uninit w).1.drop WardenInitModuleRequest.CheckSumm1).take 4 =
        toLE 4 (env.BuildChecksum (peek uninit WardenInitModuleRequest.Unk1 20)) ∧
      ((InitializeModule env uninit w).1.drop WardenInitModuleRequest.Unk1).take 20 =
        [1, 0, 1, 0, 0xF0, 0x85, 0x24, 0x00, 0xF0, 0x87, 0x24, 0x00, 0x60, 0x84, 0x24, 0x00,
          0x30, 0x87, 0x24, 0x00] ∧
      ((InitializeModule env uninit w).1.drop WardenInitModuleRequest.CheckSumm2).take 4 =
        toLE 4 (env.BuildChecksum
          (((InitializeModule env uninit w).1.drop WardenInitModuleRequest.Unk2).take 8)) ∧
      ((InitializeModule env uninit w).1.drop WardenInitModuleRequest.Unk2).take 8 =
        [0, 1, 0, 0xF0, 0x85, 0x24, 0x00, 0xF0] ∧
      ((InitializeModule env uninit w).1.drop WardenInitModuleRequest.Unk3).take 8 =
        [4, 0, 0, 0x40, 0x9D, 0x41, 0x00, 1] ∧
      ((InitializeModule env uninit w).1.drop WardenInitModuleRequest.CheckSumm3).take 4 =
        toLE 4 (env.BuildChecksum (peek uninit WardenInitModuleRequest.Unk5 8)) ∧
      ((InitializeModule env uninit w).1.drop WardenInitModuleRequest.Unk5).take 8 =
        [1, 1, 0, 0x20, 0xAE, 0x46, 0x00, 1]) ∧
    (exInitMessage.drop WardenInitModuleRequest.CheckSumm1).take 4 ≠
      toLE 4 (exChecksum ((exInitMessage.drop WardenInitModuleRequest.Unk1).take 20)) ∧
    (exInitMessage.drop WardenInitModuleRequest.CheckSumm2).take 4 ≠
      toLE 4 (exChecksum ((exInitMessage.drop WardenInitModuleRequest.Unk3).take 8)) ∧
    (exInitMessage.drop WardenInitModuleRequest.CheckSumm3).take 4 ≠
      toLE 4 (exChecksum ((exInitMessage.drop WardenInitModuleRequest.Unk5).take 8)) ∧
    ¬ ChecksumsCoverBlocks exChecksum exInitMessage := by
  refine ⟨?_, by decide, by decide, by decide, fun h => absurd h.2.1 (by decide)⟩
  intro env uninit w
  rw [InitializeModule_message]
  simp [toLE, WardenInitModuleRequest.CheckSumm1, WardenInitModuleRequest.Unk1,
    WardenInitModuleRequest.Unk2, WardenInitModuleRequest.CheckSumm2,
    WardenInitModuleRequest.Unk3, WardenInitModuleRequest.CheckSumm3,
    WardenInitModuleRequest.Unk5]

/-- C21: for every byte sequence `B` and every key, when the outbound cipher state
of the session is the state initialised from the key, a cipher state initialised
from the same key decrypts what `EncryptData` made of `B` to `B`, and is then in
the state the outbound cipher is in, so the next message round-trips as well;
the same holds for any two equal cipher states, for the packet of
`RequestData` against its payload and for the packet of `InitializeModule`
against its message. -/
theorem C21_encrypt_decrypt_round_trip (key B : List Nat) (w : Session)
    (hw : w._outputCrypto = SARC4.Init key) :
    ((SARC4.Init key).UpdateData (EncryptData w B).2).2 = B ∧
    ((SARC4.Init key).UpdateData (EncryptData w B).2).1 = (EncryptData w B).1._outputCrypto ∧
    (∀ (w' : Session), w'._inputCrypto = w._outputCrypto →
      (DecryptData w' (EncryptData w B).2).2 = B) ∧
    (∀ (env : RequestEnv) (gameTime : Nat) (rand32 : Nat → Nat) (q : Session × List Nat),
      RequestDataSend env gameTime rand32 w = .ok q →
        ∃ p, RequestData env gameTime rand32 w = .ok p ∧
          ((SARC4.Init key).UpdateData q.2).2 = p.2.storage) ∧
    (∀ (env : WardenEnv) (uninit : Memory),
      ((SARC4.Init key).UpdateData (InitializeModule env uninit w).2.2).2 =
        (InitializeModule env uninit w).1) := by
  refine ⟨?_, ?_, ?_, ?_, ?_⟩
  · show ((SARC4.Init key).UpdateData (w._outputCrypto.UpdateData B).2).2 = B
    rw [hw]; exact UpdateData_roundtrip B _
  · show ((SARC4.Init key).UpdateData (w._outputCrypto.UpdateData B).2).1 =
      (w._outputCrypto.UpdateData B).1
    rw [hw]; exact UpdateData_state B _
  · intro w' hw'
    show (w'._inputCrypto.UpdateData (w._outputCrypto.UpdateData B).2).2 = B
    rw [hw']; exact UpdateData_roundtrip B _
  · intro env gameTime rand32 q hq
    obtain ⟨-, -, -, p, hp, -, h2⟩ := RequestDataSend_keys hq
    refine ⟨p, hp, ?_⟩
    rw [h2, hw]; exact UpdateData_roundtrip _ _
  · intro env uninit
    show ((SARC4.Init key).UpdateData (w._outputCrypto.UpdateData _).2).2 = _
    rw [hw]; exact UpdateData_roundtrip _ _

/-- C21, witness: the session after `Init`, whose outbound cipher state is the
state initialised from the outbound key, and the bytes `[1, 2, 3]`. -/
theorem C21_encrypt_decrypt_round_trip_witness :
    exInitSession._outputCrypto = SARC4.Init exInitSession._outputKey ∧
    ((SARC4.Init exInitSession._outputKey).UpdateData
      (EncryptData exInitSession [1, 2, 3]).2).2 = [1, 2, 3] :=
  ⟨rfl,
    (C21_encrypt_decrypt_round_trip exInitSession._outputKey [1, 2, 3] exInitSession rfl).1⟩

/-- C28: when the reply holds the 20 bytes that are compared and they differ from
the module's hash, `HandleHashResult` returns with the session unchanged (the
inbound key, the outbound key, both cipher states and the previous-response
timestamp are those before the call), with the read position of the buffer at
its write position and with one `Penalty` call without a check. -/
theorem C28_failed_hash_keeps_session (md : ModuleData) (gameTime : Nat) (w : Session)
    (buff : ByteBuffer)
    (hlen : 1 + md.ClientKeySeedHash.length ≤ buff.storage.length)
    (hne : (buff.storage.drop 1).take md.ClientKeySeedHash.length ≠ md.ClientKeySeedHash) :
    ∃ p, HandleHashResult md gameTime w buff = .ok p ∧ p.1 = w ∧
      p.1._inputKey = w._inputKey ∧ p.1._outputKey = w._outputKey ∧
      p.1._inputCrypto = w._inputCrypto ∧ p.1._outputCrypto = w._outputCrypto ∧
      p.1._previousTimestamp = w._previousTimestamp ∧
      p.2.1 = buff.setRpos buff.wpos ∧ p.2.1.rpos = buff.wpos ∧
      p.2.1.storage = buff.storage ∧ p.2.2 = [.noCheck] := by
  have h1 : md.ClientKeySeedHash.length ≤ (buff.storage.drop 1).length := by
    rw [List.length_drop]; omega
  have hm : memcmpNe ((buff.setRpos buff.wpos).storage.drop 1) md.ClientKeySeedHash
      md.ClientKeySeedHash.length = .ok true := by
    rw [show (buff.setRpos buff.wpos).storage = buff.storage from rfl,
      memcmpNe_ok h1 (le_refl _), List.take_length]
    simpa using hne
  refine ⟨(w, buff.setRpos buff.wpos, [.noCheck]), ?_, rfl, rfl, rfl, rfl, rfl, rfl, rfl, rfl,
    rfl, rfl⟩
  unfold HandleHashResult
  simp only [hm]

/-- C28, witness: the reply carries the hash with its last byte changed; the
session after `Init` is left as it is. -/
theorem C28_failed_hash_keeps_session_witness :
    ∃ p, HandleHashResult exModule 10 exInitSession
        ⟨0x04 :: (exModule.ClientKeySeedHash.take 19 ++ [0]), 1, 21⟩ = .ok p ∧
      p.1 = exInitSession ∧ p.2.1.rpos = 21 ∧ p.2.2 = [.noCheck] := by
  obtain ⟨p, h, h1, -, -, -, -, -, -, h2, -, h3⟩ :=
    C28_failed_hash_keeps_session exModule 10 exInitSession
      ⟨0x04 :: (exModule.ClientKeySeedHash.take 19 ++ [0]), 1, 21⟩ (by decide) (by decide)
  exact ⟨p, h, h1, h2, h3⟩

/-- C29: `HandleData` recomputes the checksum over `Length` bytes from the read
position after the 6-byte header without comparing `Length` with the bytes that
are left: for every payload whose header is present and whose `Length` exceeds
the number of bytes after the header the read runs past the end of the payload.
A payload of six bytes whose `Length` field is 1 is such a payload. -/
theorem C29_checksum_region_unchecked :
    (∀ (mgr : WardenCheckMgr) (cs : List Nat → Nat) (now : Nat) (w : Session)
       (buff : ByteBuffer),
      buff.rpos + 6 ≤ buff.storage.length →
      buff.storage.length < buff.rpos + 6 + hdrLength buff →
        HandleData mgr cs now w buff = .error .outOfBounds) ∧
    hdrLength ⟨[1, 0, 0, 0, 0, 0], 0, 6⟩ = 1 ∧
    HandleData exMemMgr exChecksum 0 (exSession [7]) ⟨[1, 0, 0, 0, 0, 0], 0, 6⟩ =
      .error .outOfBounds :=
  ⟨fun mgr cs now w _ h6 hout => HandleData_outside mgr cs now w h6 hout, rfl, rfl⟩

/-- C23: in the payload of a call of `RequestData` that returns, the last byte is
the mask byte, the first byte of the inbound key (taken as an 8-bit value); the
tag of the timing probe and the tag that opens the section of every in-flight
check, combined by exclusive or with the mask byte, are the type tag of
`TIMING_CHECK` and the type tag of the check (as 8-bit values; the tag itself
when it is below 256). -/
theorem C23_mask_byte_recovers_tags (env : RequestEnv) (gameTime : Nat) (rand32 : Nat → Nat)
    (w : Session) (p : Session × ByteBuffer) (h : RequestData env gameTime rand32 w = .ok p) :
    p.2.storage.getLast? = some (w._inputKey.headD 0 % 256) ∧
    (∀ (k : Nat) (rest : List Nat), w._inputKey = k :: rest → k < 256 →
      p.2.storage.getLast? = some k) ∧
    (∃ probeTag, p.2.storage = [env.WARDEN_SMSG_CHEAT_CHECKS_REQUEST % 256] ++
        prepass (stringChecks env.mgr w.build (otherDrawn env w)) ++ [0, probeTag] ++
        sectionsFrom env (xorByteOf w) (fun t => (1 + t) % 256) (fun m => toLE 4 (rand32 m)) 0 0
          (definitions env.mgr w.build p.1._currentChecks) ++ [xorByteOf w] ∧
      probeTag ^^^ xorByteOf w = env.tagByte .TIMING_CHECK % 256) ∧
    (∀ (idx : Nat → Nat) (seed : Nat → List Nat) (k m : Nat) (wd : WardenCheck)
       (rest : List WardenCheck),
      ∃ tag, sectionsFrom env (xorByteOf w) idx seed k m (wd :: rest) =
          tag :: (sectionBody env wd (idx k) (seed m) ++
            sectionsFrom env (xorByteOf w) idx seed (if carriesString wd.Type_ then k + 1 else k)
              (if wd.Type_ = .MODULE_CHECK then m + 1 else m) rest) ∧
        tag ^^^ xorByteOf w = env.tagByte wd.Type_ % 256) ∧
    (∀ T, env.tagByte T < 256 →
      ((env.tagByte T ^^^ xorByteOf w) % 256) ^^^ xorByteOf w = env.tagByte T) := by
  obtain ⟨-, -, -, hp⟩ := RequestData_payload h
  have hlast : p.2.storage.getLast? = some (xorByteOf w) := by
    rw [hp, List.getLast?_concat]
  refine ⟨hlast, ?_, ⟨_, hp, xor_mod_unmask _ _ (xorByteOf_lt w)⟩, ?_, ?_⟩
  · intro k rest hk hlt
    rw [hlast]
    simp [xorByteOf, hk, Nat.mod_eq_of_lt hlt]
  · intro idx seed k m wd rest
    exact ⟨_, rfl, xor_mod_unmask _ _ (xorByteOf_lt w)⟩
  · intro T hT
    rw [xor_mod_unmask _ _ (xorByteOf_lt w), Nat.mod_eq_of_lt hT]

/-- C23, witness: the payload of the cycle on `exMixedMgr` ends with 0x4D, the
first byte of the inbound key `[0x4D, 0x01]`. -/
theorem C23_mask_byte_recovers_tags_witness :
    ∃ p, RequestData (exReqEnv exMixedMgr) 10 (fun _ => 0) (exPools [] [] []) = .ok p ∧
      p.2.storage.getLast? = some 0x4D ∧
      (0x1A ^^^ 0x4D = exTagByte .TIMING_CHECK ∧ 0xBE ^^^ 0x4D = exTagByte .MEM_CHECK ∧
        0xC6 ^^^ 0x4D = exTagByte .LUA_STR_CHECK ∧ 0xFF ^^^ 0x4D = exTagByte .PAGE_CHECK_A) :=
  ⟨_, rfl,
    (C23_mask_byte_recovers_tags (exReqEnv exMixedMgr) 10 (fun _ => 0) (exPools [] [] []) _
      rfl).2.1 0x4D [0x01] rfl (by decide),
    by decide⟩

/-- C25: for a module-integrity check, the iteration of the tag loop of
`RequestData` returns; it appends the masked tag, the four little-endian bytes
of the value `rand32` returned and the digest `HMACSHA1` computes with these
four bytes as the key over the string of the check; it draws one random value
and leaves the string index. -/
theorem C25_module_digest_keyed_by_seed (env : RequestEnv) (build xorByte : Nat)
    (rand32 : Nat → Nat) (st : TagState) (id : Nat) (wd : WardenCheck)
    (hwd : env.mgr.GetWardenDataById build id = some wd) (hT : wd.Type_ = .MODULE_CHECK) :
    ∃ st' seed, tagStep env build xorByte rand32 st id = .ok st' ∧
      seed = toLE 4 (rand32 st.rands) ∧ seed.length = 4 ∧
      st'.buff.storage = st.buff.storage ++ [(env.tagByte .MODULE_CHECK ^^^ xorByte) % 256] ++
        seed ++ env.HMACSHA1 seed wd.Str ∧
      st'.rands = st.rands + 1 ∧ st'.index = st.index := by
  refine ⟨{ st with
      buff := ((st.buff.append [(env.tagByte wd.Type_ ^^^ xorByte) % 256]).append
        (toLE 4 (rand32 st.rands))).append (env.HMACSHA1 (toLE 4 (rand32 st.rands)) wd.Str),
      rands := st.rands + 1 }, toLE 4 (rand32 st.rands), ?_, rfl, by simp [toLE], ?_, rfl, rfl⟩
  · simp only [tagStep, hwd, hT]
  · simp [ByteBuffer.append, hT]

/-- C25, witness: the module-integrity check 8 of `exModuleMgr` with the random
value 0x04030201: the section is the masked tag, the seed `[1, 2, 3, 4]` and the
digest of the stand-in keyed hash, the key followed by the length of the
string. -/
theorem C25_module_digest_keyed_by_seed_witness :
    ∃ st', tagStep (exReqEnv exModuleMgr) 5875 0x4D (fun _ => 0x04030201)
        ⟨⟨[], 0, 0⟩, 1, 0⟩ 8 = .ok st' ∧
      st'.buff.storage = [0x94] ++ [1, 2, 3, 4] ++ [1, 2, 3, 4, 2] ∧
      st'.rands = 1 ∧ st'.index = 1 := by
  obtain ⟨st', seed, h, hs, -, hb, hr, hi⟩ :=
    C25_module_digest_keyed_by_seed (exReqEnv exModuleMgr) 5875 0x4D (fun _ => 0x04030201)
      ⟨⟨[], 0, 0⟩, 1, 0⟩ 8 (exModuleCheck 8) rfl rfl
  subst hs
  exact ⟨st', h, hb, hr, hi⟩

/-- C24, counterexample: the Lua string check 3 of the catalog carries the string
`exLongStr` of 256 bytes; the pre-pass emits the prefix byte 0 and then the 256
bytes of the string. -/
theorem C24_counterexample :
    exLongStr.length = 256 ∧
    ∃ p, RequestData (exReqEnv (exStrMgr exLongStr)) 10 (fun _ => 0) (exPools [] [] []) = .ok p ∧
      p.1._currentChecks = [3] ∧
      p.2.storage = [0x02] ++ ([0] ++ exLongStr) ++ [0x00, 0x1A] ++ [0xC6, 1] ++ [0x4D] := by
  have hlen : exLongStr.length = 256 := List.length_replicate _ _
  have key : ∀ str : List Nat, ∃ p,
      RequestData (exReqEnv (exStrMgr str)) 10 (fun _ => 0) (exPools [] [] []) = .ok p ∧
        p.1._currentChecks = [3] ∧
        p.2.storage = [0x02] ++ ([str.length % 256] ++ str) ++ [0x00, 0x1A] ++ [0xC6, 1] ++
          [0x4D] := by
    intro str
    obtain ⟨buff, hb⟩ := RequestData_session (exReqEnv (exStrMgr str)) 10 (fun _ => 0)
      (exPools [] [] []) (fun id _ => Option.some_ne_none _)
    obtain ⟨-, hc, -, hp⟩ := RequestData_payload hb
    have hm : memDrawn (exReqEnv (exStrMgr str)) (exPools [] [] []) = [] := rfl
    have ho : otherDrawn (exReqEnv (exStrMgr str)) (exPools [] [] []) = [3] := rfl
    refine ⟨_, hb, by rw [hc, hm, ho]; rfl, ?_⟩
    rw [hp, hc, hm, ho]
    simp [prepass, stringChecks, lengthPrefixed, timingProbe, xorByteOf, sectionsFrom,
      sectionBody, definitions, carriesString, exReqEnv, exStrMgr, exPools, exTagByte]
  obtain ⟨p, h1, h2, h3⟩ := key exLongStr
  refine ⟨hlen, p, h1, h2, ?_⟩
  rw [h3, hlen]

/-- C24 (amended): in the payload of a call of `RequestData` that returns, the
strings of
the string-carrying checks drawn from the secondary pool follow the marker byte
in draw order, each as one prefix byte followed by all bytes of the string; the
prefix byte is the byte length of the string modulo 256, which for each string
of at most 255 bytes is its byte length, whatever the lengths of the other
strings. -/
theorem C24_strings_length_prefixed (env : RequestEnv) (gameTime : Nat) (rand32 : Nat → Nat)
    (w : Session) (p : Session × ByteBuffer) (h : RequestData env gameTime rand32 w = .ok p) :
    p.2.storage = [env.WARDEN_SMSG_CHEAT_CHECKS_REQUEST % 256] ++
      ((stringChecks env.mgr w.build (otherDrawn env w)).map
        fun wd => (wd.Str.length % 256) :: wd.Str).flatten ++
      timingProbe env (xorByteOf w) ++
      sectionsFrom env (xorByteOf w) (fun t => (1 + t) % 256) (fun m => toLE 4 (rand32 m)) 0 0
        (definitions env.mgr w.build p.1._currentChecks) ++
      [xorByteOf w] ∧
    (∀ wd ∈ stringChecks env.mgr w.build (otherDrawn env w), wd.Str.length ≤ 255 →
      (wd.Str.length % 256) :: wd.Str = wd.Str.length :: wd.Str) ∧
    (∀ (before after : List WardenCheck) (wd : WardenCheck),
      stringChecks env.mgr w.build (otherDrawn env w) = before ++ wd :: after →
        p.2.storage = ([env.WARDEN_SMSG_CHEAT_CHECKS_REQUEST % 256] ++ prepass before) ++
          ((wd.Str.length % 256) :: wd.Str) ++
          (prepass after ++ timingProbe env (xorByteOf w) ++
            sectionsFrom env (xorByteOf w) (fun t => (1 + t) % 256)
              (fun m => toLE 4 (rand32 m)) 0 0
              (definitions env.mgr w.build p.1._currentChecks) ++
            [xorByteOf w])) := by
  obtain ⟨-, -, -, hp⟩ := RequestData_payload h
  refine ⟨by rw [hp, prepass_flatten], ?_, ?_⟩
  · intro wd _ hlen
    rw [Nat.mod_eq_of_lt (by omega)]
  · intro before after wd hs
    rw [hp, hs, prepass_append]
    simp [prepass, lengthPrefixed, List.append_assoc]

/-- C24, witness: the Lua string checks 5 and 3 of `exMixedMgr` carry strings of
3 bytes; the pre-pass emits `[3, 0x61, 0x62, 5]` and `[3, 0x61, 0x62, 3]`. -/
theorem C24_strings_length_prefixed_witness :
    ∃ p, RequestData (exReqEnv exMixedMgr) 10 (fun _ => 0) (exPools [] [3, 5] []) = .ok p ∧
      p.2.storage = [0x02] ++ [[3, 0x61, 0x62, 5], [3, 0x61, 0x62, 3]].flatten ++ [0x00, 0x1A] ++
        ([0xBE, 0, 0x00, 0x10, 0, 0, 4] ++ [0xBE, 0, 0x00, 0x10, 0, 0, 4] ++ [0xC6, 1] ++
          [0xC6, 2]) ++ [0x4D] :=
  ⟨_, rfl,
    (C24_strings_length_prefixed (exReqEnv exMixedMgr) 10 (fun _ => 0) (exPools [] [3, 5] []) _
      rfl).1⟩

/-- C22: two runs of `HandleData` on sessions with the same build and the same
in-flight list, whatever their request timestamps and whatever the clock, and
on two responses with a valid checksum and a non-zero timing flag that carry the
same bytes after the timing answer (so they may differ in the 4-byte tick
count) end alike: both return or both fail in the same way, and when they
return the recorded failing check id and the `Penalty` calls are the same. -/
theorem C22_ticks_do_not_decide (mgr : WardenCheckMgr) (cs : List Nat → Nat)
    (now1 now2 : Nat) (w1 w2 : Session) (buff1 buff2 : ByteBuffer)
    (hbuild : w1.build = w2.build) (hcur : w1._currentChecks = w2._currentChecks)
    (hv1 : ValidResponse cs buff1) (hv2 : ValidResponse cs buff2)
    (hbody : bodyAt buff1 = bodyAt buff2) :
    (HandleData mgr cs now1 w1 buff1).map (fun r => (r.checkFailed, r.penalty)) =
      (HandleData mgr cs now2 w2 buff2).map (fun r => (r.checkFailed, r.penalty)) := by
  rw [HandleData_valid mgr now1 w1 hv1, HandleData_valid mgr now2 w2 hv2, hbuild, hcur]
  have hview : LoopState.view ⟨buff1.setRpos (buff1.rpos + 11), 0, timingLog now1 w1 buff1⟩ =
      LoopState.view ⟨buff2.setRpos (buff2.rpos + 11), 0, timingLog now2 w2 buff2⟩ := by
    simp only [view_mk, atCursor_setRpos]
    unfold bodyAt at hbody
    rw [hbody]
  have hl := checkLoop_view mgr w2.build w2._currentChecks _ _ hview
  cases h1 : checkLoop mgr w2.build ⟨buff1.setRpos (buff1.rpos + 11), 0, timingLog now1 w1 buff1⟩
      w2._currentChecks with
  | error e1 =>
    cases h2 : checkLoop mgr w2.build
        ⟨buff2.setRpos (buff2.rpos + 11), 0, timingLog now2 w2 buff2⟩ w2._currentChecks with
    | error e2 =>
      rw [h1, h2] at hl
      simp only [Except.map, Except.error.injEq] at hl
      simp only [Except.map, hl]
    | ok b => rw [h1, h2] at hl; simp [Except.map] at hl
  | ok a =>
    cases h2 : checkLoop mgr w2.build
        ⟨buff2.setRpos (buff2.rpos + 11), 0, timingLog now2 w2 buff2⟩ w2._currentChecks with
    | error e2 => rw [h1, h2] at hl; simp [Except.map] at hl
    | ok b =>
      rw [h1, h2] at hl
      simp only [Except.map, Except.ok.injEq] at hl
      simp only [Except.map, Except.ok.injEq]
      exact finishCycle_view mgr w2.build a b hl

/-- C22, witness: the memory-region check 7 fails in two responses that differ
in the tick count (0x00000010 and 0x7FFFFFF0), read at different clock values
by sessions with different request timestamps; both runs record the check 7
and call `Penalty` for it. -/
theorem C22_ticks_do_not_decide_witness :
    (HandleData exMemMgr exChecksum 2000 (exSession [7])
        (exResponse [1, 0x10, 0, 0, 0, 0, 1, 2, 3, 5])).map
        (fun r => (r.checkFailed, r.penalty)) =
      (HandleData exMemMgr exChecksum 5 { exSession [7] with _serverTicks := 900000 }
        (exResponse [1, 0xF0, 0xFF, 0xFF, 0x7F, 0, 1, 2, 3, 5])).map
        (fun r => (r.checkFailed, r.penalty)) ∧
    (HandleData exMemMgr exChecksum 2000 (exSession [7])
        (exResponse [1, 0x10, 0, 0, 0, 0, 1, 2, 3, 5])).map
        (fun r => (r.checkFailed, r.penalty)) =
      .ok (7, [.forCheck 7 (some (exMemCheck 7))]) :=
  ⟨C22_ticks_do_not_decide exMemMgr exChecksum 2000 5 (exSession [7])
      { exSession [7] with _serverTicks := 900000 }
      (exResponse [1, 0x10, 0, 0, 0, 0, 1, 2, 3, 5])
      (exResponse [1, 0xF0, 0xFF, 0xFF, 0x7F, 0, 1, 2, 3, 5]) rfl rfl (by decide) (by decide) rfl,
    rfl⟩

/-- C26, counterexample: two cycles in which `HandleData` follows `RequestData`
on the same session with the same catalog and decodes no result for an in-flight
id.  On `exProcMgr` the drawn id 6 is typed `PROC_CHECK`: the request carries
its section, opened by the masked tag 0x33, and `HandleData`, on a response with
a valid checksum and a non-zero timing flag, reaches the end of its body with no
`RESULT` line and the cursor still at 11.  On `exFullMgr` the ids 2, 1, 5 and 4
are in flight and the response has a valid checksum and the timing flag 0x00:
`HandleData` returns after the flag and decodes none of the four results. -/
theorem C26_counterexample :
    (∃ p r, RequestData (exReqEnv exProcMgr) 10 (fun _ => 0) (exPools [] [] []) = .ok p ∧
      p.1._currentChecks = [6] ∧
      p.2.storage = [0x02] ++ [0x00, 0x1A] ++ [0x33] ++ [0x4D] ∧
      hdrChecksum (exResponse [1, 0x10, 0, 0, 0, 0x00]) =
        exChecksum (covered (exResponse [1, 0x10, 0, 0, 0, 0x00])) ∧
      timingFlag (exResponse [1, 0x10, 0, 0, 0, 0x00]) = 1 ∧
      HandleData exProcMgr exChecksum 2000 p.1 (exResponse [1, 0x10, 0, 0, 0, 0x00]) = .ok r ∧
      r.completed = true ∧ resultRecords r.log = [] ∧ r.buff.rpos = 11) ∧
    (∃ p r, RequestData (exReqEnv exFullMgr) 10 (fun _ => 0) (exPools [] [] []) = .ok p ∧
      p.1._currentChecks = [2, 1, 5, 4] ∧
      hdrChecksum (exResponse [0, 0x10, 0, 0, 0, 1, 1, 1, 0xE9]) =
        exChecksum (covered (exResponse [0, 0x10, 0, 0, 0, 1, 1, 1, 0xE9])) ∧
      HandleData exFullMgr exChecksum 2000 p.1
        (exResponse [0, 0x10, 0, 0, 0, 1, 1, 1, 0xE9]) = .ok r ∧
      r.completed = false ∧ resultRecords r.log = [] ∧ r.buff.rpos = 7) :=
  ⟨⟨_, _, rfl, rfl, rfl, by decide, by decide, rfl, rfl, rfl, rfl⟩,
    ⟨_, _, rfl, rfl, by decide, rfl, rfl, rfl, rfl⟩⟩

/-- C26 (amended): when `RequestData` returns and `HandleData` then runs on the
session it left, with the same catalog, on a response with a valid checksum and
a NON-ZERO timing flag: the in-flight list is the one the draws built, and the
request carries one section per in-flight id, in list order, opened by the
masked tag of the type of its definition.  Every run of `HandleData` that
returns has read the results one after the other from byte 11 of the response:
the result of an entry starts where the results of the entries before it end,
its verdict is the one the rule of the type of its definition gives the bytes
there, and the cursor ends behind the last result; an entry whose type has no
`case` label (`TIMING_CHECK`, `PROC_CHECK`) gets no result.  When the catalog
holds what each in-flight entry looks up (a type with a `case` label included)
and the response holds the bytes of every entry, `HandleData` returns with
exactly one result per in-flight id, in list order, and the type of the i-th
result is the type whose masked tag opens the i-th section of the request:
removing the mask from that tag gives the tag byte of that type.  `HandleData`
leaves the session, and with it the in-flight list, as `RequestData` left
it. -/
theorem C26_response_follows_request (env : RequestEnv) (wenv : WardenEnv) (gameTime : Nat)
    (rand32 : Nat → Nat) (w : Session) (p : Session × ByteBuffer) (cs : List Nat → Nat)
    (now : Nat) (buff : ByteBuffer)
    (hreq : RequestData env gameTime rand32 w = .ok p) (hv : ValidResponse cs buff) :
    p.1.build = w.build ∧
    p.1._currentChecks = memDrawn env w ++ otherDrawn env w ∧
    (definitions env.mgr w.build p.1._currentChecks).length = p.1._currentChecks.length ∧
    p.2.storage = [env.WARDEN_SMSG_CHEAT_CHECKS_REQUEST % 256] ++
      prepass (stringChecks env.mgr w.build (otherDrawn env w)) ++
      timingProbe env (xorByteOf w) ++
      (sectionList env (xorByteOf w) (fun t => (1 + t) % 256) (fun m => toLE 4 (rand32 m)) 0 0
        (definitions env.mgr w.build p.1._currentChecks)).flatten ++
      [xorByteOf w] ∧
    (sectionList env (xorByteOf w) (fun t => (1 + t) % 256) (fun m => toLE 4 (rand32 m)) 0 0
        (definitions env.mgr w.build p.1._currentChecks)).filterMap List.head? =
      (definitions env.mgr w.build p.1._currentChecks).map
        (fun wd => maskedTag env (xorByteOf w) wd.Type_) ∧
    (∀ r, HandleData env.mgr cs now p.1 buff = .ok r →
      resultRecords r.log =
        decodedResults env.mgr w.build buff.storage (buff.rpos + 11) p.1._currentChecks ∧
      r.buff = buff.setRpos (buff.rpos + 11 +
        loopBytes (env.mgr.GetWardenDataById w.build) buff.storage (buff.rpos + 11)
          p.1._currentChecks) ∧
      (resultRecords r.log).map (fun x => x.2.2) =
        p.1._currentChecks.filter (decodes env.mgr w.build) ∧
      (resultRecords r.log).map (fun x => x.1) =
        ((definitions env.mgr w.build p.1._currentChecks).filter
          fun wd => hasCase wd.Type_).map (fun wd => wd.Type_)) ∧
    ((∀ id ∈ p.1._currentChecks, CatalogOk env.mgr w.build id) →
      buff.rpos + 11 + loopBytes (env.mgr.GetWardenDataById w.build) buff.storage
        (buff.rpos + 11) p.1._currentChecks ≤ buff.storage.length →
      ∃ r, HandleData env.mgr cs now p.1 buff = .ok r ∧ r.completed = true ∧
        (resultRecords r.log).length = p.1._currentChecks.length ∧
        (resultRecords r.log).map (fun x => x.2.2) = p.1._currentChecks ∧
        (resultRecords r.log).map (fun x => x.1) =
          (definitions env.mgr w.build p.1._currentChecks).map (fun wd => wd.Type_) ∧
        (sectionList env (xorByteOf w) (fun t => (1 + t) % 256) (fun m => toLE 4 (rand32 m))
            0 0 (definitions env.mgr w.build p.1._currentChecks)).filterMap List.head? =
          (resultRecords r.log).map (fun x => maskedTag env (xorByteOf w) x.1) ∧
        ((sectionList env (xorByteOf w) (fun t => (1 + t) % 256) (fun m => toLE 4 (rand32 m))
            0 0 (definitions env.mgr w.build p.1._currentChecks)).filterMap List.head?).map
            (fun t => t ^^^ xorByteOf w) =
          (resultRecords r.log).map (fun x => env.tagByte x.1 % 256)) ∧
    (∀ w', Call.run wenv env (.handleData now buff) p.1 = .ok w' → w' = p.1) := by
  obtain ⟨hs, hc, hlen, hp⟩ := RequestData_payload hreq
  have hbuild : p.1.build = w.build := by
    rw [hs, RequestDataDraw_eq]
  have htags := sectionList_tags env (xorByteOf w) (fun t => (1 + t) % 256)
    (fun m => toLE 4 (rand32 m)) (definitions env.mgr w.build p.1._currentChecks) 0 0
  have hgen : ∀ r, HandleData env.mgr cs now p.1 buff = .ok r →
      resultRecords r.log =
        decodedResults env.mgr w.build buff.storage (buff.rpos + 11) p.1._currentChecks ∧
      r.buff = buff.setRpos (buff.rpos + 11 +
        loopBytes (env.mgr.GetWardenDataById w.build) buff.storage (buff.rpos + 11)
          p.1._currentChecks) ∧
      (resultRecords r.log).map (fun x => x.2.2) =
        p.1._currentChecks.filter (decodes env.mgr w.build) ∧
      (resultRecords r.log).map (fun x => x.1) =
        ((definitions env.mgr w.build p.1._currentChecks).filter
          fun wd => hasCase wd.Type_).map (fun wd => wd.Type_) := by
    intro r hres
    have hrec := HandleData_records hv hres
    have hl := HandleData_lines hv hres
    obtain ⟨hb, hids, -⟩ := HandleData_valid_spec hv hres
    rw [hbuild] at hrec hl hb hids
    refine ⟨hrec, hb, ?_, ?_⟩
    · rw [← resultIds_records, hids]
    · rw [← resultTypes_records, hl, decodedLines_types]
  refine ⟨hbuild, hc, hlen, ?_, htags, hgen, ?_, ?_⟩
  · rw [hp, sectionsFrom_flatten]
  · intro hcat hfit
    obtain ⟨st, hst⟩ := @checkLoop_ok_of_fits env.mgr p.1.build p.1._currentChecks
      { buff := buff.setRpos (buff.rpos + 11), checkFailed := 0, log := timingLog now p.1 buff }
      (by rw [hbuild]; exact hcat)
      (by rw [hbuild]; simpa only [rpos_setRpos, storage_setRpos, Nat.add_assoc] using hfit)
    have h : HandleData env.mgr cs now p.1 buff = .ok (finishCycle env.mgr w.build st) := by
      rw [HandleData_valid env.mgr now p.1 hv, hst, hbuild]
    obtain ⟨-, -, hids, htypes⟩ := hgen _ h
    have hall : ∀ id ∈ p.1._currentChecks, decodes env.mgr w.build id = true :=
      fun id hid => decodes_of_catalogOk (hcat id hid)
    have hl := HandleData_lines hv h
    rw [hbuild] at hl
    obtain ⟨-, hty⟩ := decodedLines_all env.mgr w.build _ hall
    rw [← hl, resultTypes_records] at hty
    rw [filter_decodes_of_catalogOk _ hcat] at hids
    have hmask : (sectionList env (xorByteOf w) (fun t => (1 + t) % 256)
        (fun m => toLE 4 (rand32 m)) 0 0
        (definitions env.mgr w.build p.1._currentChecks)).filterMap List.head? =
        (resultRecords (finishCycle env.mgr w.build st).log).map
          (fun x => maskedTag env (xorByteOf w) x.1) := by
      rw [htags]
      have := congrArg (List.map (fun t => maskedTag env (xorByteOf w) t)) hty
      simpa only [List.map_map, Function.comp_def] using this.symm
    refine ⟨_, h, finishCycle_completed _ _ _, ?_, hids, hty, hmask, ?_⟩
    · have := congrArg List.length hids
      simpa only [List.length_map] using this
    · rw [hmask, List.map_map]
      apply List.map_congr_left
      intro x _
      exact xor_mod_unmask _ _ (xorByteOf_lt w)
  · intro w' hw'
    simp only [Call.run] at hw'
    cases hr : HandleData env.mgr wenv.BuildChecksum now p.1 buff with
    | error e => rw [hr] at hw'; cases hw'
    | ok r' => rw [hr] at hw'; cases hw'; rfl

/-- C26, witness: the cycle on `exFullMgr` puts the ids 2, 1 (memory-region), 5
(Lua string) and 4 (page-presence) in flight; the sections of the request open
with the masked tags 0xBE, 0xBE, 0xC6 and 0xFF.  The response answers them in
this order: status 0 and the expected four bytes, status 0 and four bytes of
which the third differs, status 0 and a two-byte string, and the sentinel.
`HandleData` returns with one result per id, in this order, with the verdicts
passed, fail, passed and passed, and the tags of the request with the mask
removed are the tag bytes of the types of the results. -/
theorem C26_response_follows_request_witness :
    ValidResponse exChecksum (exResponse [1, 0x10, 0, 0, 0, 0, 1, 2, 3, 4, 0, 1, 2, 9, 4,
      0, 2, 0x68, 0x69, 0xE9]) ∧
    ∃ p r, RequestData (exReqEnv exFullMgr) 10 (fun _ => 0) (exPools [] [] []) = .ok p ∧
      HandleData exFullMgr exChecksum 2000 p.1
        (exResponse [1, 0x10, 0, 0, 0, 0, 1, 2, 3, 4, 0, 1, 2, 9, 4,
          0, 2, 0x68, 0x69, 0xE9]) = .ok r ∧
      p.1._currentChecks = [2, 1, 5, 4] ∧
      resultRecords r.log = [(.MEM_CHECK, .passed, 2), (.MEM_CHECK, .fail, 1),
        (.LUA_STR_CHECK, .passed, 5), (.PAGE_CHECK_A, .passed, 4)] ∧
      (sectionList (exReqEnv exFullMgr) 0x4D (fun t => (1 + t) % 256) (fun _ => toLE 4 0) 0 0
        (definitions exFullMgr 5875 [2, 1, 5, 4])).filterMap List.head? =
        [0xBE, 0xBE, 0xC6, 0xFF] ∧
      (resultRecords r.log).map (fun x => exTagByte x.1 % 256) = [0xF3, 0xF3, 0x8B, 0xB2] ∧
      r.buff.rpos = 26 := by
  have h := C26_response_follows_request (exReqEnv exFullMgr) exWardenEnv 10 (fun _ => 0)
    (exPools [] [] [])
    ((RequestDataDraw (exReqEnv exFullMgr) 10 (exPools [] [] [])).1,
      ⟨[2, 3, 0x61, 0x62, 5, 0, 0x1A, 0xBE, 0, 0, 0x10, 0, 0, 4, 0xBE, 0, 0, 0x10, 0, 0, 4,
        0xC6, 1, 0xFF, 0xAA, 0xBB, 0, 0x20, 0, 0, 8, 0x4D], 0, 32⟩)
    exChecksum 2000
    (exResponse [1, 0x10, 0, 0, 0, 0, 1, 2, 3, 4, 0, 1, 2, 9, 4, 0, 2, 0x68, 0x69, 0xE9])
    rfl (by decide)
  obtain ⟨-, -, -, -, -, hgen, hex, -⟩ := h
  obtain ⟨r, hr, -, -, -, -, hheads, hun⟩ := hex
    (by
      intro id hid
      have hid' : id ∈ [2, 1, 5, 4] := hid
      simp only [List.mem_cons, List.mem_singleton, List.not_mem_nil, or_false] at hid'
      rcases hid' with rfl | rfl | rfl | rfl
      · exact ⟨_, rfl, rfl, fun _ => ⟨_, rfl, by decide⟩, fun h => (by cases h)⟩
      · exact ⟨_, rfl, rfl, fun _ => ⟨_, rfl, by decide⟩, fun h => (by cases h)⟩
      · exact ⟨_, rfl, rfl, fun h => (by cases h), fun h => (by cases h)⟩
      · exact ⟨_, rfl, rfl, fun h => (by cases h), fun h => (by cases h)⟩)
    (by decide)
  obtain ⟨hrec, hb, -, -⟩ := hgen r hr
  refine ⟨by decide, _, r, rfl, hr, rfl, ?_, rfl, ?_, ?_⟩
  · rw [hrec]; rfl
  · rw [hrec]; rfl
  · rw [hb]; rfl

/-- C27: when the catalog is consistent for the build of the session and the
pools hold only ids the catalog returns, `RequestData` returns (no definition
it looks up is missing); the pools it leaves and the in-flight list it builds
again hold only ids the catalog returns, for the same build, so the same holds
in the next cycle; `HandleData` on the session it left never dereferences a
missing definition or expectation record, whatever the response; and when
`HandleData` calls `Penalty` for a check, the definition it looked up for the
failed check is present. -/
theorem C27_lookups_succeed (env : RequestEnv) (gameTime : Nat) (rand32 : Nat → Nat)
    (w : Session) (hcons : Consistent env.mgr w.build) (hpools : PoolsFromCatalog env.mgr w) :
    ∃ p, RequestData env gameTime rand32 w = .ok p ∧
      p.1.build = w.build ∧ PoolsFromCatalog env.mgr p.1 ∧
      (∀ id ∈ p.1._currentChecks, CatalogId env.mgr w.build id) ∧
      (∀ id ∈ p.1._currentChecks, env.mgr.GetWardenDataById w.build id ≠ none) ∧
      (∀ (cs : List Nat → Nat) (now : Nat) (buff : ByteBuffer),
        HandleData env.mgr cs now p.1 buff ≠ .error .nullPointer) ∧
      (∀ (cs : List Nat → Nat) (now : Nat) (buff : ByteBuffer) (r : HandleDataResult)
         (id : Nat) (check : Option WardenCheck),
        HandleData env.mgr cs now p.1 buff = .ok r → .forCheck id check ∈ r.penalty →
          check ≠ none) := by
  obtain ⟨hb, hp, hcur⟩ := RequestDataDraw_catalog gameTime hpools
  have hdef : ∀ id ∈ (RequestDataDraw env gameTime w).1._currentChecks,
      env.mgr.GetWardenDataById w.build id ≠ none := by
    intro id hid
    obtain ⟨rd, hrd, -⟩ := hcons id (hcur id hid)
    rw [hrd]; exact Option.some_ne_none _
  obtain ⟨buff, hreq⟩ := RequestData_session env gameTime rand32 w hdef
  have hall : ∀ id ∈ (RequestDataDraw env gameTime w).1._currentChecks,
      ∃ rd, env.mgr.GetWardenDataById (RequestDataDraw env gameTime w).1.build id = some rd ∧
        (rd.Type_ = .MEM_CHECK ∨ rd.Type_ = .MPQ_CHECK →
          env.mgr.GetWardenResultById (RequestDataDraw env gameTime w).1.build id ≠ none) := by
    intro id hid
    rw [hb]
    exact hcons id (hcur id hid)
  refine ⟨_, hreq, hb, hp, hcur, hdef, ?_, ?_⟩
  · intro cs now b
    exact HandleData_ne_null cs now _ b hall
  · intro cs now b r id check hr hmem
    rcases HandleData_ok_cases hr with ⟨-, h1⟩ | ⟨-, -, h1⟩ | ⟨hv, -⟩
    · rw [h1] at hmem; simp at hmem
    · rw [h1] at hmem; simp at hmem
    · obtain ⟨-, -, hF, hcf, hpen⟩ := HandleData_valid_spec hv hr
      rw [hpen] at hmem
      split at hmem
      · rename_i hpos
        simp only [List.mem_singleton, PenaltyCall.forCheck.injEq] at hmem
        obtain ⟨-, hcheck⟩ := hmem
        have hne : failedIds r.log ≠ [] := by
          intro h0
          rw [hcf, h0] at hpos
          exact absurd hpos (by decide)
        have hin := hF _ (getLastD_mem (failedIds r.log) 0 hne)
        rw [← hcf] at hin
        obtain ⟨rd, hrd, -⟩ := hall _ hin
        rw [hcheck, hrd]
        exact Option.some_ne_none _
      · simp at hmem

/-- C27, witness: the catalog `exMemMgr` holds a definition and an expectation
record for every id; from empty pools the cycle puts the id 7 in flight, and
`HandleData` on a response that is cut off after the header does not fail on a
missing entry. -/
theorem C27_lookups_succeed_witness :
    ∃ p, RequestData (exReqEnv exMemMgr) 10 (fun _ => 0) (exPools [] [] []) = .ok p ∧
      p.1._currentChecks = [7] ∧
      HandleData exMemMgr exChecksum 2000 p.1 (exResponse []) ≠ .error .nullPointer ∧
      HandleData exMemMgr exChecksum 2000 p.1 (exResponse [1, 0x10, 0, 0, 0, 0, 1, 2, 3, 5]) ≠
        .error .nullPointer := by
  obtain ⟨p, h, -, -, -, -, hnull, -⟩ := C27_lookups_succeed (exReqEnv exMemMgr) 10
    (fun _ => 0) (exPools [] [] [])
    (fun id _ => ⟨exMemCheck id, rfl, fun _ => Option.some_ne_none _⟩)
    (fun id hid => by simp [exPools] at hid)
  refine ⟨p, h, ?_, hnull _ _ _, hnull _ _ _⟩
  cases h
  rfl

/-- C30: over consecutive cycles of `RequestData` that return, for each pool: the
in-flight list of every cycle is the primary draws followed by the secondary
draws of the cycle; the ids drawn over the cycles, followed by the ids left in
the pool (back first), are the pool at the start (back first) followed by one
copy of the catalog's id list (back first) for every refill, so the ids of a
refill are drawn one after the other, none skipped and none twice, and a
refill's ids are drawn only after all ids before it; what is left in the pool
is a front part of the last refill's ids (of the pool at the start when there
was no refill); and every id is drawn and left as often as the pool at the
start and the refills hold it. -/
theorem C30_pool_ids_drawn_once (env : RequestEnv) (cycles : List (Nat × (Nat → Nat)))
    (w : Session) (c : CycleRecord) (h : runCycles env cycles w = .ok c) :
    c.inFlight = List.zipWith (fun a b => a ++ b) c.memDraws c.otherDraws ∧
    c.memDraws.length = cycles.length ∧ c.otherDraws.length = cycles.length ∧
    c.memDraws.flatten ++ c.session._memChecksTodo.reverse =
      w._memChecksTodo.reverse ++
        (List.replicate c.memRefills (env.mgr.GetWardenCheckIds true w.build).reverse).flatten ∧
    c.otherDraws.flatten ++ c.session._otherChecksTodo.reverse =
      w._otherChecksTodo.reverse ++
        (List.replicate c.otherRefills
          (env.mgr.GetWardenCheckIds false w.build).reverse).flatten ∧
    c.session._memChecksTodo <+:
      (if c.memRefills = 0 then w._memChecksTodo
       else env.mgr.GetWardenCheckIds true w.build) ∧
    c.session._otherChecksTodo <+:
      (if c.otherRefills = 0 then w._otherChecksTodo
       else env.mgr.GetWardenCheckIds false w.build) ∧
    (∀ x, c.memDraws.flatten.count x + c.session._memChecksTodo.count x =
      w._memChecksTodo.count x +
        c.memRefills * (env.mgr.GetWardenCheckIds true w.build).count x) ∧
    (∀ x, c.otherDraws.flatten.count x + c.session._otherChecksTodo.count x =
      w._otherChecksTodo.count x +
        c.otherRefills * (env.mgr.GetWardenCheckIds false w.build).count x) := by
  obtain ⟨-, hin, hl1, hl2, hm, ho, hpm, hpo⟩ := runCycles_spec env cycles w c h
  exact ⟨hin, hl1, hl2, hm, ho, hpm, hpo, fun x => count_stream x _ _ _ _ _ hm,
    fun x => count_stream x _ _ _ _ _ ho⟩

/-- C30, witness: three cycles on `exMixedMgr` (quotas 3 and 2) from empty pools.
The primary pool `[1, 2]` is drawn whole in every cycle and refilled three
times; the secondary pool `[3, 4, 5]` is refilled in the first cycle (5 and 4
drawn), emptied in the second (3 drawn) and refilled in the third (5 and 4
drawn, 3 left). -/
theorem C30_pool_ids_drawn_once_witness :
    ∃ c, runCycles (exReqEnv exMixedMgr) [(10, fun _ => 0), (20, fun _ => 0), (30, fun _ => 0)]
        (exPools [] [] []) = .ok c ∧
      c.inFlight = [[2, 1, 5, 4], [2, 1, 3], [2, 1, 5, 4]] ∧
      c.memRefills = 3 ∧ c.otherRefills = 2 ∧ c.session._otherChecksTodo = [3] ∧
      c.otherDraws.flatten ++ c.session._otherChecksTodo.reverse =
        [] ++ [[5, 4, 3], [5, 4, 3]].flatten :=
  ⟨_, rfl, rfl, rfl, rfl, rfl,
    (C30_pool_ids_drawn_once (exReqEnv exMixedMgr)
      [(10, fun _ => 0), (20, fun _ => 0), (30, fun _ => 0)] (exPools [] [] []) _ rfl).2.2.2.2.1⟩

end WardenWin
